import Mathlib

/-!
# go-sqlite: request queue, backup stepper and operation counters

A shallow embedding of the request-coordination code of the package
(`exec.go`, `exec_callback.go`, `private.go`, `defs.go`), of the online backup
and the file stub (`backup.go`, `xprogress.go`), of the counted operations
(`essentials.go`, `exec.go`, `get_data.go`, `db.go`), of the command
parameters (`strings.go`) and of the group of open databases
(`gosqlite_grp.go`), and the properties proved about them.

Conventions of the embedding

* The package-level variables `mResultQueue`, `GetResultSetSeqNo` and the C
  variable `queueID` are fields of an explicit `State`, passed through every
  operation.
* The SQLite engine is a parameter (`Env.exec`): a call on a handle with an SQL
  text yields the rows it hands to the row callback, a return code and the
  text `sqlite3_errmsg` would report, together with the next engine state.
* Go's `uint` is a natural number reduced modulo `2 ^ 64`, Go's `int` an
  integer wrapped into `[-2^63, 2^63)`, C's `int` an integer wrapped into
  `[-2^31, 2^31)`; `time.Time` is a natural number read from a clock kept in
  the state; an `error` is an optional message text (`none` is `nil`).
* Strings hold no NUL character, so that `C.CString` followed by `C.GoString`
  gives the string back.
* `log.Fatal` ends the process: operations that can reach it return `Option`,
  `none` standing for the terminated process.
* Operations run one after another (no interleaving of goroutines). A call of
  `GetResultSet` that enters while another call is in flight on the connection
  is modelled by the value of `getResultSetConnections` at its entry.
* The backup engine is a parameter (`BackupEngine`): the results of the
  successive `sqlite3_backup_step` calls and the page counts and error code
  read after them. What `BackupOnlineDB` does is recorded as a list of events
  (step calls, calls of the progress function, sleeps).
* A byte is a natural number, a `[]byte` a list of them; `strings.ToLower` is
  a parameter of `DBGroup.Get` (`asciiLower` on ASCII texts); what `os.Stat`,
  `fileOrDirExists` and `Open` answer is a parameter of the operation that
  asks.
* The six operation counters are a record `Counters`. The body an operation
  runs while its counter is raised (its goroutine, which prepares and steps
  statements) is a parameter of the operation; it does not write the counters.
-/

namespace GoSqlite

/-! ## Data model (`defs.go`) -/

/-- A Go value of type `any` as the row callback produces it: `int` or `string`. -/
inductive Value where
  | int (n : Int)
  | str (s : String)
deriving DecidableEq, Repr

/-- A Go `map[string]any`: keys are pairwise distinct, assignment replaces the
value of a key already present. -/
abbrev Row := List (String × Value)

/-- Assignment `m[k] = v`. -/
def Row.set : Row → String → Value → Row
  | [], k, v => [(k, v)]
  | (k0, v0) :: rest, k, v =>
    if k0 = k then (k, v) :: rest else (k0, v0) :: Row.set rest k v

/-- Lookup `m[k]`. -/
def Row.get : Row → String → Option Value
  | [], _ => none
  | (k0, v0) :: rest, k => if k0 = k then some v0 else Row.get rest k

/-- The struct `Column`. -/
structure Column where
  Name : String
  DataType : String
  IsPrimaryKey : Bool
  IsAutoIncrement : Bool
  IsGeneratedAlways : Bool
  NotNULL : Bool
  Ordinal : Int
  DefaultValue : Option Value
deriving DecidableEq, Repr

/-- The struct `QueryResult` returned to the caller. -/
structure QueryResult where
  SeqNo : Nat
  ResultTable : List Row
  Columns : List Column
  QueryID : String
  Err : Option String
  TimeStarted : Nat
  TimeEnded : Nat
deriving DecidableEq, Repr

/-- The struct `queryResult`: one record of the request queue. -/
structure queryResult where
  SeqNo : Nat
  Result : List Row
  QueryID : String
  Started : Bool
  Finished : Bool
  Err : Option String
  ExecResult : Int
  Received : Bool
  Processed : Bool
  TimeStarted : Nat
  TimeEnded : Nat
  AttemptsAfterDBLocked : Int
  SQLStmt : String
  QueryType : Nat
deriving DecidableEq, Repr

/-- The constant `DATA_TABLE`. -/
def DATA_TABLE : Nat := 1

/-- The fields of `DB` the queue code reads or writes. `DBHwnd` is the engine
handle (`none` is the nil pointer). -/
structure DB where
  DBHwnd : Option Nat
  Name : String
  Closed : Bool
  getResultSetConnections : Nat
deriving DecidableEq, Repr

/-- What one `sqlite3_exec` call does as seen from Go: the rows passed to the
row callback, each a list of (column name, value text), then the return code
and the message `sqlite3_errmsg` reports for the handle. -/
structure ExecResponse where
  rows : List (List (String × String))
  rc : Int
  errmsg : String
deriving DecidableEq, Repr

/-- The environment of the package: the engine, and the order in which a
`range` over a map visits its entries. -/
structure Env (σ : Type) where
  exec : σ → Option Nat → String → ExecResponse × σ
  rangeOrder : Row → Row

/-- The package-level state. `engineCalls` records the (handle, SQL text) of
every `sqlite3_exec` call made, oldest first. -/
structure State (σ : Type) where
  mResultQueue : List queryResult
  GetResultSetSeqNo : Nat
  queueID : String
  engine : σ
  clock : Nat
  engineCalls : List (Option Nat × String)

/-- Go `uint` arithmetic (64-bit): `n++`. -/
def uintInc (n : Nat) : Nat := (n + 1) % 2 ^ 64

/-- Go `uint` arithmetic (64-bit): `n--`. -/
def uintDec (n : Nat) : Nat := (n + (2 ^ 64 - 1)) % 2 ^ 64

/-! ## `strconv.Atoi` and `fmt.Sprintf("%d_%s")` -/

/-- The value of a decimal digit byte, as in `ch -= 48; if ch > 9 then fail`. -/
def digitVal (c : Char) : Option Nat :=
  if 48 ≤ c.toNat ∧ c.toNat ≤ 57 then some (c.toNat - 48) else none

/-- Reads a run of decimal digits, most significant first, onto `acc`. -/
def parseDigits : List Char → Nat → Option Nat
  | [], acc => some acc
  | c :: cs, acc =>
    match digitVal c with
    | some d => parseDigits cs (acc * 10 + d)
    | none => none

/-- The function `strconv.Atoi` for a 64-bit `int`: an optional sign, then one
or more decimal digits, the value within `-2^63 .. 2^63 - 1`; `none` is the
error result. -/
def Atoi (s : String) : Option Int :=
  match s.data with
  | [] => none
  | c :: cs =>
    if c = '-' then
      if cs = [] then none
      else match parseDigits cs 0 with
        | some n => if n ≤ 2 ^ 63 then some (-(n : Int)) else none
        | none => none
    else if c = '+' then
      if cs = [] then none
      else match parseDigits cs 0 with
        | some n => if n < 2 ^ 63 then some (n : Int) else none
        | none => none
    else match parseDigits (c :: cs) 0 with
      | some n => if n < 2 ^ 63 then some (n : Int) else none
      | none => none

/-- The character of a decimal digit. -/
def digitChar (d : Nat) : Char := Char.ofNat (48 + d)

/-- The decimal digits of `n`, most significant first (`fuel` bounds the number
of digits). -/
def decimalAux : Nat → Nat → List Char
  | 0, _ => []
  | fuel + 1, n =>
    if n < 10 then [digitChar n]
    else decimalAux fuel (n / 10) ++ [digitChar (n % 10)]

/-- The verb `%d` applied to an unsigned number. -/
def decimal (n : Nat) : String := ⟨decimalAux (n + 1) n⟩

/-- The format `fmt.Sprintf("%d_%s", seqNo, name)`. -/
def mkQueryID (seqNo : Nat) (name : String) : String :=
  decimal seqNo ++ "_" ++ name

/-! ## The row callback (`exec_callback.go`) -/

/-- The conversion of one column value text: `strconv.Atoi`, and the text
itself when that fails. -/
def convertValue (s : String) : Value :=
  match Atoi s with
  | some n => Value.int n
  | none => Value.str s

/-- The loop over the `argc` columns, filling `mRow`. -/
def buildRow : List (String × String) → Row → Row
  | [], mRow => mRow
  | (col, s) :: rest, mRow => buildRow rest (mRow.set col (convertValue s))

/-- The final loop of the callback: append `mRow` to the `Result` of the first
record whose `QueryID` is `qryID`, then return. -/
def appendRow (qryID : String) (mRow : Row) : List queryResult → List queryResult
  | [] => []
  | r :: rs =>
    if r.QueryID = qryID then { r with Result := r.Result ++ [mRow] } :: rs
    else r :: appendRow qryID mRow rs

/-- The exported callback `go_sqlite3_exec_callback`, on the queue. -/
def go_sqlite3_exec_callback (cells : List (String × String)) (queryID : String)
    (queue : List queryResult) : List queryResult :=
  appendRow queryID (buildRow cells []) queue

/-! ## The engine call and `execWithResults` (`exec.go`) -/

/-- The function `getSQLiteErr`: `nil` for return code 0, otherwise an error
carrying the engine's message. -/
def getSQLiteErr (res : Int) (errmsg : String) : Option String :=
  if res = 0 then none else some errmsg

/-- The rows of one engine call reaching the queue: the C function `getResult`
passes each row to `go_sqlite3_exec_callback` with the C variable `queueID`. -/
def deliverRows (rows : List (List (String × String))) (queueID : String)
    (queue : List queryResult) : List queryResult :=
  rows.foldl (fun q cells => go_sqlite3_exec_callback cells queueID q) queue

/-- The call `C.sqlite3_exec(hwnd, sql, getResult, nil, _)` followed by
`sqlite3_errmsg`: returns the code, the message and the state after the callbacks. -/
def sqlite3_exec {σ : Type} (env : Env σ) (hwnd : Option Nat) (sql : String)
    (s : State σ) : Int × String × State σ :=
  let r := env.exec s.engine hwnd sql
  (r.1.rc, r.1.errmsg,
    { s with
      engine := r.2
      mResultQueue := deliverRows r.1.rows s.queueID s.mResultQueue
      engineCalls := s.engineCalls ++ [(hwnd, sql)] })

/-- The reset of a record after "database is locked". -/
def resetRecord (r : queryResult) : queryResult :=
  { r with Started := false, Finished := false, ExecResult := -1, Err := none }

/-- The completion of a record: `Err`, `ExecResult`, `TimeEnded`, `Processed`
and, last, `Finished`. -/
def finishRecord (err : Option String) (res : Int) (now : Nat) (r : queryResult) :
    queryResult :=
  { r with Err := err, ExecResult := res, TimeEnded := now, Processed := true,
           Finished := true }

/-- The loop of `execWithResults` over the queue: the first record whose
`QueryID` is `queryID` is reset (locked) or completed; the loop ends there. -/
def markRecord (queryID : String) (isDBLocked : Bool) (err : Option String) (res : Int)
    (now : Nat) : List queryResult → List queryResult
  | [] => []
  | r :: rs =>
    if r.QueryID = queryID then
      (if isDBLocked then resetRecord r else finishRecord err res now r) :: rs
    else r :: markRecord queryID isDBLocked err res now rs

/-- Whether some record of the queue has the given `QueryID`. -/
def hasQuery (queryID : String) (queue : List queryResult) : Bool :=
  queue.any (fun r => r.QueryID == queryID)

/-- The method `execWithResults`. `none`: the engine reported "out of memory"
and `log.Fatal` ended the process. The clock is read (`time.Now()`) only when a
record is completed. -/
def execWithResults {σ : Type} (env : Env σ) (d : DB) (queryID sqlx : String)
    (s : State σ) : Option (State σ) :=
  let s1 := { s with queueID := queryID }
  let r := sqlite3_exec env d.DBHwnd sqlx s1
  let res := r.1
  let s2 := r.2.2
  let err := getSQLiteErr res r.2.1
  let isDBLocked : Bool := err == some "database is locked"
  if err = some "out of memory" then none
  else
    some { s2 with
      mResultQueue := markRecord queryID isDBLocked err res s2.clock s2.mResultQueue
      clock := if !isDBLocked && hasQuery queryID s2.mResultQueue then s2.clock + 1
               else s2.clock }

/-! ## `private.go`: the queue operations -/

/-- The loop of `processRequestQueue` from index `i` on; `fuel` bounds the
number of iterations (the queue length is enough, see
`processLoop_fuel`). -/
def processLoop {σ : Type} (env : Env σ) (d : DB) : Nat → Nat → State σ → Option (State σ)
  | 0, _, s => some s
  | fuel + 1, i, s =>
    match s.mResultQueue[i]? with
    | none => some s
    | some r =>
      if !r.Processed && !r.Received && !r.Started then
        let s1 := { s with
          mResultQueue := s.mResultQueue.set i { r with Started := true, TimeStarted := s.clock }
          clock := s.clock + 1 }
        match execWithResults env d r.QueryID r.SQLStmt s1 with
        | none => none
        | some s2 => processLoop env d fuel (i + 1) s2
      else processLoop env d fuel (i + 1) s

/-- The method `processRequestQueue`. -/
def processRequestQueue {σ : Type} (env : Env σ) (d : DB) (s : State σ) : Option (State σ) :=
  processLoop env d s.mResultQueue.length 0 s

/-- The index of the first record whose `QueryID` is `queryID`. -/
def indexOfQuery (queryID : String) : List queryResult → Option Nat
  | [] => none
  | r :: rs =>
    if r.QueryID = queryID then some 0 else (indexOfQuery queryID rs).map (· + 1)

/-- The method `removeFromResultQueue`: the first record with the given
`QueryID` is swapped with the last one and the queue is cut by one. -/
def removeFromResultQueue (queryID : String) (queue : List queryResult) :
    List queryResult :=
  if queue.length = 0 then queue
  else
    match indexOfQuery queryID queue with
    | none => queue
    | some i =>
      match queue[i]?, queue[queue.length - 1]? with
      | some a, some b =>
        ((queue.set (queue.length - 1) a).set i b).take (queue.length - 1)
      | _, _ => queue

/-- The constants of `SQLiteDataType()` that `GetSQLiteDataType` returns for
the two dynamic types a callback row holds (`int`, `string`). -/
def GetSQLiteDataType (v : Value) : String :=
  match v with
  | Value.int _ => "INTEGER"
  | Value.str _ => "TEXT"

/-- The zero value of `Column`. -/
def Column.zero : Column :=
  { Name := "", DataType := "", IsPrimaryKey := false, IsAutoIncrement := false,
    IsGeneratedAlways := false, NotNULL := false, Ordinal := 0, DefaultValue := none }

/-- The `range` loop of `waiForQueryResult` over the first row, writing
`Columns[p]` and stopping once `p >= colLen`. -/
def fillColumns : List (String × Value) → Nat → Nat → List Column → List Column
  | [], _, _, cols => cols
  | (k, v) :: rest, p, colLen, cols =>
    let cols1 := cols.set p
      { Column.zero with Name := k, Ordinal := (p : Int), DataType := GetSQLiteDataType v }
    if p + 1 ≥ colLen then cols1 else fillColumns rest (p + 1) colLen cols1

/-- The column metadata sampled from the first row, if there is one. -/
def buildColumns {σ : Type} (env : Env σ) (table : List Row) : List Column :=
  match table with
  | [] => []
  | row :: _ =>
    fillColumns (env.rangeOrder row) 0 row.length (List.replicate row.length Column.zero)

/-- The zero value of `QueryResult`. -/
def QueryResult.zero : QueryResult :=
  { SeqNo := 0, ResultTable := [], Columns := [], QueryID := "", Err := none,
    TimeStarted := 0, TimeEnded := 0 }

/-- The first index `i` whose record has the given `QueryID` and is `Finished`
or has an error: where the inner loop of `waiForQueryResult` stops. -/
def findCompleted (queryID : String) : List queryResult → Option (Nat × queryResult)
  | [] => none
  | r :: rs =>
    if r.QueryID = queryID ∧ (r.Finished = true ∨ r.Err ≠ none) then some (0, r)
    else (findCompleted queryID rs).map (fun p => (p.1 + 1, p.2))

/-- The queue after the waiter has set `Received` on the record at index `i`. -/
def markReceived (i : Nat) (queue : List queryResult) : List queryResult :=
  match queue[i]? with
  | none => queue
  | some r => queue.set i { r with Received := true }

/-- One pass of the inner loop of `waiForQueryResult`: `none` when no record
of the queue is ready, otherwise the result returned and the state left. -/
def pollQueue {σ : Type} (env : Env σ) (queryID : String) (s : State σ) :
    Option (QueryResult × State σ) :=
  match findCompleted queryID s.mResultQueue with
  | none => none
  | some (i, mq) =>
    let q : QueryResult :=
      { SeqNo := mq.SeqNo, ResultTable := mq.Result, Columns := buildColumns env mq.Result,
        QueryID := mq.QueryID, Err := mq.Err, TimeStarted := mq.TimeStarted,
        TimeEnded := mq.TimeEnded }
    some (q, { s with
      mResultQueue := removeFromResultQueue queryID (markReceived i s.mResultQueue) })

/-- The outer loop of `waiForQueryResult`, `n` passes left before `j > timeoutSec`. -/
def waitLoop {σ : Type} (env : Env σ) (queryID : String) : Nat → State σ → QueryResult × State σ
  | 0, s => ({ QueryResult.zero with Err := some "query timed out" }, s)
  | n + 1, s =>
    match pollQueue env queryID s with
    | some r => r
    | none => waitLoop env queryID n s

/-- The default bound of the poll loop, `1500000 * 60 * 60 * 5`. -/
def defaultTimeout : Int := 1500000 * 60 * 60 * 5

/-- The method `waiForQueryResult`: passes are made for `j = 0 .. timeoutSec`. -/
def waiForQueryResult {σ : Type} (env : Env σ) (queryID : String) (timeoutSec : Int)
    (s : State σ) : QueryResult × State σ :=
  let timeoutSec := if timeoutSec = 0 then defaultTimeout else timeoutSec
  waitLoop env queryID (timeoutSec + 1).toNat s

/-! ## `GetResultSet` (`exec.go`) -/

/-- The record appended by `GetResultSet`. -/
def newRecord (seqNo : Nat) (queryID sqlx : String) : queryResult :=
  { SeqNo := seqNo, Result := [], QueryID := queryID, Started := false, Finished := false,
    Err := none, ExecResult := 0, Received := false, Processed := false, TimeStarted := 0,
    TimeEnded := 0, AttemptsAfterDBLocked := 0, SQLStmt := sqlx, QueryType := DATA_TABLE }

/-- The locked section of `GetResultSet`: the counter is incremented and the
record appended. -/
def enqueue {σ : Type} (d : DB) (sqlx : String) (s : State σ) : State σ :=
  let seqNo := uintInc s.GetResultSetSeqNo
  { s with
    GetResultSetSeqNo := seqNo
    mResultQueue := s.mResultQueue ++ [newRecord seqNo (mkQueryID seqNo d.Name) sqlx] }

/-- The method `GetResultSet`: the result, the connection and the state on
return (`none`: the process was ended by `log.Fatal`). -/
def GetResultSet {σ : Type} (env : Env σ) (d : DB) (sqlx : String) (s : State σ) :
    Option (QueryResult × DB × State σ) :=
  if d.Closed then
    some ({ QueryResult.zero with Err := some "database is not open" }, d, s)
  else
    let d1 := { d with getResultSetConnections := uintInc d.getResultSetConnections }
    let s1 := enqueue d1 sqlx s
    let queryID := mkQueryID s1.GetResultSetSeqNo d1.Name
    let processed :=
      if d1.getResultSetConnections < 2 then processRequestQueue env d1 s1 else some s1
    match processed with
    | none => none
    | some s2 =>
      let r := waiForQueryResult env queryID 0 s2
      some (r.1, { d1 with getResultSetConnections := uintDec d1.getResultSetConnections },
            r.2)

/-- A sequence of `GetResultSet` calls on one connection, each returning before
the next is made: for every call, in call order, its result and the state it
left; then the final connection and state. -/
def runCalls {σ : Type} (env : Env σ) : DB → List String → State σ →
    Option (List (QueryResult × State σ) × DB × State σ)
  | d, [], s => some ([], d, s)
  | d, sqlx :: rest, s =>
    match GetResultSet env d sqlx s with
    | none => none
    | some (q, d1, s1) =>
      match runCalls env d1 rest s1 with
      | none => none
      | some (qs, d2, s2) => some ((q, s1) :: qs, d2, s2)

/-! ## Invariant and transition system of the queue -/

/-- The `QueryID`s of a queue, in queue order. -/
def queueIDs (queue : List queryResult) : List String := queue.map (·.QueryID)

/-- The identifying fields of a record: sequence number and `QueryID`. -/
def recKey (r : queryResult) : Nat × String := (r.SeqNo, r.QueryID)

/-- The invariant that keeps `QueryID`s distinct: no two records share a
`QueryID`, and every record carries a sequence number the counter has already
passed and the `QueryID` formatted from it. -/
def QueueInv {σ : Type} (s : State σ) : Prop :=
  (queueIDs s.mResultQueue).Nodup ∧
  ∀ r ∈ s.mResultQueue, r.SeqNo ≤ s.GetResultSetSeqNo ∧
    ∃ name, r.QueryID = mkQueryID r.SeqNo name

/-- The operations that touch the queue. -/
inductive Op where
  | enqueue (d : DB) (sqlx : String)
  | callback (cells : List (String × String)) (queryID : String)
  | exec (d : DB) (queryID sqlx : String)
  | process (d : DB)
  | wait (queryID : String) (timeoutSec : Int)

/-- The state an operation leaves (`none`: the process was ended). -/
def applyOp {σ : Type} (env : Env σ) : Op → State σ → Option (State σ)
  | Op.enqueue d sqlx, s => some (enqueue d sqlx s)
  | Op.callback cells queryID, s =>
    some { s with mResultQueue := go_sqlite3_exec_callback cells queryID s.mResultQueue }
  | Op.exec d queryID sqlx, s => execWithResults env d queryID sqlx s
  | Op.process d, s => processRequestQueue env d s
  | Op.wait queryID timeoutSec, s => some (waiForQueryResult env queryID timeoutSec s).2

/-- The states reached from an empty queue by the operations, the counter never
wrapping around at an enqueue. -/
inductive Reachable {σ : Type} (env : Env σ) : State σ → Prop where
  | init (s : State σ) (h : s.mResultQueue = []) : Reachable env s
  | step (s s1 : State σ) (op : Op) (hs : Reachable env s)
      (hw : ∀ d sqlx, op = Op.enqueue d sqlx → s.GetResultSetSeqNo + 1 < 2 ^ 64)
      (h : applyOp env op s = some s1) : Reachable env s1

/-- The outcome of a sequence of calls as read off the engine alone: for every
SQL text in turn the sequence number and `QueryID` assigned from the counter,
the converted rows of the engine's answer and its error. -/
def callOutcomes {σ : Type} (env : Env σ) (hwnd : Option Nat) (name : String) :
    List String → Nat → σ → List (Nat × String × List Row × Option String)
  | [], _, _ => []
  | sqlx :: rest, c, e =>
    (uintInc c, mkQueryID (uintInc c) name,
      (env.exec e hwnd sqlx).1.rows.map (fun cells => buildRow cells []),
      getSQLiteErr (env.exec e hwnd sqlx).1.rc (env.exec e hwnd sqlx).1.errmsg) ::
    callOutcomes env hwnd name rest (uintInc c) (env.exec e hwnd sqlx).2

/-! ## Sample environments -/

/-- An engine that answers every call with the single row of `SELECT 1`
(column "1", text "1") and `SQLITE_OK`. -/
def selectOneEnv : Env Unit :=
  { exec := fun _ _ _ => (⟨[[("1", "1")]], 0, "not an error"⟩, ())
    rangeOrder := id }

/-- An engine whose database is held by another writer: every call fails with
`SQLITE_BUSY`, message "database is locked". -/
def lockedEnv : Env Unit :=
  { exec := fun _ _ _ => (⟨[], 5, "database is locked"⟩, ())
    rangeOrder := id }

/-- An engine on which every statement fails with `SQLITE_ERROR`. -/
def failingEnv : Env Unit :=
  { exec := fun _ _ _ => (⟨[], 1, "no such table: t"⟩, ())
    rangeOrder := id }

/-- A fresh process: empty queue, counter 0. -/
def freshState : State Unit :=
  { mResultQueue := [], GetResultSetSeqNo := 0, queueID := "", engine := (), clock := 0,
    engineCalls := [] }

/-- An open connection named "conn1". -/
def conn1 : DB := { DBHwnd := some 1, Name := "conn1", Closed := false, getResultSetConnections := 0 }

/-- A state whose queue holds two pending requests. -/
def twoPending : State Unit :=
  { freshState with
    mResultQueue := [newRecord 1 "1_conn1" "SELECT 1", newRecord 2 "2_conn1" "SELECT 2"]
    GetResultSetSeqNo := 2 }

/-- A completed request: the record of "2_conn1" after its engine call. -/
def finishedSecond : queryResult :=
  { newRecord 2 "2_conn1" "SELECT 2" with
    Result := [[("2", Value.int 2)]], Started := true, Processed := true, Finished := true,
    TimeStarted := 3, TimeEnded := 4 }

/-- A state whose queue holds a completed request between two pending ones. -/
def threeQueued : State Unit :=
  { freshState with
    mResultQueue :=
      [newRecord 1 "1_conn1" "SELECT 1"] ++ finishedSecond :: [newRecord 3 "3_conn1" "SELECT 3"]
    GetResultSetSeqNo := 3 }

/-- A state in which `processRequestQueue` has started the first of two queued
requests and is about to call `execWithResults` for it. -/
def firstStarted : State Unit :=
  { freshState with
    mResultQueue :=
      [{ newRecord 1 "1_conn1" "SELECT 1" with Started := true, TimeStarted := 7 },
       newRecord 2 "2_conn1" "SELECT 2"]
    GetResultSetSeqNo := 2
    clock := 8 }

/-- The number of passes of the inner loop that `waitLoop` makes with `n`
passes left: it stops at the first pass that finds a completed record. -/
def waitLoopScans {σ : Type} (env : Env σ) (queryID : String) : Nat → State σ → Nat
  | 0, _ => 0
  | n + 1, s =>
    match pollQueue env queryID s with
    | some _ => 1
    | none => 1 + waitLoopScans env queryID n s

/-- The number of scans of the queue `waiForQueryResult` makes before it returns. -/
def waiForQueryResultScans {σ : Type} (env : Env σ) (queryID : String) (timeoutSec : Int)
    (s : State σ) : Nat :=
  let timeoutSec := if timeoutSec = 0 then defaultTimeout else timeoutSec
  waitLoopScans env queryID (timeoutSec + 1).toNat s

/-- The column `waiForQueryResult` writes at position `p` for the entry `k: v`
of the first row. -/
def columnAt (k : String) (v : Value) (p : Nat) : Column :=
  { Column.zero with Name := k, Ordinal := (p : Int), DataType := GetSQLiteDataType v }

/-- The columns written for the entries of a map visited in the given order,
the first at position `p`. -/
def columnsFrom : List (String × Value) → Nat → List Column
  | [], _ => []
  | (k, v) :: rest, p => columnAt k v p :: columnsFrom rest (p + 1)

/-! ## The backup stepper (`backup.go`, `xprogress.go`) -/

/-- The result code `SQLITE_OK`. -/
def SQLITE_OK : Int := 0

/-- The result code `SQLITE_BUSY`. -/
def SQLITE_BUSY : Int := 5

/-- The result code `SQLITE_LOCKED`. -/
def SQLITE_LOCKED : Int := 6

/-- The result code `SQLITE_DONE`. -/
def SQLITE_DONE : Int := 101

/-- The option text `backup_raise_err_on_busy`. -/
def backup_raise_err_on_busy : String := "backup-raise-err-on-busy"

/-- The option text `backup_raise_err_on_dblocked`. -/
def backup_raise_err_on_dblocked : String := "backup-raise-err-on-dblocked"

/-- The function `GetErrText` (`gosqlite.go`). -/
def GetErrText (errN : Int) : String :=
  if errN = 0 then "successful result"
  else if errN = 1 then "Generic error"
  else if errN = 2 then "internal logic error in SQLite"
  else if errN = 3 then "access permission denied"
  else if errN = 4 then "callback routine requested an abort"
  else if errN = 5 then "database file is locked"
  else if errN = 6 then "database table is locked"
  else if errN = 7 then "out of memory"
  else if errN = 8 then "attempt to write a readonly database"
  else if errN = 9 then "interrupted"
  else if errN = 10 then "disk I/O error error"
  else if errN = 11 then "database disk image is malformed"
  else if errN = 12 then "unknown operation"
  else if errN = 13 then "database or disk is full"
  else if errN = 14 then "unable to open database file"
  else if errN = 15 then "locking protocol error"
  else if errN = 16 then "internal use only"
  else if errN = 17 then "database schema has changed"
  else if errN = 18 then "string or blob too big"
  else if errN = 19 then "constraint failed"
  else if errN = 20 then "database schema has changed"
  else if errN = 21 then "bad parameter or other API misuse"
  else if errN = 22 then "large file support is disabled"
  else if errN = 23 then "authorization denied"
  else if errN = 24 then "not used"
  else if errN = 25 then "column index out of range"
  else if errN = 26 then "File opened that is not a database file"
  else if errN = 27 then "notification message"
  else if errN = 28 then "Warning message"
  else if errN = 100 then "sqlite3_step() has another row ready"
  else if errN = 101 then "sqlite3_step() has finished executing"
  else "unknown error"

/-- The conversion `C.int(n)` of a Go `int` (the low 32 bits, signed). -/
def cInt (n : Int) : Int := (n + 2 ^ 31) % 2 ^ 32 - 2 ^ 31

/-- The engine as `BackupOnlineDB` sees it: the result of `sqlite3_open` on the
destination, whether `sqlite3_backup_init` returned a handle, the result of the
step call number `k` (from 0), the values of `sqlite3_backup_remaining` and
`sqlite3_backup_pagecount` once `k` step calls were made, and the value of
`sqlite3_errcode` on the destination at the end, `k` step calls having been made. -/
structure BackupEngine where
  openRc : Int
  initOk : Bool
  stepRc : Nat → Int
  remaining : Nat → Int
  pagecount : Nat → Int
  errcode : Nat → Int

/-- What the backup does that a caller can observe: a call of
`sqlite3_backup_step` with its result, a call of a progress function (named by a
number) with its three arguments, a call of `sqlite3_sleep`. -/
inductive BackupEvent where
  | step (rc : Int)
  | progress (callback : Nat) (x y : Int) (data : String)
  | sleep (ms : Int)
deriving DecidableEq, Repr

/-- The fields of a `DB` the backup reads or writes: the handle and the
progress function (`none` is `nil`). -/
structure OpenDatabase where
  DBHwnd : Option Nat
  BackupProgress : Option Nat
deriving DecidableEq, Repr

/-- The exported function `go_xProgress` over `DBGrp.Base().OpenDatabases`: the
first database with the handle `pDb` has its progress function called, if set. -/
def go_xProgress (x y : Int) (pDb : Option Nat) (data : String) :
    List OpenDatabase → List BackupEvent
  | [] => []
  | db :: rest =>
    if db.DBHwnd = pDb then
      match db.BackupProgress with
      | some f => [BackupEvent.progress f x y data]
      | none => []
    else go_xProgress x y pDb data rest

/-- The loop of `BackupOnlineDB` over `options`, from the flags so far
(`errOnBusy`, `errOnDBLocked`). -/
def parseBackupOptions : List String → Bool × Bool → Bool × Bool
  | [], flags => flags
  | o :: rest, flags =>
    if o = backup_raise_err_on_dblocked then parseBackupOptions rest (flags.1, true)
    else if o = backup_raise_err_on_busy then parseBackupOptions rest (true, flags.2)
    else parseBackupOptions rest flags

/-- The step loop of `BackupOnlineDB`, `k` step calls made so far. It has no
bound of its own: `fuel` bounds the number of iterations and `none` says the
loop was still running when the fuel ran out. On exit: the number of step
calls made and the events. -/
def backupLoop (eng : BackupEngine) (errOnBusy errOnDBLocked : Bool) (ms : Int)
    (pDb : Option Nat) (data : String) (group : List OpenDatabase) :
    Nat → Nat → List BackupEvent → Option (Nat × List BackupEvent)
  | 0, _, _ => none
  | fuel + 1, k, ev =>
    let rc := eng.stepRc k
    let ev1 := ev ++ [BackupEvent.step rc]
    if errOnBusy && rc == SQLITE_BUSY then some (k + 1, ev1)
    else if errOnDBLocked && rc == SQLITE_LOCKED then some (k + 1, ev1)
    else if rc != SQLITE_OK && rc != SQLITE_BUSY && rc != SQLITE_LOCKED then some (k + 1, ev1)
    else
      let ev2 := ev1 ++
        go_xProgress (eng.remaining (k + 1)) (eng.pagecount (k + 1)) pDb data group
      let ev3 :=
        if rc == SQLITE_OK || rc == SQLITE_BUSY || rc == SQLITE_LOCKED then
          ev2 ++ [BackupEvent.sleep (cInt ms)]
        else ev2
      backupLoop eng errOnBusy errOnDBLocked ms pDb data group fuel (k + 1) ev3

/-- What a call of `BackupOnlineDB` leaves: the error returned, the events, the
caller's database object and the list of open databases. -/
structure BackupResult where
  err : Option String
  events : List BackupEvent
  onlineDB : OpenDatabase
  OpenDatabases : List OpenDatabase
deriving DecidableEq, Repr

/-- The function `BackupOnlineDB`. `registeredAt` is the position of the object
`onlineDB` in `OpenDatabases` (`none`: it is not in the list); `fileExists` is
the answer of `fileOrDirExists(filePathBackupTo)`. `none`: the step loop was
still running when the fuel ran out. -/
def BackupOnlineDB (eng : BackupEngine) (fuel : Nat) (onlineDB : OpenDatabase)
    (registeredAt : Option Nat) (OpenDatabases : List OpenDatabase) (fileExists : Bool)
    (millSecToSleepBeforeRepeating : Int) (prgCallback : Option Nat) (extraData : String)
    (options : List String) : Option BackupResult :=
  if !fileExists then
    some { err := some "database file does not exist", events := [], onlineDB := onlineDB,
           OpenDatabases := OpenDatabases }
  else
    let ms := if millSecToSleepBeforeRepeating < 0 then 0 else millSecToSleepBeforeRepeating
    let flags := parseBackupOptions options (false, false)
    let db1 : OpenDatabase := { onlineDB with BackupProgress := prgCallback }
    let group1 :=
      match registeredAt with
      | some i => OpenDatabases.set i db1
      | none => OpenDatabases
    let finish (rc : Int) (ev : List BackupEvent) : BackupResult :=
      { err := if rc = 0 then none else some (GetErrText rc), events := ev, onlineDB := db1,
        OpenDatabases := group1 }
    if eng.openRc = SQLITE_OK then
      if eng.initOk then
        match backupLoop eng flags.1 flags.2 ms db1.DBHwnd extraData group1 fuel 0 [] with
        | none => none
        | some (k, ev) => some (finish (eng.errcode k) ev)
      else some (finish (eng.errcode 0) [])
    else some (finish eng.openRc [])

/-- The step calls among the events. -/
def stepEvents (ev : List BackupEvent) : List BackupEvent :=
  ev.filter (fun e => match e with | BackupEvent.step _ => true | _ => false)

/-- The progress calls among the events. -/
def progressEvents (ev : List BackupEvent) : List BackupEvent :=
  ev.filter (fun e => match e with | BackupEvent.progress _ _ _ _ => true | _ => false)

/-- The sleeps among the events. -/
def sleepEvents (ev : List BackupEvent) : List BackupEvent :=
  ev.filter (fun e => match e with | BackupEvent.sleep _ => true | _ => false)

/-- Whether the loop goes on after a step call with result `rc`: none of the
three `break`s is taken. -/
def stepContinues (errOnBusy errOnDBLocked : Bool) (rc : Int) : Bool :=
  !(errOnBusy && rc == SQLITE_BUSY) && !(errOnDBLocked && rc == SQLITE_LOCKED) &&
    !(rc != SQLITE_OK && rc != SQLITE_BUSY && rc != SQLITE_LOCKED)

/-- The events of the iterations `k, .., k + m - 1` of the loop when each of
them goes on: the step call, the progress report and the sleep. -/
def reportedSteps (eng : BackupEngine) (ms : Int) (pDb : Option Nat) (data : String)
    (group : List OpenDatabase) : Nat → Nat → List BackupEvent
  | _, 0 => []
  | k, m + 1 =>
    [BackupEvent.step (eng.stepRc k)] ++
      go_xProgress (eng.remaining (k + 1)) (eng.pagecount (k + 1)) pDb data group ++
      [BackupEvent.sleep (cInt ms)] ++
    reportedSteps eng ms pDb data group (k + 1) m

/-- A stubbed engine whose step returns `SQLITE_LOCKED` for the first `n` calls
and then `SQLITE_DONE`; 10 pages in all, 5 copied by the final step; the
destination reports no error once the copy is done. -/
def lockedThenDone (n : Nat) : BackupEngine :=
  { openRc := 0
    initOk := true
    stepRc := fun k => if k < n then SQLITE_LOCKED else SQLITE_DONE
    remaining := fun k => if k ≤ n then 5 else 0
    pagecount := fun _ => 10
    errcode := fun k => if k = n + 1 then 0 else SQLITE_LOCKED }

/-- A stubbed engine that copies a small database in a single step: the first
step call returns `SQLITE_DONE`. -/
def doneAtOnce : BackupEngine :=
  { openRc := 0
    initOk := true
    stepRc := fun _ => SQLITE_DONE
    remaining := fun _ => 0
    pagecount := fun _ => 3
    errcode := fun _ => 0 }

/-- A stubbed engine whose first step copies some pages (`SQLITE_OK`), whose
second step finds the source locked and whose later steps report done; the
destination's error code is that of the last step made. -/
def stepThenLocked : BackupEngine :=
  { openRc := 0
    initOk := true
    stepRc := fun k => if k = 0 then SQLITE_OK else if k = 1 then SQLITE_LOCKED else SQLITE_DONE
    remaining := fun k => if k ≤ 2 then 4 else 0
    pagecount := fun _ => 9
    errcode := fun k => if k = 2 then SQLITE_LOCKED else 0 }

/-- A stubbed engine whose first step copies some pages and whose second step
finds the destination busy. -/
def stepThenBusy : BackupEngine :=
  { openRc := 0
    initOk := true
    stepRc := fun k => if k = 0 then SQLITE_OK else if k = 1 then SQLITE_BUSY else SQLITE_DONE
    remaining := fun k => if k ≤ 2 then 4 else 0
    pagecount := fun _ => 9
    errcode := fun k => if k = 2 then SQLITE_BUSY else 0 }

/-- The database object of an open connection with handle 1, no progress
function set yet. -/
def onlineConn : OpenDatabase := { DBHwnd := some 1, BackupProgress := none }

/-! ## The operation counters (`defs.go`, `db.go`) and the operations that move them -/

/-- Go's `int` (64-bit): the integer `n` wrapped into `[-2^63, 2^63)`. -/
def wrapInt (n : Int) : Int := (n + 2 ^ 63) % 2 ^ 64 - 2 ^ 63

/-- Go `int` arithmetic: `n++`. -/
def intInc (n : Int) : Int := wrapInt (n + 1)

/-- Go `int` arithmetic: `n--`. -/
def intDec (n : Int) : Int := wrapInt (n - 1)

/-- The six package-level operation counters of `defs.go`. -/
structure Counters where
  GetDataTableSeqNo : Int
  ExecSeqNo : Int
  ExecuteSeqNo : Int
  ExececuteNonQuerySeqNo : Int
  ExececuteScalreSeqNo : Int
  QuerySeqNo : Int
deriving DecidableEq, Repr

/-- The counters when the package is loaded. -/
def Counters.zero : Counters :=
  { GetDataTableSeqNo := 0, ExecSeqNo := 0, ExecuteSeqNo := 0, ExececuteNonQuerySeqNo := 0,
    ExececuteScalreSeqNo := 0, QuerySeqNo := 0 }

/-- Whether `n` is a value of Go's `int`. -/
def isGoInt (n : Int) : Bool := decide (-(2 ^ 63) ≤ n) && decide (n < 2 ^ 63)

/-- Every counter holds a value of Go's `int`. -/
def Counters.InRange (c : Counters) : Bool :=
  isGoInt c.GetDataTableSeqNo && isGoInt c.ExecSeqNo && isGoInt c.ExecuteSeqNo &&
    isGoInt c.ExececuteNonQuerySeqNo && isGoInt c.ExececuteScalreSeqNo && isGoInt c.QuerySeqNo

/-- The method `IsIdle` of `db.go`; it reads the package-level counters only. -/
def IsIdle (c : Counters) : Bool :=
  decide (c.ExecSeqNo < 1) && decide (c.GetDataTableSeqNo < 1) && decide (c.ExecuteSeqNo < 1) &&
    decide (c.ExececuteNonQuerySeqNo < 1) && decide (c.ExececuteScalreSeqNo < 1) &&
    decide (c.QuerySeqNo < 1)

/-- The method `Busy` of `db.go`; `d = none` is the nil receiver. -/
def Busy (d : Option DB) (c : Counters) : Bool :=
  match d with
  | none => false
  | some db =>
    if db.DBHwnd = none then false
    else if !IsIdle c then true
    else false

/-- The struct `Result` (without its self reference `intfce`). -/
structure Result where
  rowsAffected : Int
  lastInsertId : Int
  err : Option String
deriving DecidableEq, Repr

/-- The zero value of `Result`. -/
def Result.zero : Result := { rowsAffected := 0, lastInsertId := 0, err := none }

/-- The struct `goChanWork`; `returnObj = none` is the nil interface. -/
structure goChanWork where
  returnObj : Option Value
  err : Option String
deriving DecidableEq, Repr

/-- The struct `DataTable` (without the back pointer `db` and `CollInfo`). -/
structure DataTable where
  Name : String
  Columns : List Column
  Rows : List Row
  SQLTail : String
  SeqNo : Int
  TimeStarted : Nat
  TimeEnded : Nat
  Err : Option String
deriving DecidableEq, Repr

/-- The zero value of `DataTable`. -/
def DataTable.zero : DataTable :=
  { Name := "", Columns := [], Rows := [], SQLTail := "", SeqNo := 0, TimeStarted := 0,
    TimeEnded := 0, Err := none }

/-- What the statements of the goroutine of `GetDataTable` after
`wrk.TimeStarted = time.Now()` write into `wrk`. -/
structure Fetched where
  Name : String
  Columns : List Column
  Rows : List Row
  SQLTail : String
  Err : Option String
deriving DecidableEq, Repr

/-- What a call of one of the counted operations leaves: the value returned,
the counters and the package state on return, and (ghost) the counters in force
while the body of the operation talked to the engine, `none` when the call
returned before reaching it. The bodies are parameters of the operations: they
call the engine and do not write the counters. -/
structure OpOutcome (α σ : Type) where
  ret : α
  counters : Counters
  state : State σ
  during : Option Counters

/-- The white space of `unicode.IsSpace`, by code point. -/
def isSpace (c : Char) : Bool :=
  let n := c.toNat
  (9 ≤ n && n ≤ 13) || n == 32 || n == 0x85 || n == 0xA0 || n == 0x1680 ||
    (0x2000 ≤ n && n ≤ 0x200a) || n == 0x2028 || n == 0x2029 || n == 0x202f || n == 0x205f ||
    n == 0x3000

/-- The function `strings.TrimSpace`. -/
def TrimSpace (s : String) : String :=
  String.mk ((s.toList.dropWhile isSpace).reverse.dropWhile isSpace).reverse

/-- The test `strings.EqualFold(query[:6], kw)` for a six-letter ASCII keyword
`kw` and a query of at least six bytes: the six bytes fold to the keyword only
when they are six ASCII characters equal to it up to letter case. -/
def EqualFold6 (query kw : String) : Bool :=
  (query.toList.take 6).map Char.toLower == kw.toList.map Char.toLower

/-- The test `d == nil || d.Closed`. -/
def isNilOrClosed (d : Option DB) : Bool :=
  match d with
  | none => true
  | some db => db.Closed

/-- The method `Exec` (`essentials.go`). `isInMemory` is the field of that name
and `fileExists` what `os.Stat(d.filePath)` finds; `work` is the body of the
goroutine (prepare, step, finalize). -/
def Exec {σ : Type} (work : State σ → Result × State σ) (d : Option DB)
    (isInMemory fileExists : Bool) (c : Counters) (s : State σ) : OpOutcome Result σ :=
  let wrk := { Result.zero with rowsAffected := -1 }
  if isNilOrClosed d then
    { ret := { wrk with err := some "database is not open" }, counters := c, state := s,
      during := none }
  else if !isInMemory && !fileExists then
    { ret := { wrk with err := some "database does not exist" }, counters := c, state := s,
      during := none }
  else
    let c1 := { c with ExecSeqNo := intInc c.ExecSeqNo }
    let r := work s
    { ret := r.1, counters := { c1 with ExecSeqNo := intDec c1.ExecSeqNo }, state := r.2,
      during := some c1 }

/-- The method `Query` (`essentials.go`); `work` is the body of the goroutine,
`ρ` stands for `Rows`. -/
def Query {σ ρ : Type} (work : State σ → (ρ × Option String) × State σ) (c : Counters)
    (s : State σ) : OpOutcome (ρ × Option String) σ :=
  let c1 := { c with QuerySeqNo := intInc c.QuerySeqNo }
  let r := work s
  { ret := r.1, counters := { c1 with QuerySeqNo := intDec c1.QuerySeqNo }, state := r.2,
    during := some c1 }

/-- The method `ExecuteScalare` (`exec.go`); `work` is the body of the
goroutine. No counter is written. -/
def ExecuteScalare {σ : Type} (work : State σ → goChanWork × State σ) (c : Counters)
    (s : State σ) : OpOutcome (Option Value × Option String) σ :=
  let r := work s
  let wrk := r.1
  if wrk.err = some "no more rows available" then
    { ret := (wrk.returnObj, none), counters := c, state := r.2, during := some c }
  else
    { ret := (wrk.returnObj, wrk.err), counters := c, state := r.2, during := some c }

/-- The method `ExecuteNonQuery` (`exec.go`); `work` is `executeNonQueryDo`,
called directly when no other call is counted and from a goroutine otherwise. -/
def ExecuteNonQuery {σ : Type} (work : State σ → Result × State σ) (c : Counters)
    (s : State σ) : OpOutcome (Int × Option String) σ :=
  let c1 := { c with ExececuteNonQuerySeqNo := intInc c.ExececuteNonQuerySeqNo }
  if c1.ExececuteNonQuerySeqNo < 2 then
    let r := work s
    let c2 :=
      if c1.ExececuteNonQuerySeqNo > 0 then
        { c1 with ExececuteNonQuerySeqNo := intDec c1.ExececuteNonQuerySeqNo }
      else c1
    { ret := (r.1.rowsAffected, r.1.err), counters := c2, state := r.2, during := some c1 }
  else
    let r := work s
    { ret := (r.1.rowsAffected, r.1.err),
      counters := { c1 with ExececuteNonQuerySeqNo := intDec c1.ExececuteNonQuerySeqNo },
      state := r.2, during := some c1 }

/-- The method `Execute` (`exec.go`); `work` is the branch of the goroutine that
runs the statements of the text on the handle. -/
def Execute {σ : Type} (work : State σ → Result × State σ) (d : DB) (c : Counters)
    (s : State σ) : OpOutcome (Int × Option String) σ :=
  if d.Closed then
    { ret := (-1, some "database is not open"), counters := c, state := s, during := none }
  else
    let c1 := { c with ExecuteSeqNo := intInc c.ExecuteSeqNo }
    let r :=
      if d.DBHwnd = none then
        ({ Result.zero with rowsAffected := -1, err := some "database no longer available" }, s)
      else work s
    { ret := (r.1.rowsAffected, r.1.err),
      counters := { c1 with ExecuteSeqNo := intDec c1.ExecuteSeqNo }, state := r.2,
      during := some c1 }

/-- The method `GetDataTable` (`get_data.go`); `fetch` is the goroutine from
`d.Prepare` on, `isInMemory` and `fileExists` as for `Exec`. -/
def GetDataTable {σ : Type} (fetch : String → State σ → Fetched × State σ) (d : Option DB)
    (isInMemory fileExists : Bool) (query : String) (c : Counters) (s : State σ) :
    OpOutcome (DataTable × Option String) σ :=
  let query := TrimSpace query
  if query.utf8ByteSize < 7 then
    { ret := ({ DataTable.zero with Err := some "invalid query" }, some "invalid query"),
      counters := c, state := s, during := none }
  else if !EqualFold6 query "SELECT" && !EqualFold6 query "PRAGMA" then
    { ret := ({ DataTable.zero with Err := some "invalid query" }, some "invalid query"),
      counters := c, state := s, during := none }
  else if isNilOrClosed d then
    { ret := ({ DataTable.zero with Err := some "database is not open" },
        some "database is not open"),
      counters := c, state := s, during := none }
  else if !isInMemory && !fileExists then
    { ret := ({ DataTable.zero with Err := some "database is not open" },
        some "database is not open"),
      counters := c, state := s, during := none }
  else
    let c1 := { c with GetDataTableSeqNo := intInc c.GetDataTableSeqNo }
    let s1 := { s with clock := s.clock + 1 }
    let r := fetch query s1
    let wrkRes : DataTable :=
      { Name := r.1.Name, Columns := r.1.Columns, Rows := r.1.Rows, SQLTail := r.1.SQLTail,
        SeqNo := c1.GetDataTableSeqNo, TimeStarted := s.clock, TimeEnded := r.2.clock,
        Err := r.1.Err }
    { ret := (wrkRes, wrkRes.Err),
      counters := { c1 with GetDataTableSeqNo := intDec c1.GetDataTableSeqNo },
      state := { r.2 with clock := r.2.clock + 1 }, during := some c1 }

/-- The method `GetDataTableAsync` (`get_data.go`); `fetch` is the goroutine
from `d.Prepare` on (it sets neither `SQLTail` nor `Err` here), `callback` the
caller's function, run after the counter is decremented. -/
def GetDataTableAsync {σ : Type} (fetch : String → State σ → Fetched × State σ)
    (callback : Option (DataTable → State σ → State σ)) (d : DB) (query : String)
    (c : Counters) (s : State σ) : OpOutcome (DataTable × Option String) σ :=
  if d.Closed then
    { ret := ({ DataTable.zero with Err := some "database is not open" },
        some "database is not open"),
      counters := c, state := s, during := none }
  else
    let c1 := { c with GetDataTableSeqNo := intInc c.GetDataTableSeqNo }
    let s1 := { s with clock := s.clock + 1 }
    let r := fetch query s1
    let wrkRes : DataTable :=
      { DataTable.zero with
        Name := r.1.Name, Columns := r.1.Columns, Rows := r.1.Rows,
        SeqNo := c1.GetDataTableSeqNo, TimeStarted := s.clock, TimeEnded := r.2.clock }
    let s2 := { r.2 with clock := r.2.clock + 1 }
    { ret := (wrkRes, wrkRes.Err),
      counters := { c1 with GetDataTableSeqNo := intDec c1.GetDataTableSeqNo },
      state := match callback with
        | some f => f wrkRes s2
        | none => s2
      during := some c1 }

/-- A goroutine body that reports one row inserted. -/
def insertedOne (s : State Unit) : Result × State Unit :=
  ({ rowsAffected := 1, lastInsertId := 1, err := none }, s)

/-- A goroutine body whose engine call fails. -/
def engineFails (s : State Unit) : Result × State Unit :=
  ({ rowsAffected := -1, lastInsertId := 0, err := some "SQL logic error" }, s)

/-- A goroutine body of `Query` whose prepare succeeds (`Rows` not modelled). -/
def queryOk (s : State Unit) : (Unit × Option String) × State Unit := (((), none), s)

/-- A fetch that returns one row of the table `t`. -/
def fetchOne (_ : String) (s : State Unit) : Fetched × State Unit :=
  ({ Name := "t", Columns := [{ Column.zero with Name := "a", DataType := "INTEGER" }],
     Rows := [[("a", Value.int 1)]], SQLTail := "", Err := none }, s)

/-- A goroutine body of `ExecuteScalare` that fetches the value 1. -/
def scalarOne (s : State Unit) : goChanWork × State Unit :=
  ({ returnObj := some (Value.int 1), err := none }, s)

/-- A connection whose engine handle is nil. -/
def noHandle : DB :=
  { DBHwnd := none, Name := "conn1", Closed := false, getResultSetConnections := 0 }

/-- A connection whose `Closed` flag is set. -/
def closedConn : DB :=
  { DBHwnd := none, Name := "conn1", Closed := true, getResultSetConnections := 0 }

/-! ## The file stub (`backup.go`, `defs.go`) -/

/-- The constant `sqlite3_dbfile_emtpy_header`: the first 32 bytes of an empty
database file, in hexadecimal. -/
def sqlite3_dbfile_emtpy_header : String :=
  "53514c69746520666f726d6174203300100002020040202000017e1e00000009"

/-- The value of a hexadecimal digit, as in the table of `encoding/hex`. -/
def hexVal (c : Char) : Option Nat :=
  let n := c.toNat
  if 48 ≤ n ∧ n ≤ 57 then some (n - 48)
  else if 97 ≤ n ∧ n ≤ 102 then some (n - 87)
  else if 65 ≤ n ∧ n ≤ 70 then some (n - 55)
  else none

/-- The bytes `hex.DecodeString` returns, its error dropped: the pairs of
digits decoded up to the first invalid or unpaired character. A byte is a
natural number below 256. -/
def decodePairs : List Char → List Nat
  | a :: b :: rest =>
    match hexVal a, hexVal b with
    | some x, some y => (x * 16 + y) :: decodePairs rest
    | _, _ => []
  | _ => []

/-- The call `hex.DecodeString(s)` with the error ignored. -/
def DecodeString (s : String) : List Nat := decodePairs s.toList

/-- The loop of `RepairSqlite3FileStub` from index `i` on, `rest` being
`bDBContent[i:]`: the bytes at the indices below `stubLen` are skipped, the
others appended to `outB`. -/
def appendAfterStub (stubLen : Nat) : Nat → List Nat → List Nat → List Nat
  | _, [], outB => outB
  | i, x :: rest, outB =>
    if i < stubLen then appendAfterStub stubLen (i + 1) rest outB
    else appendAfterStub stubLen (i + 1) rest (outB ++ [x])

/-- The function `RepairSqlite3FileStub`. -/
def RepairSqlite3FileStub (bDBContent : List Nat) : List Nat :=
  let stubB := DecodeString sqlite3_dbfile_emtpy_header
  appendAfterStub stubB.length 0 bDBContent stubB

/-- The bytes of an ASCII string literal. -/
def asciiBytes (s : String) : List Nat := s.toList.map Char.toNat

/-- The function `IsFileSQLiteFormat`: the content has at least 15 bytes and
its first 15 bytes are those of "SQLite format 3". -/
def IsFileSQLiteFormat (bDBContent : List Nat) : Bool :=
  let bsxLen := (asciiBytes "SQLite format 3").length
  if bDBContent.length < bsxLen then false
  else
    let bsx := bDBContent.take bsxLen
    if bsx = asciiBytes "SQLite format 3" then true else false

/-! ## The group of open databases (`gosqlite_grp.go`) -/

/-- The fields of `DB` that `DBGroup.Get` and `DBGroup.Add` read: the unique
name and the file path. -/
structure GroupDB where
  UniqueName : String
  filePath : String
deriving DecidableEq, Repr

/-- The value `&DB{}`. -/
def GroupDB.zero : GroupDB := { UniqueName := "", filePath := "" }

/-- Whether `t` begins with `sub`. -/
def startsWith : List Char → List Char → Bool
  | _, [] => true
  | [], _ :: _ => false
  | a :: t, b :: sub => a == b && startsWith t sub

/-- Whether `sub` occurs in `s`, on character lists. -/
def containsChars : List Char → List Char → Bool
  | [], sub => startsWith [] sub
  | a :: t, sub => startsWith (a :: t) sub || containsChars t sub

/-- The function `strings.Contains`. -/
def Contains (s substr : String) : Bool := containsChars s.toList substr.toList

/-- The function `strings.ToLower` on the ASCII letters (other characters are
left as they are). -/
def asciiLower (s : String) : String := String.mk (s.toList.map Char.toLower)

/-- The three tests of the loop of `DBGroup.Get` on one open database. -/
def groupMatch (ToLower : String → String) (srchTxt : String) (db : GroupDB) : Bool :=
  if db.UniqueName = srchTxt then true
  else if ToLower db.filePath = ToLower srchTxt then true
  else if Contains (ToLower db.filePath) (ToLower srchTxt) then true
  else false

/-- The method `DBGroup.Add`. -/
def DBGroup.Add (OpenDatabases : List GroupDB) (db : GroupDB) : List GroupDB :=
  if OpenDatabases.any (fun x => x.UniqueName == db.UniqueName) then OpenDatabases
  else OpenDatabases ++ [db]

/-- The method `DBGroup.Get`: the list returned, the error and the group left.
`ToLower` is `strings.ToLower`; `fileExists` is what `fileOrDirExists(srchTxt)`
finds and `opened` what `Open` returns when the file exists (`none`: an
error). -/
def DBGroup.Get (ToLower : String → String) (OpenDatabases : List GroupDB)
    (fileExists : Bool) (opened : Option GroupDB) (srchTxt : String) :
    List GroupDB × Option String × List GroupDB :=
  let arryDB := OpenDatabases.filter (groupMatch ToLower srchTxt)
  if arryDB.length = 0 then
    if fileExists then
      match opened with
      | none => (arryDB ++ [GroupDB.zero], none, OpenDatabases)
      | some db => (arryDB ++ [db], none, DBGroup.Add OpenDatabases db)
    else (arryDB ++ [GroupDB.zero], some "no such database in the DBGroup", OpenDatabases)
  else (arryDB, none, OpenDatabases)

/-- A group with two open databases under `/data`. -/
def twoOpen : List GroupDB :=
  [{ UniqueName := "u1", filePath := "/data/app1.sqlite" },
   { UniqueName := "u2", filePath := "/data/app2.sqlite" }]

/-! ## The command parameters and `DB.Get` (`strings.go`, `db.go`) -/

/-- The constant `db_cmd_get_database_list`. -/
def db_cmd_get_database_list : String := "database_list"

/-- The constant `db_cmd_get_data_version`. -/
def db_cmd_get_data_version : String := "data_version"

/-- The constant `db_cmd_get_collation_list`. -/
def db_cmd_get_collation_list : String := "collation_list"

/-- The constant `db_cmd_get_checkpoint_full_sync`. -/
def db_cmd_get_checkpoint_full_sync : String := "checkpoint_fullfsync"

/-- The constant `db_cmd_get_page_count`. -/
def db_cmd_get_page_count : String := "page_count"

/-- The constant `db_cmd_get_encoding`. -/
def db_cmd_get_encoding : String := "encoding"

/-- The constant `db_cmd_get_module_list`. -/
def db_cmd_get_module_list : String := "module_list"

/-- The constant `db_cmd_get_table_list`. -/
def db_cmd_get_table_list : String := "table_list"

/-- The constant `db_cmd_get_page_size`. -/
def db_cmd_get_page_size : String := "page_size"

/-- The constant `db_cmd_get_schema_version`. -/
def db_cmd_get_schema_version : String := "schema_version"

/-- The struct `CCmdParam`. -/
structure CCmdParam where
  CollationList : String
  CheckPointFullSync : String
  DataVersion : String
  ListDatabase : String
  PageCount : String
  Encoding : String
  ModuleList : String
  TableList : String
  PageSize : String
  SchemaVersion : String
deriving DecidableEq, Repr

/-- The function `CmdParam`. -/
def CmdParam : CCmdParam :=
  { CollationList := db_cmd_get_collation_list
    CheckPointFullSync := db_cmd_get_checkpoint_full_sync
    DataVersion := db_cmd_get_data_version
    ListDatabase := db_cmd_get_database_list
    PageCount := db_cmd_get_page_count
    Encoding := db_cmd_get_encoding
    ModuleList := db_cmd_get_module_list
    TableList := db_cmd_get_table_list
    PageSize := db_cmd_get_page_size
    SchemaVersion := db_cmd_get_schema_version }

/-- The ten command parameters, in the order of the fields. -/
def CCmdParam.values (c : CCmdParam) : List String :=
  [c.CollationList, c.CheckPointFullSync, c.DataVersion, c.ListDatabase, c.PageCount,
   c.Encoding, c.ModuleList, c.TableList, c.PageSize, c.SchemaVersion]

/-- The text `fmt.Sprintf("%s", c)` of a struct of strings: the fields in
declaration order, separated by one blank, in braces. -/
def CCmdParam.format (c : CCmdParam) : String :=
  "\x7b" ++ " ".intercalate c.values ++ "\x7d"

/-- The method `DB.Get` (`db.go`): the rows and the error returned, the
connection and the state left (`none`: the process was ended by `log.Fatal`
inside `GetResultSet`). A nil slice is the empty list. -/
def DB.Get {σ : Type} (env : Env σ) (d : DB) (cmdParam : String) (s : State σ) :
    Option ((List Row × Option String) × DB × State σ) :=
  let list := CmdParam.format
  if !Contains list cmdParam then some (([], some "invalid command"), d, s)
  else
    match GetResultSet env d ("PRAGMA " ++ db_cmd_get_database_list ++ ";") s with
    | none => none
    | some (qr, d1, s1) =>
      let m := if qr.Err = none then qr.ResultTable else []
      some ((m, qr.Err), d1, s1)

/-! ## The statements of `Execute` (`exec.go`) -/

/-- The function `strings.ReplaceAll` on character lists; `skip` characters of
a match already replaced are still to be passed over. -/
def replaceAux (old new : List Char) : Nat → List Char → List Char
  | _, [] => if old = [] then new else []
  | skip + 1, _ :: rest => replaceAux old new skip rest
  | 0, c :: rest =>
    if startsWith (c :: rest) old then
      if old = [] then new ++ c :: replaceAux old new 0 rest
      else new ++ replaceAux old new (old.length - 1) rest
    else c :: replaceAux old new 0 rest

/-- The function `strings.ReplaceAll`. -/
def ReplaceAll (s old new : String) : String :=
  String.mk (replaceAux old.toList new.toList 0 s.toList)

/-- The matches of the expression built in `Execute` (a comment opener, the
shortest text, a comment closer), as `FindAllString(sqlx, -1)` returns them in
a text without line breaks: leftmost first, not overlapping. `inside` holds the
text of the match being read, `none` outside a comment. -/
def commentMatches : List Char → Option (List Char) → List (List Char)
  | [], _ => []
  | '/' :: '*' :: rest, none => commentMatches rest (some ['/', '*'])
  | _ :: rest, none => commentMatches rest none
  | '*' :: '/' :: rest, some acc => (acc ++ ['*', '/']) :: commentMatches rest none
  | c :: rest, some acc => commentMatches rest (some (acc ++ [c]))

/-- The loop `sqlx = strings.ReplaceAll(sqlx, m[i], "")` over the matches. -/
def removeMatches (sqlx : String) : List (List Char) → String
  | [] => sqlx
  | m :: rest => removeMatches (ReplaceAll sqlx (String.mk m) "") rest

/-- The function `strings.Split(s, ";")` on character lists; `cur` is the piece
being read. -/
def splitSemicolon : List Char → List Char → List String
  | [], cur => [String.mk cur]
  | c :: rest, cur =>
    if c = ';' then String.mk cur :: splitSemicolon rest []
    else splitSemicolon rest (cur ++ [c])

/-- The pieces `v` of `Execute`: line breaks replaced by blanks, the comments
removed, the text split at the semicolons. -/
def statementsOf (sqlx : String) : List String :=
  let sqlx1 := ReplaceAll sqlx (String.mk [Char.ofNat 10]) " "
  let m := commentMatches sqlx1.toList none
  let sqlx2 := removeMatches sqlx1 m
  splitSemicolon sqlx2.toList []

/-- What `Execute` reads from the engine after a statement that succeeded:
`sqlite3_changes` and `sqlite3_last_insert_rowid` of the handle. -/
structure ChangeInfo (σ : Type) where
  sqlite3_changes : σ → Option Nat → Int
  sqlite3_last_insert_rowid : σ → Option Nat → Int

/-- The loop of `Execute` over the pieces: each piece is trimmed, an empty one
is skipped, the others are passed to `sqlite3_exec` with the row callback
`getResult`; `resw` is overwritten by every statement executed. -/
def executeStatements {σ : Type} (env : Env σ) (info : ChangeInfo σ) (d : DB) :
    List String → Result → State σ → Result × State σ
  | [], resw, s => (resw, s)
  | v :: rest, resw, s =>
    let query := TrimSpace v
    if query = "" then executeStatements env info d rest resw s
    else
      let r := sqlite3_exec env d.DBHwnd query s
      let rc := r.1
      let s1 := r.2.2
      if rc ≠ SQLITE_OK then
        executeStatements env info d rest
          { resw with rowsAffected := -1, err := getSQLiteErr rc r.2.1 } s1
      else
        executeStatements env info d rest
          { rowsAffected := info.sqlite3_changes s1.engine d.DBHwnd
            lastInsertId := info.sqlite3_last_insert_rowid s1.engine d.DBHwnd
            err := none } s1

/-- The method `Execute` with its goroutine spelled out: the statements of
`sqlx` are run by `executeStatements`. -/
def ExecuteSQL {σ : Type} (env : Env σ) (info : ChangeInfo σ) (d : DB) (sqlx : String)
    (c : Counters) (s : State σ) : OpOutcome (Int × Option String) σ :=
  Execute (executeStatements env info d (statementsOf sqlx) Result.zero) d c s

/-- An engine on which the table `missing` does not exist: a statement that
names it fails with `SQLITE_ERROR`, every other statement succeeds and returns
the row `1`. -/
def missingTableEnv : Env Unit :=
  { exec := fun _ _ sql =>
      if Contains sql "missing" then (⟨[], 1, "no such table: missing"⟩, ())
      else (⟨[[("1", "1")]], 0, "not an error"⟩, ())
    rangeOrder := id }

/-- An engine handle that reports one row changed and row id 1. -/
def oneChange : ChangeInfo Unit :=
  { sqlite3_changes := fun _ _ => 1
    sqlite3_last_insert_rowid := fun _ _ => 1 }

/-- The state a `GetResultSet` call leaves when its engine call found the
database locked: the request is still queued, reset, and the C variable
`queueID` still holds its `QueryID`. -/
def lockedPending : State Unit :=
  { freshState with
    mResultQueue := [{ newRecord 1 "1_conn1" "SELECT 1" with ExecResult := -1, TimeStarted := 0 }]
    GetResultSetSeqNo := 1
    queueID := "1_conn1"
    clock := 1
    engineCalls := [(some 1, "SELECT 1")] }

/-! ## Requests of several connections -/

/-- The test of `processRequestQueue` on a record: not `Processed`, not
`Received` and not `Started`. -/
def notStarted (r : queryResult) : Bool := !r.Processed && !r.Received && !r.Started

/-- A second open connection, named "conn2", with its own engine handle. -/
def conn2 : DB := { DBHwnd := some 2, Name := "conn2", Closed := false, getResultSetConnections := 0 }

/-- The state a `GetResultSet` call on `conn2` leaves when its engine call
found the database locked: the request of `conn2` is still queued, not started. -/
def otherPending : State Unit :=
  { freshState with
    mResultQueue := [{ newRecord 1 "1_conn2" "SELECT 2" with ExecResult := -1, TimeStarted := 0 }]
    GetResultSetSeqNo := 1
    queueID := "1_conn2"
    clock := 1
    engineCalls := [(some 2, "SELECT 2")] }

/-! ## The rows of the statements of `Execute` -/

/-- The rows the engine hands to the row callback over the pieces `Execute`
runs, converted as the callback converts them, in the order of the statements;
`e` is the engine state before the first of them. -/
def statementRows {σ : Type} (env : Env σ) (d : DB) : List String → σ → List Row
  | [], _ => []
  | v :: rest, e =>
    if TrimSpace v = "" then statementRows env d rest e
    else
      (env.exec e d.DBHwnd (TrimSpace v)).1.rows.map (fun cells => buildRow cells []) ++
        statementRows env d rest (env.exec e d.DBHwnd (TrimSpace v)).2

/-! ## A call in flight on the connection -/

/-- The connection `conn1` while one `GetResultSet` call is in flight on it:
that call has incremented `getResultSetConnections` and has not returned. -/
def conn1InFlight : DB := { conn1 with getResultSetConnections := 1 }

/-- The state in which the call `GetResultSet("SELECT 1")` on `conn1` has ended
its `processRequestQueue` loop and has not yet collected its record. -/
def firstDone : State Unit :=
  { mResultQueue :=
      [{ newRecord 1 "1_conn1" "SELECT 1" with
         Result := [[("1", Value.int 1)]], Started := true, Processed := true, Finished := true,
         TimeStarted := 0, TimeEnded := 1 }]
    GetResultSetSeqNo := 1
    queueID := "1_conn1"
    engine := ()
    clock := 2
    engineCalls := [(some 1, "SELECT 1")] }

/-! ## Lemmas: the row callback -/

theorem exists_first_query (q : String) (queue : List queryResult)
    (h : ∃ x ∈ queue, x.QueryID = q) :
    ∃ pre r post, queue = pre ++ r :: post ∧ r.QueryID = q ∧ ∀ x ∈ pre, x.QueryID ≠ q := by
  induction queue with
  | nil => simp at h
  | cons a rest ih =>
    by_cases ha : a.QueryID = q
    · exact ⟨[], a, rest, rfl, ha, by simp⟩
    · have h2 : ∃ x ∈ rest, x.QueryID = q := by
        obtain ⟨x, hx, hxq⟩ := h
        rcases List.mem_cons.1 hx with rfl | hx
        · exact absurd hxq ha
        · exact ⟨x, hx, hxq⟩
      obtain ⟨pre, r, post, he, hr, hp⟩ := ih h2
      refine ⟨a :: pre, r, post, by simp [he], hr, ?_⟩
      intro x hx
      rcases List.mem_cons.1 hx with rfl | hx
      · exact ha
      · exact hp x hx

theorem appendRow_cons_ne (q : String) (row : Row) (a : queryResult) (rest : List queryResult)
    (h : a.QueryID ≠ q) : appendRow q row (a :: rest) = a :: appendRow q row rest := by
  simp [appendRow, h]

theorem appendRow_cons_eq (q : String) (row : Row) (a : queryResult) (rest : List queryResult)
    (h : a.QueryID = q) :
    appendRow q row (a :: rest) = { a with Result := a.Result ++ [row] } :: rest := by
  simp [appendRow, h]

theorem appendRow_absent (q : String) (row : Row) (queue : List queryResult)
    (h : ∀ x ∈ queue, x.QueryID ≠ q) : appendRow q row queue = queue := by
  induction queue with
  | nil => rfl
  | cons a rest ih =>
    have ha : a.QueryID ≠ q := h a (by simp)
    rw [appendRow_cons_ne q row a _ ha, ih (fun x hx => h x (List.mem_cons_of_mem _ hx))]

theorem appendRow_first (q : String) (row : Row) (pre : List queryResult) (r : queryResult)
    (post : List queryResult) (hr : r.QueryID = q) (hp : ∀ x ∈ pre, x.QueryID ≠ q) :
    appendRow q row (pre ++ r :: post) =
      pre ++ { r with Result := r.Result ++ [row] } :: post := by
  induction pre with
  | nil => exact appendRow_cons_eq q row r post hr
  | cons a rest ih =>
    have ha : a.QueryID ≠ q := hp a (by simp)
    rw [List.cons_append, appendRow_cons_ne q row a _ ha,
      ih (fun x hx => hp x (List.mem_cons_of_mem _ hx))]
    rfl

theorem Row.get_set_same (m : Row) (k : String) (v : Value) : (m.set k v).get k = some v := by
  induction m with
  | nil => simp [Row.set, Row.get]
  | cons a rest ih =>
    obtain ⟨k0, v0⟩ := a
    by_cases h : k0 = k
    · simp [Row.set, Row.get, h]
    · simp [Row.set, Row.get, h, ih]

theorem Row.get_set_other (m : Row) (k k1 : String) (v : Value) (h : k ≠ k1) :
    (m.set k v).get k1 = m.get k1 := by
  induction m with
  | nil => simp [Row.set, Row.get, h]
  | cons a rest ih =>
    obtain ⟨k0, v0⟩ := a
    by_cases h0 : k0 = k
    · subst h0
      simp [Row.set, Row.get, h]
    · by_cases h1 : k0 = k1
      · subst h1
        simp [Row.set, Row.get, h0]
      · simp [Row.set, Row.get, h0, h1, ih]

theorem buildRow_get_absent (cells : List (String × String)) (m : Row) (k : String)
    (h : ∀ c ∈ cells, c.1 ≠ k) : (buildRow cells m).get k = m.get k := by
  induction cells generalizing m with
  | nil => rfl
  | cons c rest ih =>
    obtain ⟨col, s⟩ := c
    have hc : col ≠ k := h (col, s) (by simp)
    simp only [buildRow]
    rw [ih _ (fun c hc => h c (List.mem_cons_of_mem _ hc)), Row.get_set_other _ _ _ _ hc]

/-! ## Lemmas: decimal formatting and `QueryID`s -/

theorem digitVal_digitChar (d : Nat) (h : d < 10) : digitVal (digitChar d) = some d := by
  interval_cases d <;> rfl

theorem parseDigits_append_single (l : List Char) (c : Char) (acc : Nat) :
    parseDigits (l ++ [c]) acc =
      (parseDigits l acc).bind (fun a => (digitVal c).map (fun d => a * 10 + d)) := by
  induction l generalizing acc with
  | nil =>
    cases h : digitVal c <;> simp [parseDigits, h]
  | cons x rest ih =>
    cases h : digitVal x with
    | none => simp [parseDigits, h]
    | some d => simp [parseDigits, h, ih]

theorem parseDigits_decimalAux (fuel n : Nat) (h : n < fuel) :
    parseDigits (decimalAux fuel n) 0 = some n := by
  induction fuel generalizing n with
  | zero => omega
  | succ f ih =>
    by_cases hn : n < 10
    · simp [decimalAux, hn, parseDigits, digitVal_digitChar n hn]
    · have h1 : n / 10 < f := by omega
      have h2 : n % 10 < 10 := Nat.mod_lt _ (by decide)
      simp only [decimalAux, if_neg hn, parseDigits_append_single, ih _ h1,
        digitVal_digitChar _ h2]
      simp
      omega

theorem decimal_injective (a b : Nat) (h : decimal a = decimal b) : a = b := by
  have h1 : decimalAux (a + 1) a = decimalAux (b + 1) b := congrArg String.data h
  have ha := parseDigits_decimalAux (a + 1) a (by omega)
  have hb := parseDigits_decimalAux (b + 1) b (by omega)
  rw [h1, hb] at ha
  exact (Option.some.inj ha).symm

theorem parseDigits_all_digits (l : List Char) (acc n : Nat) (h : parseDigits l acc = some n) :
    ∀ c ∈ l, digitVal c ≠ none := by
  induction l generalizing acc with
  | nil => simp
  | cons x rest ih =>
    cases hx : digitVal x with
    | none => simp [parseDigits, hx] at h
    | some d =>
      simp only [parseDigits, hx] at h
      intro c hc
      rcases List.mem_cons.1 hc with rfl | hc
      · simp [hx]
      · exact ih _ h c hc

theorem underscore_not_mem_decimal (n : Nat) : '_' ∉ (decimal n).data := by
  intro hmem
  have h := parseDigits_all_digits _ 0 n (parseDigits_decimalAux (n + 1) n (by omega)) '_' hmem
  exact h (by decide)

theorem append_cons_cancel {α : Type} (x : α) (l1 l2 r1 r2 : List α)
    (h1 : x ∉ l1) (h2 : x ∉ l2) (h : l1 ++ x :: r1 = l2 ++ x :: r2) : l1 = l2 ∧ r1 = r2 := by
  induction l1 generalizing l2 with
  | nil =>
    cases l2 with
    | nil => simpa using h
    | cons b l2 =>
      simp at h
      exact absurd h.1 (fun e => h2 (by simp [e]))
  | cons a l1 ih =>
    cases l2 with
    | nil =>
      simp at h
      exact absurd h.1 (fun e => h1 (by simp [e]))
    | cons b l2 =>
      simp at h
      obtain ⟨hab, ht⟩ := h
      have := ih l2 (fun hx => h1 (List.mem_cons_of_mem _ hx))
        (fun hx => h2 (List.mem_cons_of_mem _ hx)) ht
      exact ⟨by rw [hab, this.1], this.2⟩

theorem mkQueryID_data (n : Nat) (name : String) :
    (mkQueryID n name).data = (decimal n).data ++ '_' :: name.data := by
  simp [mkQueryID, String.data_append]

theorem mkQueryID_injective (a b : Nat) (n1 n2 : String)
    (h : mkQueryID a n1 = mkQueryID b n2) : a = b ∧ n1 = n2 := by
  have hd := congrArg String.data h
  rw [mkQueryID_data, mkQueryID_data] at hd
  have := append_cons_cancel '_' _ _ _ _ (underscore_not_mem_decimal a)
    (underscore_not_mem_decimal b) hd
  exact ⟨decimal_injective a b (String.ext this.1), String.ext this.2⟩

theorem decimalAux_ne_nil (fuel n : Nat) : decimalAux (fuel + 1) n ≠ [] := by
  by_cases hn : n < 10 <;> simp [decimalAux, hn]

theorem Atoi_decimal (n : Nat) (h : n < 2 ^ 63) : Atoi (decimal n) = some (n : Int) := by
  have hp := parseDigits_decimalAux (n + 1) n (by omega)
  have hall := parseDigits_all_digits _ 0 n hp
  cases hd : decimalAux (n + 1) n with
  | nil => exact absurd hd (decimalAux_ne_nil n n)
  | cons c cs =>
    have hc := hall c (by rw [hd]; exact List.mem_cons_self _ _)
    have h1 : c ≠ '-' := fun e => hc (by rw [e]; decide)
    have h2 : c ≠ '+' := fun e => hc (by rw [e]; decide)
    rw [hd] at hp
    simp only [Atoi, decimal, hd, if_neg h1, if_neg h2, hp, if_pos h]

theorem Atoi_minus_decimal (n : Nat) (h : n ≤ 2 ^ 63) :
    Atoi ("-" ++ decimal n) = some (-(n : Int)) := by
  have hp := parseDigits_decimalAux (n + 1) n (by omega)
  have hne := decimalAux_ne_nil n n
  have hdata : ("-" ++ decimal n).data = '-' :: decimalAux (n + 1) n := by
    simp [String.data_append, decimal]
  simp only [Atoi, hdata, if_true, if_neg hne, hp, if_pos h]

/-! ## Lemmas: the keys of the records under the queue operations -/

theorem map_set_same_key {α β : Type} (f : α → β) (l : List α) (i : Nat) (r r1 : α)
    (h : l[i]? = some r) (hk : f r1 = f r) : (l.set i r1).map f = l.map f := by
  induction l generalizing i with
  | nil => simp
  | cons a rest ih =>
    cases i with
    | zero =>
      simp at h
      simp [hk, h]
    | succ j =>
      simp at h
      simp [ih j h]

theorem appendRow_map_key (q : String) (row : Row) (queue : List queryResult) :
    (appendRow q row queue).map recKey = queue.map recKey := by
  induction queue with
  | nil => rfl
  | cons a rest ih =>
    by_cases ha : a.QueryID = q
    · rw [appendRow_cons_eq q row a rest ha]
      rfl
    · rw [appendRow_cons_ne q row a rest ha, List.map_cons, ih, List.map_cons]

theorem deliverRows_map_key (rows : List (List (String × String))) (q : String)
    (queue : List queryResult) : (deliverRows rows q queue).map recKey = queue.map recKey := by
  induction rows generalizing queue with
  | nil => rfl
  | cons c rest ih =>
    simp only [deliverRows, List.foldl_cons] at ih ⊢
    rw [ih, go_sqlite3_exec_callback, appendRow_map_key]

theorem deliverRows_absent (rows : List (List (String × String))) (q : String)
    (queue : List queryResult) (h : ∀ x ∈ queue, x.QueryID ≠ q) :
    deliverRows rows q queue = queue := by
  induction rows with
  | nil => rfl
  | cons c rest ih =>
    simp only [deliverRows, List.foldl_cons] at ih ⊢
    rw [go_sqlite3_exec_callback, appendRow_absent q _ queue h, ih]

/-- The record `r` with the rows of one engine call appended to its `Result`. -/
theorem deliverRows_first (rows : List (List (String × String))) (q : String)
    (pre : List queryResult) (r : queryResult) (post : List queryResult)
    (hr : r.QueryID = q) (hp : ∀ x ∈ pre, x.QueryID ≠ q) :
    deliverRows rows q (pre ++ r :: post) =
      pre ++ { r with Result := r.Result ++ rows.map (fun cells => buildRow cells []) } :: post := by
  induction rows generalizing r with
  | nil => simp [deliverRows]
  | cons c rest ih =>
    simp only [deliverRows, List.foldl_cons] at ih ⊢
    rw [go_sqlite3_exec_callback, appendRow_first q _ pre r post hr hp,
      ih { r with Result := r.Result ++ [buildRow c []] } hr]
    simp

theorem markRecord_cons_ne (q : String) (l : Bool) (e : Option String) (res : Int) (now : Nat)
    (a : queryResult) (rest : List queryResult) (h : a.QueryID ≠ q) :
    markRecord q l e res now (a :: rest) = a :: markRecord q l e res now rest := by
  simp [markRecord, h]

theorem markRecord_cons_eq (q : String) (l : Bool) (e : Option String) (res : Int) (now : Nat)
    (a : queryResult) (rest : List queryResult) (h : a.QueryID = q) :
    markRecord q l e res now (a :: rest) =
      (if l then resetRecord a else finishRecord e res now a) :: rest := by
  simp [markRecord, h]

theorem markRecord_absent (q : String) (l : Bool) (e : Option String) (res : Int) (now : Nat)
    (queue : List queryResult) (h : ∀ x ∈ queue, x.QueryID ≠ q) :
    markRecord q l e res now queue = queue := by
  induction queue with
  | nil => rfl
  | cons a rest ih =>
    have ha : a.QueryID ≠ q := h a (by simp)
    rw [markRecord_cons_ne q l e res now a _ ha,
      ih (fun x hx => h x (List.mem_cons_of_mem _ hx))]

theorem markRecord_first (q : String) (l : Bool) (e : Option String) (res : Int) (now : Nat)
    (pre : List queryResult) (r : queryResult) (post : List queryResult)
    (hr : r.QueryID = q) (hp : ∀ x ∈ pre, x.QueryID ≠ q) :
    markRecord q l e res now (pre ++ r :: post) =
      pre ++ (if l then resetRecord r else finishRecord e res now r) :: post := by
  induction pre with
  | nil => exact markRecord_cons_eq q l e res now r post hr
  | cons a rest ih =>
    have ha : a.QueryID ≠ q := hp a (by simp)
    rw [List.cons_append, markRecord_cons_ne q l e res now a _ ha,
      ih (fun x hx => hp x (List.mem_cons_of_mem _ hx))]
    rfl

theorem markRecord_map_key (q : String) (l : Bool) (e : Option String) (res : Int) (now : Nat)
    (queue : List queryResult) :
    (markRecord q l e res now queue).map recKey = queue.map recKey := by
  induction queue with
  | nil => rfl
  | cons a rest ih =>
    by_cases ha : a.QueryID = q
    · rw [markRecord_cons_eq q l e res now a rest ha]
      cases l <;> rfl
    · rw [markRecord_cons_ne q l e res now a rest ha, List.map_cons, ih, List.map_cons]

/-- What `execWithResults` computes, in terms of the engine's response. -/
theorem execWithResults_eq {σ : Type} (env : Env σ) (d : DB) (q sql : String) (s : State σ) :
    execWithResults env d q sql s =
      if getSQLiteErr (env.exec s.engine d.DBHwnd sql).1.rc
          (env.exec s.engine d.DBHwnd sql).1.errmsg = some "out of memory" then none
      else some
        { mResultQueue :=
            markRecord q
              (getSQLiteErr (env.exec s.engine d.DBHwnd sql).1.rc
                (env.exec s.engine d.DBHwnd sql).1.errmsg == some "database is locked")
              (getSQLiteErr (env.exec s.engine d.DBHwnd sql).1.rc
                (env.exec s.engine d.DBHwnd sql).1.errmsg)
              (env.exec s.engine d.DBHwnd sql).1.rc s.clock
              (deliverRows (env.exec s.engine d.DBHwnd sql).1.rows q s.mResultQueue)
          GetResultSetSeqNo := s.GetResultSetSeqNo
          queueID := q
          engine := (env.exec s.engine d.DBHwnd sql).2
          clock :=
            if (!(getSQLiteErr (env.exec s.engine d.DBHwnd sql).1.rc
                  (env.exec s.engine d.DBHwnd sql).1.errmsg == some "database is locked") &&
                hasQuery q (deliverRows (env.exec s.engine d.DBHwnd sql).1.rows q s.mResultQueue))
            then s.clock + 1 else s.clock
          engineCalls := s.engineCalls ++ [(d.DBHwnd, sql)] } := by
  rfl

theorem execWithResults_keys {σ : Type} (env : Env σ) (d : DB) (q sql : String)
    (s s1 : State σ) (h : execWithResults env d q sql s = some s1) :
    s1.mResultQueue.map recKey = s.mResultQueue.map recKey ∧
      s1.GetResultSetSeqNo = s.GetResultSetSeqNo := by
  rw [execWithResults_eq] at h
  split at h
  · exact absurd h (by simp)
  · have h1 := Option.some.inj h
    subst h1
    exact ⟨by simp only [markRecord_map_key, deliverRows_map_key], rfl⟩

theorem processLoop_keys {σ : Type} (env : Env σ) (d : DB) (fuel i : Nat)
    (s s1 : State σ) (h : processLoop env d fuel i s = some s1) :
    s1.mResultQueue.map recKey = s.mResultQueue.map recKey ∧
      s1.GetResultSetSeqNo = s.GetResultSetSeqNo := by
  induction fuel generalizing i s with
  | zero =>
    simp only [processLoop] at h
    have h1 := Option.some.inj h
    subst h1
    exact ⟨rfl, rfl⟩
  | succ f ih =>
    simp only [processLoop] at h
    cases hi : s.mResultQueue[i]? with
    | none =>
      simp only [hi] at h
      have h1 := Option.some.inj h
      subst h1
      exact ⟨rfl, rfl⟩
    | some r =>
      simp only [hi] at h
      split at h
      · cases he : execWithResults env d r.QueryID r.SQLStmt
          { s with
            mResultQueue := s.mResultQueue.set i { r with Started := true, TimeStarted := s.clock }
            clock := s.clock + 1 } with
        | none => simp [he] at h
        | some s2 =>
          simp only [he] at h
          have k1 := execWithResults_keys env d _ _ _ _ he
          have k2 := ih _ _ h
          refine ⟨?_, by rw [k2.2, k1.2]⟩
          rw [k2.1, k1.1]
          exact map_set_same_key recKey _ i r _ hi rfl
      · exact ih _ _ h

/-! ## Lemmas: `removeFromResultQueue` -/

theorem indexOfQuery_first (q : String) (pre : List queryResult) (r : queryResult)
    (post : List queryResult) (hr : r.QueryID = q) (hp : ∀ x ∈ pre, x.QueryID ≠ q) :
    indexOfQuery q (pre ++ r :: post) = some pre.length := by
  induction pre with
  | nil => simp [indexOfQuery, hr]
  | cons a rest ih =>
    have ha : a.QueryID ≠ q := hp a (by simp)
    simp [indexOfQuery, ha, ih (fun x hx => hp x (List.mem_cons_of_mem _ hx))]

theorem indexOfQuery_absent (q : String) (queue : List queryResult)
    (h : ∀ x ∈ queue, x.QueryID ≠ q) : indexOfQuery q queue = none := by
  induction queue with
  | nil => rfl
  | cons a rest ih =>
    have ha : a.QueryID ≠ q := h a (by simp)
    simp [indexOfQuery, ha, ih (fun x hx => h x (List.mem_cons_of_mem _ hx))]

theorem removeFromResultQueue_absent (q : String) (queue : List queryResult)
    (h : ∀ x ∈ queue, x.QueryID ≠ q) : removeFromResultQueue q queue = queue := by
  simp [removeFromResultQueue, indexOfQuery_absent q queue h]

theorem removeFromResultQueue_last (q : String) (pre : List queryResult) (r : queryResult)
    (hr : r.QueryID = q) (hp : ∀ x ∈ pre, x.QueryID ≠ q) :
    removeFromResultQueue q (pre ++ [r]) = pre := by
  simp [removeFromResultQueue, indexOfQuery_first q pre r [] hr hp]

theorem getElem?_at_length {α : Type} (pre : List α) (r : α) (post : List α) :
    (pre ++ r :: post)[pre.length]? = some r := by
  induction pre with
  | nil => simp
  | cons a rest ih => simpa using ih

theorem set_at_length {α : Type} (pre : List α) (r x : α) (post : List α) :
    (pre ++ r :: post).set pre.length x = pre ++ x :: post := by
  simp

theorem removeFromResultQueue_inner (q : String) (pre : List queryResult) (r : queryResult)
    (mid : List queryResult) (z : queryResult)
    (hr : r.QueryID = q) (hp : ∀ x ∈ pre, x.QueryID ≠ q) :
    removeFromResultQueue q (pre ++ r :: (mid ++ [z])) = pre ++ z :: mid := by
  have hi := indexOfQuery_first q pre r (mid ++ [z]) hr hp
  have hlen : (pre ++ r :: (mid ++ [z])).length - 1 = (pre ++ r :: mid).length := by
    simp
  have e : pre ++ r :: (mid ++ [z]) = (pre ++ r :: mid) ++ z :: [] := by simp
  have h1 : (pre ++ r :: (mid ++ [z]))[pre.length]? = some r := getElem?_at_length pre r _
  have h2 : (pre ++ r :: (mid ++ [z]))[(pre ++ r :: (mid ++ [z])).length - 1]? = some z := by
    rw [hlen, e]
    exact getElem?_at_length _ z []
  have hne : (pre ++ r :: (mid ++ [z])).length ≠ 0 := by simp
  simp only [removeFromResultQueue, hi, h1, h2, if_neg hne]
  rw [hlen]
  have s1 : (pre ++ r :: (mid ++ [z])).set (pre ++ r :: mid).length r
      = (pre ++ r :: mid) ++ [r] := by
    rw [e]
    exact set_at_length _ z r []
  rw [s1]
  have s2 : ((pre ++ r :: mid) ++ [r]).set pre.length z = (pre ++ z :: mid) ++ [r] := by
    have : (pre ++ r :: mid) ++ [r] = pre ++ r :: (mid ++ [r]) := by simp
    rw [this, set_at_length]
    simp
  rw [s2]
  have hl2 : (pre ++ r :: mid).length = (pre ++ z :: mid).length := by simp
  rw [hl2, List.take_left]

/-- The queue after `removeFromResultQueue` when `r` is the first record that
carries the `QueryID`: the last record takes its place. -/
theorem removeFromResultQueue_first (q : String) (pre : List queryResult) (r : queryResult)
    (post : List queryResult) (hr : r.QueryID = q) (hp : ∀ x ∈ pre, x.QueryID ≠ q) :
    removeFromResultQueue q (pre ++ r :: post) =
      match post.getLast? with
      | none => pre
      | some z => pre ++ z :: post.dropLast := by
  rcases List.eq_nil_or_concat post with rfl | ⟨mid, z, rfl⟩
  · simpa using removeFromResultQueue_last q pre r hr hp
  · rw [List.concat_eq_append, removeFromResultQueue_inner q pre r mid z hr hp]
    simp

theorem removeFromResultQueue_perm (q : String) (pre : List queryResult) (r : queryResult)
    (post : List queryResult) (hr : r.QueryID = q) (hp : ∀ x ∈ pre, x.QueryID ≠ q) :
    (removeFromResultQueue q (pre ++ r :: post)).Perm (pre ++ post) := by
  rcases List.eq_nil_or_concat post with rfl | ⟨mid, z, rfl⟩
  · rw [removeFromResultQueue_last q pre r hr hp]
    simp
  · rw [List.concat_eq_append, removeFromResultQueue_inner q pre r mid z hr hp]
    refine List.Perm.append_left pre ?_
    simpa using (List.perm_append_singleton z mid).symm

/-! ## Lemmas: the waiter -/

theorem findCompleted_none (q : String) (queue : List queryResult)
    (h : ∀ x ∈ queue, ¬ (x.QueryID = q ∧ (x.Finished = true ∨ x.Err ≠ none))) :
    findCompleted q queue = none := by
  induction queue with
  | nil => rfl
  | cons a rest ih =>
    have ha := h a (by simp)
    simp only [findCompleted, if_neg ha, ih (fun x hx => h x (List.mem_cons_of_mem _ hx))]
    rfl

theorem findCompleted_cons_neg (q : String) (a : queryResult) (rest : List queryResult)
    (ha : ¬ (a.QueryID = q ∧ (a.Finished = true ∨ a.Err ≠ none))) :
    findCompleted q (a :: rest) = (findCompleted q rest).map (fun p => (p.1 + 1, p.2)) := by
  rw [findCompleted, if_neg ha]

theorem findCompleted_first (q : String) (pre : List queryResult) (r : queryResult)
    (post : List queryResult) (hr : r.QueryID = q) (hc : r.Finished = true ∨ r.Err ≠ none)
    (hp : ∀ x ∈ pre, ¬ (x.QueryID = q ∧ (x.Finished = true ∨ x.Err ≠ none))) :
    findCompleted q (pre ++ r :: post) = some (pre.length, r) := by
  induction pre with
  | nil =>
    have : r.QueryID = q ∧ (r.Finished = true ∨ r.Err ≠ none) := ⟨hr, hc⟩
    simp only [List.nil_append, findCompleted, if_pos this]
    rfl
  | cons a rest ih =>
    have ha := hp a (by simp)
    rw [List.cons_append, findCompleted_cons_neg q a _ ha,
      ih (fun x hx => hp x (List.mem_cons_of_mem _ hx))]
    rfl

theorem findCompleted_some (q : String) (queue : List queryResult) (i : Nat) (r : queryResult)
    (h : findCompleted q queue = some (i, r)) :
    ∃ pre post, queue = pre ++ r :: post ∧ pre.length = i ∧ r.QueryID = q ∧
      (r.Finished = true ∨ r.Err ≠ none) ∧
      ∀ x ∈ pre, ¬ (x.QueryID = q ∧ (x.Finished = true ∨ x.Err ≠ none)) := by
  induction queue generalizing i with
  | nil => simp [findCompleted] at h
  | cons a rest ih =>
    by_cases ha : a.QueryID = q ∧ (a.Finished = true ∨ a.Err ≠ none)
    · simp only [findCompleted, if_pos ha] at h
      have h1 := Option.some.inj h
      have hi : i = 0 := (congrArg Prod.fst h1).symm
      have hr : r = a := (congrArg Prod.snd h1).symm
      subst hi
      subst hr
      exact ⟨[], rest, rfl, rfl, ha.1, ha.2, by simp⟩
    · simp only [findCompleted, if_neg ha] at h
      cases hf : findCompleted q rest with
      | none => simp [hf] at h
      | some p =>
        obtain ⟨j, r1⟩ := p
        simp only [hf, Option.map_some'] at h
        have h1 := Option.some.inj h
        have hi : j + 1 = i := congrArg Prod.fst h1
        have hr : r1 = r := congrArg Prod.snd h1
        subst hr
        obtain ⟨pre, post, he, hl, hq, hc, hp⟩ := ih j hf
        refine ⟨a :: pre, post, by simp [he], by simp [hl, hi], hq, hc, ?_⟩
        intro x hx
        rcases List.mem_cons.1 hx with rfl | hx
        · exact ha
        · exact hp x hx

theorem markReceived_at_length (pre : List queryResult) (r : queryResult)
    (post : List queryResult) :
    markReceived pre.length (pre ++ r :: post) = pre ++ { r with Received := true } :: post := by
  simp only [markReceived, getElem?_at_length, set_at_length]

theorem waitLoop_found {σ : Type} (env : Env σ) (q : String) (n : Nat) (s : State σ)
    (r : QueryResult × State σ) (h : pollQueue env q s = some r) :
    waitLoop env q (n + 1) s = r := by
  simp [waitLoop, h]

theorem waitLoop_none {σ : Type} (env : Env σ) (q : String) (n : Nat) (s : State σ)
    (h : pollQueue env q s = none) :
    waitLoop env q n s = ({ QueryResult.zero with Err := some "query timed out" }, s) := by
  induction n with
  | zero => rfl
  | succ m ih => simp [waitLoop, h, ih]

theorem waitPasses_pos (timeoutSec : Int) (h : 0 ≤ timeoutSec) :
    ∃ n, ((if timeoutSec = 0 then defaultTimeout else timeoutSec) + 1).toNat = n + 1 := by
  have hd : (0 : Int) ≤ defaultTimeout := by decide
  have h0 : 0 ≤ (if timeoutSec = 0 then defaultTimeout else timeoutSec) := by
    split
    · exact hd
    · exact h
  refine ⟨(if timeoutSec = 0 then defaultTimeout else timeoutSec).toNat, ?_⟩
  omega

theorem waiForQueryResult_found {σ : Type} (env : Env σ) (q : String) (timeoutSec : Int)
    (s : State σ) (r : QueryResult × State σ) (ht : 0 ≤ timeoutSec)
    (h : pollQueue env q s = some r) : waiForQueryResult env q timeoutSec s = r := by
  obtain ⟨n, hn⟩ := waitPasses_pos timeoutSec ht
  simp only [waiForQueryResult, hn]
  exact waitLoop_found env q n s r h

theorem waiForQueryResult_none {σ : Type} (env : Env σ) (q : String) (timeoutSec : Int)
    (s : State σ) (h : pollQueue env q s = none) :
    waiForQueryResult env q timeoutSec s =
      ({ QueryResult.zero with Err := some "query timed out" }, s) := by
  simp only [waiForQueryResult]
  exact waitLoop_none env q _ s h

theorem pollQueue_none {σ : Type} (env : Env σ) (q : String) (s : State σ)
    (h : ∀ x ∈ s.mResultQueue, ¬ (x.QueryID = q ∧ (x.Finished = true ∨ x.Err ≠ none))) :
    pollQueue env q s = none := by
  simp [pollQueue, findCompleted_none q _ h]

/-- The pass that finds the record `r`, the only one carrying the `QueryID`. -/
theorem pollQueue_unique {σ : Type} (env : Env σ) (q : String) (s : State σ)
    (pre : List queryResult) (r : queryResult) (post : List queryResult)
    (hq : s.mResultQueue = pre ++ r :: post) (hr : r.QueryID = q)
    (hc : r.Finished = true ∨ r.Err ≠ none) (hp : ∀ x ∈ pre, x.QueryID ≠ q) :
    pollQueue env q s = some
      ({ SeqNo := r.SeqNo, ResultTable := r.Result, Columns := buildColumns env r.Result,
         QueryID := r.QueryID, Err := r.Err, TimeStarted := r.TimeStarted,
         TimeEnded := r.TimeEnded },
       { s with mResultQueue :=
          removeFromResultQueue q (pre ++ { r with Received := true } :: post) }) := by
  have hf := findCompleted_first q pre r post hr hc (fun x hx hh => hp x hx hh.1)
  simp only [pollQueue, hq, hf, markReceived_at_length]

/-! ## Lemmas: `GetResultSet` on an empty queue -/

theorem processRequestQueue_single {σ : Type} (env : Env σ) (d : DB) (s : State σ)
    (r : queryResult) (hq : s.mResultQueue = [r]) (h1 : r.Processed = false)
    (h2 : r.Received = false) (h3 : r.Started = false) :
    processRequestQueue env d s =
      execWithResults env d r.QueryID r.SQLStmt
        { s with
          mResultQueue := [{ r with Started := true, TimeStarted := s.clock }]
          clock := s.clock + 1 } := by
  simp only [processRequestQueue, hq, List.length_singleton, processLoop,
    List.getElem?_cons_zero, List.set_cons_zero]
  have hc : (!r.Processed && !r.Received && !r.Started) = true := by simp [h1, h2, h3]
  rw [if_pos hc]
  generalize execWithResults env d r.QueryID r.SQLStmt _ = x
  cases x <;> rfl

theorem uintDec_uintInc_zero : uintDec (uintInc 0) = 0 := by decide

theorem uintInc_zero_lt_two : uintInc 0 < 2 := by decide

theorem deliverRows_single (rows : List (List (String × String))) (q : String)
    (r : queryResult) (hr : r.QueryID = q) :
    deliverRows rows q [r] =
      [{ r with Result := r.Result ++ rows.map (fun cells => buildRow cells []) }] :=
  deliverRows_first rows q [] r [] hr (by simp)

theorem markRecord_single (q : String) (l : Bool) (e : Option String) (res : Int) (now : Nat)
    (r : queryResult) (hr : r.QueryID = q) :
    markRecord q l e res now [r] = [if l then resetRecord r else finishRecord e res now r] :=
  markRecord_first q l e res now [] r [] hr (by simp)

theorem hasQuery_single (q : String) (r : queryResult) (hr : r.QueryID = q) :
    hasQuery q [r] = true := by
  simp [hasQuery, hr]

theorem pollQueue_single {σ : Type} (env : Env σ) (q : String) (s : State σ) (r : queryResult)
    (hq : s.mResultQueue = [r]) (hr : r.QueryID = q)
    (hc : r.Finished = true ∨ r.Err ≠ none) :
    pollQueue env q s = some
      ({ SeqNo := r.SeqNo, ResultTable := r.Result, Columns := buildColumns env r.Result,
         QueryID := r.QueryID, Err := r.Err, TimeStarted := r.TimeStarted,
         TimeEnded := r.TimeEnded },
       { s with mResultQueue := [] }) := by
  rw [pollQueue_unique env q s [] r [] hq hr hc (by simp)]
  have := removeFromResultQueue_last q [] { r with Received := true } hr (by simp)
  simp only [List.nil_append] at this ⊢
  rw [this]

theorem waiForQueryResult_single {σ : Type} (env : Env σ) (q : String) (r : queryResult)
    (c : Nat) (qid : String) (e : σ) (clk : Nat) (calls : List (Option Nat × String))
    (hr : r.QueryID = q) (hc : r.Finished = true ∨ r.Err ≠ none) :
    waiForQueryResult env q 0
        { mResultQueue := [r], GetResultSetSeqNo := c, queueID := qid, engine := e,
          clock := clk, engineCalls := calls } =
      ({ SeqNo := r.SeqNo, ResultTable := r.Result, Columns := buildColumns env r.Result,
         QueryID := r.QueryID, Err := r.Err, TimeStarted := r.TimeStarted,
         TimeEnded := r.TimeEnded },
       { mResultQueue := [], GetResultSetSeqNo := c, queueID := qid, engine := e,
         clock := clk, engineCalls := calls }) :=
  waiForQueryResult_found env q 0 _ _ (le_refl 0) (pollQueue_single env q _ r rfl hr hc)

theorem waiForQueryResult_single_pending {σ : Type} (env : Env σ) (q : String) (r : queryResult)
    (c : Nat) (qid : String) (e : σ) (clk : Nat) (calls : List (Option Nat × String))
    (hf : r.Finished = false) (he : r.Err = none) :
    waiForQueryResult env q 0
        { mResultQueue := [r], GetResultSetSeqNo := c, queueID := qid, engine := e,
          clock := clk, engineCalls := calls } =
      ({ QueryResult.zero with Err := some "query timed out" },
       { mResultQueue := [r], GetResultSetSeqNo := c, queueID := qid, engine := e,
         clock := clk, engineCalls := calls }) :=
  waiForQueryResult_none env q 0 _ (pollQueue_none env q _ (by
    intro x hx
    have hx1 : x = r := by simpa using hx
    subst hx1
    simp [hf, he]))

/-- The engine's answer to the call `GetResultSet` makes for `sqlx` in state `s`. -/
theorem GetResultSet_empty_done {σ : Type} (env : Env σ) (d : DB) (sqlx : String)
    (s : State σ) (hClosed : d.Closed = false) (hConn : d.getResultSetConnections = 0)
    (hq : s.mResultQueue = [])
    (hLocked : getSQLiteErr (env.exec s.engine d.DBHwnd sqlx).1.rc
      (env.exec s.engine d.DBHwnd sqlx).1.errmsg ≠ some "database is locked")
    (hFatal : getSQLiteErr (env.exec s.engine d.DBHwnd sqlx).1.rc
      (env.exec s.engine d.DBHwnd sqlx).1.errmsg ≠ some "out of memory") :
    GetResultSet env d sqlx s = some
      ({ SeqNo := uintInc s.GetResultSetSeqNo
         ResultTable := (env.exec s.engine d.DBHwnd sqlx).1.rows.map (fun cells => buildRow cells [])
         Columns := buildColumns env
           ((env.exec s.engine d.DBHwnd sqlx).1.rows.map (fun cells => buildRow cells []))
         QueryID := mkQueryID (uintInc s.GetResultSetSeqNo) d.Name
         Err := getSQLiteErr (env.exec s.engine d.DBHwnd sqlx).1.rc
           (env.exec s.engine d.DBHwnd sqlx).1.errmsg
         TimeStarted := s.clock
         TimeEnded := s.clock + 1 },
       d,
       { mResultQueue := []
         GetResultSetSeqNo := uintInc s.GetResultSetSeqNo
         queueID := mkQueryID (uintInc s.GetResultSetSeqNo) d.Name
         engine := (env.exec s.engine d.DBHwnd sqlx).2
         clock := s.clock + 2
         engineCalls := s.engineCalls ++ [(d.DBHwnd, sqlx)] }) := by
  obtain ⟨hw, name, closed, conn⟩ := d
  simp only at hClosed hConn hLocked hFatal
  subst hClosed
  subst hConn
  simp only [GetResultSet, Bool.false_eq_true, if_false, uintInc_zero_lt_two, if_true]
  rw [processRequestQueue_single env _ _
    (newRecord (uintInc s.GetResultSetSeqNo) (mkQueryID (uintInc s.GetResultSetSeqNo) name) sqlx)
    (by simp [enqueue, hq]) rfl rfl rfl]
  rw [execWithResults_eq]
  simp only [enqueue, newRecord, if_neg hFatal]
  have hb : (getSQLiteErr (env.exec s.engine hw sqlx).1.rc (env.exec s.engine hw sqlx).1.errmsg
      == some "database is locked") = false := by simpa using hLocked
  simp only [hb, deliverRows_single, markRecord_single, hasQuery_single,
    Bool.false_eq_true, if_false, Bool.not_false, Bool.and_self, if_true,
    List.nil_append, finishRecord, uintDec_uintInc_zero]
  simp only [waiForQueryResult_single, true_or]

theorem GetResultSet_empty_locked {σ : Type} (env : Env σ) (d : DB) (sqlx : String)
    (s : State σ) (hClosed : d.Closed = false) (hConn : d.getResultSetConnections = 0)
    (hq : s.mResultQueue = [])
    (hLocked : getSQLiteErr (env.exec s.engine d.DBHwnd sqlx).1.rc
      (env.exec s.engine d.DBHwnd sqlx).1.errmsg = some "database is locked") :
    GetResultSet env d sqlx s = some
      ({ QueryResult.zero with Err := some "query timed out" },
       d,
       { mResultQueue :=
           [{ newRecord (uintInc s.GetResultSetSeqNo)
                (mkQueryID (uintInc s.GetResultSetSeqNo) d.Name) sqlx with
              Result := (env.exec s.engine d.DBHwnd sqlx).1.rows.map (fun cells => buildRow cells [])
              TimeStarted := s.clock
              ExecResult := -1 }]
         GetResultSetSeqNo := uintInc s.GetResultSetSeqNo
         queueID := mkQueryID (uintInc s.GetResultSetSeqNo) d.Name
         engine := (env.exec s.engine d.DBHwnd sqlx).2
         clock := s.clock + 1
         engineCalls := s.engineCalls ++ [(d.DBHwnd, sqlx)] }) := by
  obtain ⟨hw, name, closed, conn⟩ := d
  simp only at hClosed hConn hLocked
  subst hClosed
  subst hConn
  have hFatal : getSQLiteErr (env.exec s.engine hw sqlx).1.rc
      (env.exec s.engine hw sqlx).1.errmsg ≠ some "out of memory" := by
    rw [hLocked]
    decide
  simp only [GetResultSet, Bool.false_eq_true, if_false, uintInc_zero_lt_two, if_true]
  rw [processRequestQueue_single env _ _
    (newRecord (uintInc s.GetResultSetSeqNo) (mkQueryID (uintInc s.GetResultSetSeqNo) name) sqlx)
    (by simp [enqueue, hq]) rfl rfl rfl]
  rw [execWithResults_eq]
  simp only [enqueue, newRecord, if_neg hFatal]
  have hb : (getSQLiteErr (env.exec s.engine hw sqlx).1.rc (env.exec s.engine hw sqlx).1.errmsg
      == some "database is locked") = true := by simp [hLocked]
  simp only [hb, deliverRows_single, markRecord_single, hasQuery_single,
    Bool.false_eq_true, if_false, Bool.not_true, Bool.false_and, if_true,
    List.nil_append, resetRecord, uintDec_uintInc_zero]
  simp only [waiForQueryResult_single_pending]

theorem GetResultSet_empty_fatal {σ : Type} (env : Env σ) (d : DB) (sqlx : String)
    (s : State σ) (hClosed : d.Closed = false) (hConn : d.getResultSetConnections = 0)
    (hq : s.mResultQueue = [])
    (hFatal : getSQLiteErr (env.exec s.engine d.DBHwnd sqlx).1.rc
      (env.exec s.engine d.DBHwnd sqlx).1.errmsg = some "out of memory") :
    GetResultSet env d sqlx s = none := by
  obtain ⟨hw, name, closed, conn⟩ := d
  simp only at hClosed hConn hFatal
  subst hClosed
  subst hConn
  simp only [GetResultSet, Bool.false_eq_true, if_false, uintInc_zero_lt_two, if_true]
  rw [processRequestQueue_single env _ _
    (newRecord (uintInc s.GetResultSetSeqNo) (mkQueryID (uintInc s.GetResultSetSeqNo) name) sqlx)
    (by simp [enqueue, hq]) rfl rfl rfl]
  rw [execWithResults_eq]
  simp only [enqueue, newRecord, if_pos hFatal]

/-! ## Lemmas: what the waiter leaves unchanged -/

theorem pollQueue_some {σ : Type} (env : Env σ) (q : String) (s : State σ)
    (r : QueryResult × State σ) (h : pollQueue env q s = some r) :
    ∃ i mq, findCompleted q s.mResultQueue = some (i, mq) ∧
      r = ({ SeqNo := mq.SeqNo, ResultTable := mq.Result, Columns := buildColumns env mq.Result,
             QueryID := mq.QueryID, Err := mq.Err, TimeStarted := mq.TimeStarted,
             TimeEnded := mq.TimeEnded },
           { s with mResultQueue :=
              removeFromResultQueue q (markReceived i s.mResultQueue) }) := by
  cases hf : findCompleted q s.mResultQueue with
  | none => simp [pollQueue, hf] at h
  | some p =>
    obtain ⟨i, mq⟩ := p
    simp only [pollQueue, hf] at h
    exact ⟨i, mq, rfl, (Option.some.inj h).symm⟩

theorem waitLoop_cases {σ : Type} (env : Env σ) (q : String) (n : Nat) (s : State σ) :
    waitLoop env q n s = ({ QueryResult.zero with Err := some "query timed out" }, s) ∨
    ∃ r, pollQueue env q s = some r ∧ waitLoop env q n s = r := by
  cases hp : pollQueue env q s with
  | none => exact Or.inl (waitLoop_none env q n s hp)
  | some r =>
    cases n with
    | zero => exact Or.inl rfl
    | succ m => exact Or.inr ⟨r, rfl, waitLoop_found env q m s r hp⟩

theorem waiForQueryResult_cases {σ : Type} (env : Env σ) (q : String) (t : Int) (s : State σ) :
    waiForQueryResult env q t s = ({ QueryResult.zero with Err := some "query timed out" }, s) ∨
    ∃ r, pollQueue env q s = some r ∧ waiForQueryResult env q t s = r :=
  waitLoop_cases env q _ s

theorem waiForQueryResult_counter {σ : Type} (env : Env σ) (q : String) (t : Int)
    (s : State σ) :
    (waiForQueryResult env q t s).2.GetResultSetSeqNo = s.GetResultSetSeqNo := by
  rcases waiForQueryResult_cases env q t s with h | ⟨r, hp, h⟩
  · rw [h]
  · rw [h]
    obtain ⟨i, mq, _, hr⟩ := pollQueue_some env q s r hp
    rw [hr]

theorem enqueue_counter {σ : Type} (d : DB) (sqlx : String) (s : State σ) :
    (enqueue d sqlx s).GetResultSetSeqNo = uintInc s.GetResultSetSeqNo := rfl

theorem GetResultSet_counter {σ : Type} (env : Env σ) (d : DB) (sqlx : String) (s : State σ)
    (q : QueryResult) (d1 : DB) (s1 : State σ) (hClosed : d.Closed = false)
    (h : GetResultSet env d sqlx s = some (q, d1, s1)) :
    s1.GetResultSetSeqNo = uintInc s.GetResultSetSeqNo := by
  simp only [GetResultSet, hClosed, Bool.false_eq_true, if_false] at h
  split at h
  · exact absurd h (by simp)
  · rename_i s2 hs2
    have h1 := Option.some.inj h
    have h2 : s1 = (waiForQueryResult env _ 0 s2).2 := (congrArg (fun p => p.2.2) h1).symm
    rw [h2, waiForQueryResult_counter]
    split at hs2
    · exact (processLoop_keys env _ _ _ _ _ hs2).2
    · have := Option.some.inj hs2
      rw [← this]
      rfl

theorem uintInc_of_lt (n : Nat) (h : n + 1 < 2 ^ 64) : uintInc n = n + 1 :=
  Nat.mod_eq_of_lt h

/-! ## Lemmas: sequences of calls -/

theorem callOutcomes_seqNos {σ : Type} (env : Env σ) (hwnd : Option Nat) (name : String)
    (sqls : List String) (c : Nat) (e : σ) (h : c + sqls.length < 2 ^ 64) :
    (callOutcomes env hwnd name sqls c e).map (fun o => o.1) =
      (List.range sqls.length).map (fun k => c + k + 1) := by
  induction sqls generalizing c e with
  | nil => rfl
  | cons sqlx rest ih =>
    have hc : uintInc c = c + 1 := uintInc_of_lt c (by simp at h; omega)
    simp only [callOutcomes, List.map_cons, List.length_cons, List.range_succ_eq_map,
      List.map_map]
    rw [ih (uintInc c) _ (by rw [hc]; simp at h; omega), hc]
    simp only [List.cons.injEq, true_and, Nat.zero_add, Nat.add_zero]
    apply List.map_congr_left
    intro k _
    simp only [Function.comp, Nat.succ_eq_add_one]
    omega

theorem pairwise_lt_offsets (c n : Nat) :
    ((List.range n).map (fun k => c + k + 1)).Pairwise (· < ·) := by
  rw [List.pairwise_map]
  exact (List.pairwise_lt_range n).imp (by intro a b hab; omega)

theorem runCalls_outcomes {σ : Type} (env : Env σ) (d : DB) (sqls : List String) (s : State σ)
    (hClosed : d.Closed = false) (hConn : d.getResultSetConnections = 0)
    (hq : s.mResultQueue = [])
    (hLocked : ∀ e h sql, getSQLiteErr (env.exec e h sql).1.rc (env.exec e h sql).1.errmsg ≠
      some "database is locked")
    (hFatal : ∀ e h sql, getSQLiteErr (env.exec e h sql).1.rc (env.exec e h sql).1.errmsg ≠
      some "out of memory") :
    ∃ out s1, runCalls env d sqls s = some (out, d, s1) ∧ s1.mResultQueue = [] ∧
      out.map (fun p => (p.1.SeqNo, p.1.QueryID, p.1.ResultTable, p.1.Err)) =
        callOutcomes env d.DBHwnd d.Name sqls s.GetResultSetSeqNo s.engine ∧
      (∀ p ∈ out, p.2.mResultQueue = []) := by
  induction sqls generalizing s with
  | nil => exact ⟨[], s, rfl, hq, rfl, by simp⟩
  | cons sqlx rest ih =>
    have hg : ∃ q s0, GetResultSet env d sqlx s = some (q, d, s0) ∧ s0.mResultQueue = [] ∧
        s0.GetResultSetSeqNo = uintInc s.GetResultSetSeqNo ∧
        s0.engine = (env.exec s.engine d.DBHwnd sqlx).2 ∧
        (q.SeqNo, q.QueryID, q.ResultTable, q.Err) =
          (uintInc s.GetResultSetSeqNo, mkQueryID (uintInc s.GetResultSetSeqNo) d.Name,
            (env.exec s.engine d.DBHwnd sqlx).1.rows.map (fun cells => buildRow cells []),
            getSQLiteErr (env.exec s.engine d.DBHwnd sqlx).1.rc
              (env.exec s.engine d.DBHwnd sqlx).1.errmsg) :=
      ⟨_, _, GetResultSet_empty_done env d sqlx s hClosed hConn hq
        (hLocked _ _ _) (hFatal _ _ _), rfl, rfl, rfl, rfl⟩
    obtain ⟨q, s0, hget, hq0, hc0, he0, hout⟩ := hg
    obtain ⟨out, s1, hrun, hs1, hmap, hall⟩ := ih s0 hq0
    refine ⟨(q, s0) :: out, s1, ?_, hs1, ?_, ?_⟩
    · simp only [runCalls, hget, hrun]
    · simp only [List.map_cons, callOutcomes, hmap, hout, hc0, he0]
    · intro p hp
      rcases List.mem_cons.1 hp with rfl | hp
      · exact hq0
      · exact hall p hp

/-! ## Lemmas: the queue invariant -/

theorem queueIDs_eq_of_keys (l1 l2 : List queryResult)
    (h : l1.map recKey = l2.map recKey) : queueIDs l1 = queueIDs l2 := by
  have := congrArg (List.map Prod.snd) h
  simpa [queueIDs, recKey, List.map_map, Function.comp] using this

theorem mem_keys_of_mem (l : List queryResult) (r : queryResult) (h : r ∈ l) :
    recKey r ∈ l.map recKey := List.mem_map_of_mem recKey h

/-- The invariant read off the keys of the queue. -/
theorem QueueInv_iff_keys {σ : Type} (s : State σ) :
    QueueInv s ↔
      ((s.mResultQueue.map recKey).map Prod.snd).Nodup ∧
      ∀ k ∈ s.mResultQueue.map recKey, k.1 ≤ s.GetResultSetSeqNo ∧
        ∃ name, k.2 = mkQueryID k.1 name := by
  constructor
  · rintro ⟨h1, h2⟩
    refine ⟨by simpa [queueIDs, recKey, List.map_map, Function.comp] using h1, ?_⟩
    intro k hk
    obtain ⟨r, hr, rfl⟩ := List.mem_map.1 hk
    exact h2 r hr
  · rintro ⟨h1, h2⟩
    refine ⟨by simpa [queueIDs, recKey, List.map_map, Function.comp] using h1, ?_⟩
    intro r hr
    exact h2 (recKey r) (mem_keys_of_mem _ r hr)

theorem QueueInv_of_keys {σ : Type} (s s1 : State σ) (h : QueueInv s)
    (hk : s1.mResultQueue.map recKey = s.mResultQueue.map recKey)
    (hc : s1.GetResultSetSeqNo = s.GetResultSetSeqNo) : QueueInv s1 := by
  rw [QueueInv_iff_keys] at h ⊢
  rw [hk, hc]
  exact h

theorem QueueInv_of_perm_sublist {σ : Type} (s s1 : State σ) (mid : List queryResult)
    (h : QueueInv s) (hp : s1.mResultQueue.Perm mid) (hs : mid.Sublist s.mResultQueue)
    (hc : s1.GetResultSetSeqNo = s.GetResultSetSeqNo) : QueueInv s1 := by
  obtain ⟨h1, h2⟩ := h
  constructor
  · have hsub : (queueIDs mid).Sublist (queueIDs s.mResultQueue) := hs.map _
    have hnd : (queueIDs mid).Nodup := h1.sublist hsub
    exact (List.Perm.nodup_iff (hp.map _)).2 hnd
  · intro r hr
    rw [hc]
    exact h2 r (hs.subset (hp.subset hr))

theorem QueueInv_enqueue {σ : Type} (d : DB) (sqlx : String) (s : State σ) (h : QueueInv s)
    (hw : s.GetResultSetSeqNo + 1 < 2 ^ 64) : QueueInv (enqueue d sqlx s) := by
  obtain ⟨h1, h2⟩ := h
  have hc : uintInc s.GetResultSetSeqNo = s.GetResultSetSeqNo + 1 := uintInc_of_lt _ hw
  constructor
  · simp only [enqueue, queueIDs, List.map_append, List.map_cons, List.map_nil, newRecord]
    rw [List.nodup_append]
    refine ⟨h1, by simp, ?_⟩
    intro a ha hb
    have hb1 : a = mkQueryID (uintInc s.GetResultSetSeqNo) d.Name := by simpa using hb
    obtain ⟨r, hr, hra⟩ := List.mem_map.1 ha
    obtain ⟨hle, name, hname⟩ := h2 r hr
    have : r.SeqNo = uintInc s.GetResultSetSeqNo := by
      have e : mkQueryID r.SeqNo name = mkQueryID (uintInc s.GetResultSetSeqNo) d.Name := by
        rw [← hname, hra, hb1]
      exact (mkQueryID_injective _ _ _ _ e).1
    omega
  · intro r hr
    simp only [enqueue] at hr ⊢
    rcases List.mem_append.1 hr with hr | hr
    · obtain ⟨hle, hname⟩ := h2 r hr
      exact ⟨by omega, hname⟩
    · have hr1 : r = newRecord (uintInc s.GetResultSetSeqNo)
          (mkQueryID (uintInc s.GetResultSetSeqNo) d.Name) sqlx := by simpa using hr
      subst hr1
      exact ⟨le_refl _, d.Name, rfl⟩

theorem markReceived_map_key (i : Nat) (queue : List queryResult) :
    (markReceived i queue).map recKey = queue.map recKey := by
  unfold markReceived
  cases h : queue[i]? with
  | none => rfl
  | some r => exact map_set_same_key recKey queue i r _ h rfl

theorem removeFromResultQueue_perm_sublist (q : String) (queue : List queryResult) :
    ∃ mid, (removeFromResultQueue q queue).Perm mid ∧ mid.Sublist queue := by
  by_cases h : ∃ x ∈ queue, x.QueryID = q
  · obtain ⟨pre, r, post, he, hr, hp⟩ := exists_first_query q queue h
    refine ⟨pre ++ post, ?_, ?_⟩
    · rw [he]
      exact removeFromResultQueue_perm q pre r post hr hp
    · rw [he]
      exact List.Sublist.append (List.Sublist.refl _) (List.sublist_cons_self _ _)
  · have h1 : ∀ x ∈ queue, x.QueryID ≠ q := fun x hx hq => h ⟨x, hx, hq⟩
    rw [removeFromResultQueue_absent q queue h1]
    exact ⟨queue, List.Perm.refl _, List.Sublist.refl _⟩

theorem nodup_ids_removeFromResultQueue (q : String) (queue : List queryResult)
    (h : (queueIDs queue).Nodup) : (queueIDs (removeFromResultQueue q queue)).Nodup := by
  obtain ⟨mid, hp, hs⟩ := removeFromResultQueue_perm_sublist q queue
  exact (List.Perm.nodup_iff (hp.map _)).2 (h.sublist (hs.map _))

theorem nodup_ids_waiForQueryResult {σ : Type} (env : Env σ) (q : String) (t : Int)
    (s : State σ) (h : (queueIDs s.mResultQueue).Nodup) :
    (queueIDs (waiForQueryResult env q t s).2.mResultQueue).Nodup := by
  rcases waiForQueryResult_cases env q t s with hw | ⟨r, hp, hw⟩
  · rw [hw]
    exact h
  · rw [hw]
    obtain ⟨i, mq, _, hr⟩ := pollQueue_some env q s r hp
    rw [hr]
    apply nodup_ids_removeFromResultQueue
    rw [queueIDs_eq_of_keys _ _ (markReceived_map_key i s.mResultQueue)]
    exact h

theorem QueueInv_waiForQueryResult {σ : Type} (env : Env σ) (q : String) (t : Int)
    (s : State σ) (h : QueueInv s) : QueueInv (waiForQueryResult env q t s).2 := by
  rcases waiForQueryResult_cases env q t s with hw | ⟨r, hp, hw⟩
  · rw [hw]
    exact h
  · rw [hw]
    obtain ⟨i, mq, _, hr⟩ := pollQueue_some env q s r hp
    rw [hr]
    obtain ⟨mid, hperm, hsub⟩ :=
      removeFromResultQueue_perm_sublist q (markReceived i s.mResultQueue)
    have h1 : QueueInv { s with mResultQueue := markReceived i s.mResultQueue } :=
      QueueInv_of_keys s _ h (markReceived_map_key i s.mResultQueue) rfl
    exact QueueInv_of_perm_sublist _ _ mid h1 hperm hsub rfl

theorem QueueInv_applyOp {σ : Type} (env : Env σ) (op : Op) (s s1 : State σ)
    (h : QueueInv s)
    (hw : ∀ d sqlx, op = Op.enqueue d sqlx → s.GetResultSetSeqNo + 1 < 2 ^ 64)
    (ha : applyOp env op s = some s1) : QueueInv s1 := by
  cases op with
  | enqueue d sqlx =>
    have := Option.some.inj ha
    subst this
    exact QueueInv_enqueue d sqlx s h (hw d sqlx rfl)
  | callback cells q =>
    have := Option.some.inj ha
    subst this
    exact QueueInv_of_keys s _ h (appendRow_map_key q _ s.mResultQueue) rfl
  | exec d q sqlx =>
    have := execWithResults_keys env d q sqlx s s1 ha
    exact QueueInv_of_keys s s1 h this.1 this.2
  | process d =>
    have := processLoop_keys env d _ _ s s1 ha
    exact QueueInv_of_keys s s1 h this.1 this.2
  | wait q t =>
    have := Option.some.inj ha
    subst this
    exact QueueInv_waiForQueryResult env q t s h

theorem QueueInv_of_reachable {σ : Type} (env : Env σ) (s : State σ)
    (h : Reachable env s) : QueueInv s := by
  induction h with
  | init s h0 =>
    constructor
    · simp [queueIDs, h0]
    · intro r hr
      simp [h0] at hr
  | step s s1 op _ hw ha ih => exact QueueInv_applyOp env op s s1 ih hw ha

theorem removed_by_waiter {σ : Type} (env : Env σ) (q : String) (t : Int) (s : State σ)
    (r : queryResult) (hnd : (queueIDs s.mResultQueue).Nodup) (hr : r ∈ s.mResultQueue)
    (hgone : r.QueryID ∉ queueIDs (waiForQueryResult env q t s).2.mResultQueue) :
    r.QueryID = q ∧ ∃ i, s.mResultQueue[i]? = some r ∧
      (r.Finished = true ∨ r.Err ≠ none) ∧
      (markReceived i s.mResultQueue)[i]? = some { r with Received := true } ∧
      (waiForQueryResult env q t s).2.mResultQueue =
        removeFromResultQueue q (markReceived i s.mResultQueue) := by
  rcases waiForQueryResult_cases env q t s with hw | ⟨res, hp, hw⟩
  · rw [hw] at hgone
    exact absurd (List.mem_map_of_mem (fun x => x.QueryID) hr) hgone
  · obtain ⟨i, mq, hf, hres⟩ := pollQueue_some env q s res hp
    obtain ⟨pre, post, he, hlen, hmq, hc, _⟩ := findCompleted_some q _ i mq hf
    subst hlen
    have hpre : ∀ x ∈ pre, x.QueryID ≠ q := by
      intro x hx hxq
      rw [he] at hnd
      simp only [queueIDs, List.map_append, List.map_cons] at hnd
      have hdis := (List.nodup_append.1 hnd).2.2
      exact hdis (List.mem_map_of_mem (fun x => x.QueryID) hx)
        (by rw [hxq, ← hmq]; exact List.mem_cons_self _ _) 
    have hstate : (waiForQueryResult env q t s).2.mResultQueue =
        removeFromResultQueue q (markReceived pre.length s.mResultQueue) := by
      rw [hw, hres]
    have hmark : markReceived pre.length s.mResultQueue =
        pre ++ { mq with Received := true } :: post := by
      rw [he, markReceived_at_length]
    have hperm : ((waiForQueryResult env q t s).2.mResultQueue).Perm (pre ++ post) := by
      rw [hstate, hmark]
      exact removeFromResultQueue_perm q pre { mq with Received := true } post hmq hpre
    have hrmq : r = mq := by
      rw [he] at hr
      rcases List.mem_append.1 hr with h | h
      · exact absurd (List.mem_map_of_mem (fun x => x.QueryID)
          (hperm.symm.subset (List.mem_append_left _ h))) hgone
      · rcases List.mem_cons.1 h with h | h
        · exact h
        · exact absurd (List.mem_map_of_mem (fun x => x.QueryID)
            (hperm.symm.subset (List.mem_append_right _ h))) hgone
    subst hrmq
    refine ⟨hmq, pre.length, ?_, hc, ?_, hstate⟩
    · rw [he]
      exact getElem?_at_length pre r post
    · rw [hmark]
      exact getElem?_at_length pre _ post

theorem ids_kept_unless_wait {σ : Type} (env : Env σ) (op : Op) (s s1 : State σ)
    (hop : ∀ q t, op ≠ Op.wait q t) (ha : applyOp env op s = some s1) (r : queryResult)
    (hr : r ∈ s.mResultQueue) : r.QueryID ∈ queueIDs s1.mResultQueue := by
  have hmem : r.QueryID ∈ queueIDs s.mResultQueue :=
    List.mem_map_of_mem (fun x => x.QueryID) hr
  cases op with
  | enqueue d sqlx =>
    have := Option.some.inj ha
    subst this
    simp only [enqueue, queueIDs, List.map_append]
    exact List.mem_append_left _ hmem
  | callback cells q =>
    have := Option.some.inj ha
    subst this
    have hk : queueIDs (go_sqlite3_exec_callback cells q s.mResultQueue) =
        queueIDs s.mResultQueue := queueIDs_eq_of_keys _ _ (appendRow_map_key q _ s.mResultQueue)
    show r.QueryID ∈ queueIDs (go_sqlite3_exec_callback cells q s.mResultQueue)
    rw [hk]
    exact hmem
  | exec d q sqlx =>
    rw [queueIDs_eq_of_keys _ _ (execWithResults_keys env d q sqlx s s1 ha).1]
    exact hmem
  | process d =>
    rw [queueIDs_eq_of_keys _ _ (processLoop_keys env d _ _ s s1 ha).1]
    exact hmem
  | wait q t => exact absurd rfl (hop q t)

/-! ## Lemmas: the fuel of `processRequestQueue`, reachability of `GetResultSet` -/

theorem execWithResults_length {σ : Type} (env : Env σ) (d : DB) (q sql : String)
    (s s1 : State σ) (h : execWithResults env d q sql s = some s1) :
    s1.mResultQueue.length = s.mResultQueue.length := by
  have := congrArg List.length (execWithResults_keys env d q sql s s1 h).1
  simpa using this

theorem processLoop_succ {σ : Type} (env : Env σ) (d : DB) (fuel i : Nat) (s : State σ) :
    processLoop env d (fuel + 1) i s =
      match s.mResultQueue[i]? with
      | none => some s
      | some r =>
        if !r.Processed && !r.Received && !r.Started then
          match execWithResults env d r.QueryID r.SQLStmt
            { s with
              mResultQueue :=
                s.mResultQueue.set i { r with Started := true, TimeStarted := s.clock }
              clock := s.clock + 1 } with
          | none => none
          | some s2 => processLoop env d fuel (i + 1) s2
        else processLoop env d fuel (i + 1) s := rfl

/-- The queue length is enough fuel for the loop of `processRequestQueue`: more
fuel does not change its result. -/
theorem processLoop_fuel {σ : Type} (env : Env σ) (d : DB) (fuel i : Nat) (s : State σ)
    (h : s.mResultQueue.length - i ≤ fuel) :
    processLoop env d (fuel + 1) i s = processLoop env d fuel i s := by
  induction fuel generalizing i s with
  | zero =>
    have hi : s.mResultQueue[i]? = none := List.getElem?_eq_none (by omega)
    simp [processLoop, hi]
  | succ f ih =>
    rw [processLoop_succ env d (f + 1) i s, processLoop_succ env d f i s]
    cases hi : s.mResultQueue[i]? with
    | none => rfl
    | some r =>
      have hlt : i < s.mResultQueue.length := by
        by_contra hge
        rw [List.getElem?_eq_none (by omega)] at hi
        exact absurd hi (by simp)
      simp only []
      split
      · cases he : execWithResults env d r.QueryID r.SQLStmt
          { s with
            mResultQueue := s.mResultQueue.set i { r with Started := true, TimeStarted := s.clock }
            clock := s.clock + 1 } with
        | none => rfl
        | some s2 =>
          have hl := execWithResults_length env d _ _ _ _ he
          simp only [List.length_set] at hl
          exact ih (i + 1) s2 (by omega)
      · exact ih (i + 1) s (by omega)

theorem GetResultSet_reachable {σ : Type} (env : Env σ) (d : DB) (sqlx : String)
    (s s1 : State σ) (q : QueryResult) (d1 : DB) (hs : Reachable env s)
    (hw : s.GetResultSetSeqNo + 1 < 2 ^ 64)
    (h : GetResultSet env d sqlx s = some (q, d1, s1)) : Reachable env s1 := by
  by_cases hc : d.Closed = true
  · simp only [GetResultSet, hc, if_true] at h
    have := congrArg (fun p => p.2.2) (Option.some.inj h)
    simp only at this
    rw [← this]
    exact hs
  · have hc1 : d.Closed = false := by simpa using hc
    simp only [GetResultSet, hc1, Bool.false_eq_true, if_false] at h
    split at h
    · exact absurd h (by simp)
    · rename_i s2 hs2
      have h2 : s1 = (waiForQueryResult env _ 0 s2).2 :=
        (congrArg (fun p => p.2.2) (Option.some.inj h)).symm
      have hr2 : Reachable env s2 := by
        split at hs2
        · exact Reachable.step _ s2 (Op.process _)
            (Reachable.step s _ (Op.enqueue _ sqlx) hs (fun _ _ _ => hw) rfl)
            (fun _ _ hx => by cases hx) hs2
        · rw [← Option.some.inj hs2]
          exact Reachable.step s _ (Op.enqueue _ sqlx) hs (fun _ _ _ => hw) rfl
      rw [h2]
      exact Reachable.step s2 _ (Op.wait _ 0) hr2 (fun _ _ hx => by cases hx) rfl

theorem waitLoopScans_none {σ : Type} (env : Env σ) (q : String) (n : Nat) (s : State σ)
    (h : pollQueue env q s = none) : waitLoopScans env q n s = n := by
  induction n with
  | zero => rfl
  | succ m ih =>
    simp only [waitLoopScans, h, ih]
    omega

theorem take_succ_set {α : Type} (l : List α) (p : Nat) (x : α) (hp : p < l.length) :
    (l.set p x).take (p + 1) = l.take p ++ [x] := by
  induction l generalizing p with
  | nil => simp at hp
  | cons a rest ih =>
    cases p with
    | zero => simp
    | succ j =>
      simp only [List.length_cons] at hp
      simp [ih j (by omega)]

theorem fillColumns_cons (k : String) (v : Value) (rest : List (String × Value)) (p n : Nat)
    (cols : List Column) :
    fillColumns ((k, v) :: rest) p n cols =
      if p + 1 ≥ n then cols.set p (columnAt k v p)
      else fillColumns rest (p + 1) n (cols.set p (columnAt k v p)) := rfl

theorem fillColumns_eq (l : List (String × Value)) (p n : Nat) (cols : List Column)
    (hl : p + l.length = n) (hc : cols.length = n) :
    fillColumns l p n cols = cols.take p ++ columnsFrom l p := by
  induction l generalizing p cols with
  | nil =>
    simp only [fillColumns, columnsFrom, List.append_nil]
    rw [List.take_of_length_le (by simp at hl; omega)]
  | cons a rest ih =>
    obtain ⟨k, v⟩ := a
    simp only [List.length_cons] at hl
    have hp : p < cols.length := by omega
    have hset := take_succ_set cols p (columnAt k v p) hp
    rw [fillColumns_cons]
    simp only [columnsFrom]
    split
    · have hrest : rest = [] := by
        apply List.eq_nil_of_length_eq_zero
        omega
      subst hrest
      simp only [columnsFrom]
      rw [← hset, List.take_of_length_le (by simp; omega)]
    · rw [ih (p + 1) _ (by omega) (by simp [hc]), hset]
      simp

theorem columnsFrom_length (l : List (String × Value)) (p : Nat) :
    (columnsFrom l p).length = l.length := by
  induction l generalizing p with
  | nil => rfl
  | cons a rest ih =>
    obtain ⟨k, v⟩ := a
    simp [columnsFrom, ih]

theorem columnsFrom_ordinals (l : List (String × Value)) (p : Nat) :
    (columnsFrom l p).map (fun c => c.Ordinal) =
      (List.range l.length).map (fun i => ((p + i : Nat) : Int)) := by
  induction l generalizing p with
  | nil => rfl
  | cons a rest ih =>
    obtain ⟨k, v⟩ := a
    simp only [columnsFrom, columnAt, List.map_cons, List.length_cons,
      List.range_succ_eq_map, List.map_map, ih]
    simp only [Nat.add_zero, List.cons.injEq, true_and]
    apply List.map_congr_left
    intro i _
    simp only [Function.comp, Nat.succ_eq_add_one]
    congr 1
    omega

theorem columnsFrom_names_types (l : List (String × Value)) (p : Nat) :
    (columnsFrom l p).map (fun c => (c.Name, c.DataType)) =
      l.map (fun kv => (kv.1, GetSQLiteDataType kv.2)) := by
  induction l generalizing p with
  | nil => rfl
  | cons a rest ih =>
    obtain ⟨k, v⟩ := a
    simp [columnsFrom, columnAt, ih]

theorem buildColumns_cons {σ : Type} (env : Env σ) (row : Row) (rest : List Row)
    (hperm : (env.rangeOrder row).Perm row) :
    buildColumns env (row :: rest) = columnsFrom (env.rangeOrder row) 0 := by
  have hlen : (env.rangeOrder row).length = row.length := hperm.length_eq
  simp only [buildColumns]
  rw [fillColumns_eq _ 0 row.length _ (by omega) (by simp)]
  simp

theorem waiForQueryResult_absent {σ : Type} (env : Env σ) (q : String) (t : Int) (s : State σ)
    (h : ∀ x ∈ s.mResultQueue, x.QueryID ≠ q) :
    waiForQueryResult env q t s =
      ({ QueryResult.zero with Err := some "query timed out" }, s) :=
  waiForQueryResult_none env q t s (pollQueue_none env q s (fun x hx hh => h x hx hh.1))

theorem waiForQueryResult_removed {σ : Type} (env : Env σ) (q : String) (t : Int) (s : State σ)
    (pre : List queryResult) (r : queryResult) (post : List queryResult) (ht : 0 ≤ t)
    (hq : s.mResultQueue = pre ++ r :: post) (hr : r.QueryID = q)
    (hc : r.Finished = true ∨ r.Err ≠ none)
    (hpre : ∀ x ∈ pre, x.QueryID ≠ q) (hpost : ∀ x ∈ post, x.QueryID ≠ q) :
    ∀ x ∈ (waiForQueryResult env q t s).2.mResultQueue, x.QueryID ≠ q := by
  rw [waiForQueryResult_found env q t s _ ht (pollQueue_unique env q s pre r post hq hr hc hpre)]
  have hperm := removeFromResultQueue_perm q pre { r with Received := true } post hr hpre
  intro x hx
  rcases List.mem_append.1 (hperm.subset hx) with h | h
  · exact hpre x h
  · exact hpost x h

/-! ## Lemmas: the backup loop -/

theorem backupLoop_stop (eng : BackupEngine) (b l : Bool) (ms : Int) (pDb : Option Nat)
    (data : String) (group : List OpenDatabase) (fuel k : Nat) (ev : List BackupEvent)
    (h : stepContinues b l (eng.stepRc k) = false) :
    backupLoop eng b l ms pDb data group (fuel + 1) k ev =
      some (k + 1, ev ++ [BackupEvent.step (eng.stepRc k)]) := by
  simp only [backupLoop]
  by_cases h1 : (b && eng.stepRc k == SQLITE_BUSY) = true
  · simp [h1]
  · by_cases h2 : (l && eng.stepRc k == SQLITE_LOCKED) = true
    · simp [h1, h2]
    · by_cases h3 : (eng.stepRc k != SQLITE_OK && eng.stepRc k != SQLITE_BUSY &&
          eng.stepRc k != SQLITE_LOCKED) = true
      · simp [h1, h2, h3]
      · simp only [Bool.not_eq_true] at h1 h2 h3
        simp [stepContinues, h1, h2, h3] at h

theorem backupLoop_continue (eng : BackupEngine) (b l : Bool) (ms : Int) (pDb : Option Nat)
    (data : String) (group : List OpenDatabase) (fuel k : Nat) (ev : List BackupEvent)
    (h : stepContinues b l (eng.stepRc k) = true) :
    backupLoop eng b l ms pDb data group (fuel + 1) k ev =
      backupLoop eng b l ms pDb data group fuel (k + 1)
        (ev ++ ([BackupEvent.step (eng.stepRc k)] ++
          go_xProgress (eng.remaining (k + 1)) (eng.pagecount (k + 1)) pDb data group ++
          [BackupEvent.sleep (cInt ms)])) := by
  simp only [stepContinues, Bool.and_eq_true, Bool.not_eq_true'] at h
  obtain ⟨⟨h1, h2⟩, h3⟩ := h
  have h4 : (eng.stepRc k == SQLITE_OK || eng.stepRc k == SQLITE_BUSY ||
      eng.stepRc k == SQLITE_LOCKED) = true := by
    by_cases a1 : eng.stepRc k = SQLITE_OK
    · simp [a1]
    · by_cases a2 : eng.stepRc k = SQLITE_BUSY
      · simp [a2]
      · by_cases a3 : eng.stepRc k = SQLITE_LOCKED
        · simp [a3]
        · simp [a1, a2, a3] at h3
  simp only [backupLoop, h1, h2, h3, h4, Bool.false_eq_true, if_false, if_true,
    List.append_assoc]

/-- The loop ends at the first step call after which it does not go on, given
fuel for it. -/
theorem backupLoop_ends (eng : BackupEngine) (b l : Bool) (ms : Int) (pDb : Option Nat)
    (data : String) (group : List OpenDatabase) (m : Nat) :
    ∀ (fuel k : Nat) (ev : List BackupEvent),
      (∀ j, j < m → stepContinues b l (eng.stepRc (k + j)) = true) →
      stepContinues b l (eng.stepRc (k + m)) = false → m < fuel →
      backupLoop eng b l ms pDb data group fuel k ev =
        some (k + m + 1, ev ++ reportedSteps eng ms pDb data group k m ++
          [BackupEvent.step (eng.stepRc (k + m))]) := by
  induction m with
  | zero =>
    intro fuel k ev _ hstop hfuel
    obtain ⟨f, rfl⟩ : ∃ f, fuel = f + 1 := ⟨fuel - 1, by omega⟩
    rw [backupLoop_stop eng b l ms pDb data group f k ev (by simpa using hstop)]
    simp [reportedSteps]
  | succ m ih =>
    intro fuel k ev hcont hstop hfuel
    obtain ⟨f, rfl⟩ : ∃ f, fuel = f + 1 := ⟨fuel - 1, by omega⟩
    rw [backupLoop_continue eng b l ms pDb data group f k ev (by simpa using hcont 0 (by omega))]
    rw [ih f (k + 1) _
      (fun j hj => by
        have := hcont (j + 1) (by omega)
        rw [show k + 1 + j = k + (j + 1) by omega]
        exact this)
      (by rw [show k + 1 + m = k + (m + 1) by omega]; exact hstop) (by omega)]
    simp only [reportedSteps, List.append_assoc]
    rw [show k + 1 + m = k + (m + 1) by omega]

/-- While every step call lets the loop go on, the loop does not end. -/
theorem backupLoop_running (eng : BackupEngine) (b l : Bool) (ms : Int) (pDb : Option Nat)
    (data : String) (group : List OpenDatabase) :
    ∀ (fuel k : Nat) (ev : List BackupEvent),
      (∀ j, j < fuel → stepContinues b l (eng.stepRc (k + j)) = true) →
      backupLoop eng b l ms pDb data group fuel k ev = none := by
  intro fuel
  induction fuel with
  | zero => intro k ev _; rfl
  | succ f ih =>
    intro k ev hcont
    rw [backupLoop_continue eng b l ms pDb data group f k ev (by simpa using hcont 0 (by omega))]
    exact ih (k + 1) _ (fun j hj => by
      have := hcont (j + 1) (by omega)
      rw [show k + 1 + j = k + (j + 1) by omega]
      exact this)

theorem go_xProgress_registered (x y : Int) (data : String) (pre : List OpenDatabase)
    (db : OpenDatabase) (post : List OpenDatabase) (f : Nat)
    (hf : db.BackupProgress = some f) (hpre : ∀ e ∈ pre, e.DBHwnd ≠ db.DBHwnd) :
    go_xProgress x y db.DBHwnd data (pre ++ db :: post) = [BackupEvent.progress f x y data] := by
  induction pre with
  | nil => simp [go_xProgress, hf]
  | cons a rest ih =>
    have ha : a.DBHwnd ≠ db.DBHwnd := hpre a (by simp)
    simp only [List.cons_append, go_xProgress, if_neg ha]
    exact ih (fun e he => hpre e (List.mem_cons_of_mem _ he))

theorem go_xProgress_length_le (x y : Int) (pDb : Option Nat) (data : String)
    (group : List OpenDatabase) : (go_xProgress x y pDb data group).length ≤ 1 := by
  induction group with
  | nil => simp [go_xProgress]
  | cons a rest ih =>
    simp only [go_xProgress]
    split
    · split <;> simp
    · exact ih

theorem stepEvents_go_xProgress (x y : Int) (pDb : Option Nat) (data : String)
    (group : List OpenDatabase) : stepEvents (go_xProgress x y pDb data group) = [] := by
  induction group with
  | nil => rfl
  | cons a rest ih =>
    simp only [go_xProgress]
    split
    · split <;> rfl
    · exact ih

theorem sleepEvents_go_xProgress (x y : Int) (pDb : Option Nat) (data : String)
    (group : List OpenDatabase) : sleepEvents (go_xProgress x y pDb data group) = [] := by
  induction group with
  | nil => rfl
  | cons a rest ih =>
    simp only [go_xProgress]
    split
    · split <;> rfl
    · exact ih

theorem stepEvents_append (a b : List BackupEvent) :
    stepEvents (a ++ b) = stepEvents a ++ stepEvents b := by
  simp [stepEvents]

theorem progressEvents_append (a b : List BackupEvent) :
    progressEvents (a ++ b) = progressEvents a ++ progressEvents b := by
  simp [progressEvents]

theorem sleepEvents_append (a b : List BackupEvent) :
    sleepEvents (a ++ b) = sleepEvents a ++ sleepEvents b := by
  simp [sleepEvents]

theorem stepEvents_reportedSteps (eng : BackupEngine) (ms : Int) (pDb : Option Nat)
    (data : String) (group : List OpenDatabase) (k m : Nat) :
    stepEvents (reportedSteps eng ms pDb data group k m) =
      (List.range m).map (fun j => BackupEvent.step (eng.stepRc (k + j))) := by
  induction m generalizing k with
  | zero => rfl
  | succ m ih =>
    simp only [reportedSteps, stepEvents_append, stepEvents_go_xProgress, ih,
      List.range_succ_eq_map, List.map_cons, List.map_map]
    simp only [stepEvents, List.filter, List.append_nil, List.nil_append, List.singleton_append,
      Nat.add_zero, List.cons.injEq, true_and]
    apply List.map_congr_left
    intro j _
    simp only [Function.comp, Nat.succ_eq_add_one]
    rw [show k + 1 + j = k + (j + 1) by omega]

theorem sleepEvents_reportedSteps (eng : BackupEngine) (ms : Int) (pDb : Option Nat)
    (data : String) (group : List OpenDatabase) (k m : Nat) :
    sleepEvents (reportedSteps eng ms pDb data group k m) =
      List.replicate m (BackupEvent.sleep (cInt ms)) := by
  induction m generalizing k with
  | zero => rfl
  | succ m ih =>
    simp only [reportedSteps, sleepEvents_append, sleepEvents_go_xProgress, ih,
      List.replicate_succ]
    simp [sleepEvents, List.filter]

theorem progressEvents_reportedSteps (eng : BackupEngine) (ms : Int) (data : String)
    (pre : List OpenDatabase) (db : OpenDatabase) (post : List OpenDatabase) (f : Nat)
    (hf : db.BackupProgress = some f) (hpre : ∀ e ∈ pre, e.DBHwnd ≠ db.DBHwnd) (k m : Nat) :
    progressEvents (reportedSteps eng ms db.DBHwnd data (pre ++ db :: post) k m) =
      (List.range m).map (fun j =>
        BackupEvent.progress f (eng.remaining (k + j + 1)) (eng.pagecount (k + j + 1)) data) := by
  induction m generalizing k with
  | zero => rfl
  | succ m ih =>
    simp only [reportedSteps, progressEvents_append,
      go_xProgress_registered _ _ data pre db post f hf hpre, ih,
      List.range_succ_eq_map, List.map_cons, List.map_map]
    simp only [progressEvents, List.filter, List.append_nil, List.nil_append,
      List.singleton_append, Nat.add_zero, List.cons.injEq, true_and]
    apply List.map_congr_left
    intro j _
    simp only [Function.comp, Nat.succ_eq_add_one]
    rw [show k + 1 + j + 1 = k + (j + 1) + 1 by omega]

theorem parseBackupOptions_flags (options : List String) (flags : Bool × Bool) :
    parseBackupOptions options flags =
      (flags.1 || decide (backup_raise_err_on_busy ∈ options),
       flags.2 || decide (backup_raise_err_on_dblocked ∈ options)) := by
  induction options generalizing flags with
  | nil => simp [parseBackupOptions]
  | cons o rest ih =>
    have hne : backup_raise_err_on_dblocked ≠ backup_raise_err_on_busy := by decide
    simp only [parseBackupOptions]
    by_cases h1 : o = backup_raise_err_on_dblocked
    · subst h1
      simp [ih, hne, Ne.symm hne]
    · by_cases h2 : o = backup_raise_err_on_busy
      · subst h2
        simp [ih, hne, Ne.symm hne]
      · simp [h1, h2, ih, Ne.symm h1, Ne.symm h2]

theorem cInt_of_range (n : Int) (h0 : 0 ≤ n) (h1 : n < 2 ^ 31) : cInt n = n := by
  unfold cInt
  omega

/-- The call of `BackupOnlineDB` whose step loop ends at the step call `m`. -/
theorem BackupOnlineDB_ends (eng : BackupEngine) (fuel : Nat) (onlineDB : OpenDatabase)
    (registeredAt : Option Nat) (group : List OpenDatabase) (ms : Int)
    (prgCallback : Option Nat) (extraData : String) (options : List String) (m : Nat)
    (hopen : eng.openRc = SQLITE_OK) (hinit : eng.initOk = true)
    (hcont : ∀ j, j < m →
      stepContinues (decide (backup_raise_err_on_busy ∈ options))
        (decide (backup_raise_err_on_dblocked ∈ options)) (eng.stepRc j) = true)
    (hstop : stepContinues (decide (backup_raise_err_on_busy ∈ options))
        (decide (backup_raise_err_on_dblocked ∈ options)) (eng.stepRc m) = false)
    (hfuel : m < fuel) :
    BackupOnlineDB eng fuel onlineDB registeredAt group true ms prgCallback extraData options =
      some
        { err := if eng.errcode (m + 1) = 0 then none else some (GetErrText (eng.errcode (m + 1)))
          events :=
            reportedSteps eng (if ms < 0 then 0 else ms) onlineDB.DBHwnd extraData
              (match registeredAt with
                | some i => group.set i { onlineDB with BackupProgress := prgCallback }
                | none => group) 0 m ++ [BackupEvent.step (eng.stepRc m)]
          onlineDB := { onlineDB with BackupProgress := prgCallback }
          OpenDatabases :=
            match registeredAt with
            | some i => group.set i { onlineDB with BackupProgress := prgCallback }
            | none => group } := by
  have hloop := backupLoop_ends eng (decide (backup_raise_err_on_busy ∈ options))
    (decide (backup_raise_err_on_dblocked ∈ options)) (if ms < 0 then 0 else ms)
    onlineDB.DBHwnd extraData
    (match registeredAt with
      | some i => group.set i { onlineDB with BackupProgress := prgCallback }
      | none => group) m fuel 0 []
    (fun j hj => by simpa using hcont j hj) (by simpa using hstop) hfuel
  simp only [Nat.zero_add, List.nil_append] at hloop
  simp only [BackupOnlineDB, Bool.not_true, Bool.false_eq_true, if_false, hopen, hinit, if_true,
    parseBackupOptions_flags, Bool.false_or, hloop]

/-- The call of `BackupOnlineDB` whose step loop never ends does not return. -/
theorem BackupOnlineDB_running (eng : BackupEngine) (fuel : Nat) (onlineDB : OpenDatabase)
    (registeredAt : Option Nat) (group : List OpenDatabase) (ms : Int)
    (prgCallback : Option Nat) (extraData : String) (options : List String)
    (hopen : eng.openRc = SQLITE_OK) (hinit : eng.initOk = true)
    (hcont : ∀ j,
      stepContinues (decide (backup_raise_err_on_busy ∈ options))
        (decide (backup_raise_err_on_dblocked ∈ options)) (eng.stepRc j) = true) :
    BackupOnlineDB eng fuel onlineDB registeredAt group true ms prgCallback extraData options =
      none := by
  have hloop := backupLoop_running eng (decide (backup_raise_err_on_busy ∈ options))
    (decide (backup_raise_err_on_dblocked ∈ options)) (if ms < 0 then 0 else ms)
    onlineDB.DBHwnd extraData
    (match registeredAt with
      | some i => group.set i { onlineDB with BackupProgress := prgCallback }
      | none => group) fuel 0 [] (fun j _ => by simpa using hcont j)
  simp only [BackupOnlineDB, Bool.not_true, Bool.false_eq_true, if_false, hopen, hinit, if_true,
    parseBackupOptions_flags, Bool.false_or, hloop]

theorem stepContinues_locked (b : Bool) : stepContinues b false SQLITE_LOCKED = true := by
  cases b <;> decide

theorem stepContinues_busy (l : Bool) : stepContinues false l SQLITE_BUSY = true := by
  cases l <;> decide

theorem stepContinues_locked_abort (b : Bool) : stepContinues b true SQLITE_LOCKED = false := by
  cases b <;> decide

theorem stepContinues_busy_abort (l : Bool) : stepContinues true l SQLITE_BUSY = false := by
  cases l <;> decide

theorem stepContinues_done (b l : Bool) : stepContinues b l SQLITE_DONE = false := by
  cases b <;> cases l <;> decide

theorem reportedSteps_add (eng : BackupEngine) (ms : Int) (pDb : Option Nat) (data : String)
    (group : List OpenDatabase) (k a b : Nat) :
    reportedSteps eng ms pDb data group k (a + b) =
      reportedSteps eng ms pDb data group k a ++ reportedSteps eng ms pDb data group (k + a) b := by
  induction a generalizing k with
  | zero => simp [reportedSteps]
  | succ a ih =>
    rw [show a + 1 + b = (a + b) + 1 by omega]
    simp only [reportedSteps, ih, List.append_assoc]
    rw [show k + 1 + a = k + (a + 1) by omega]

theorem reportedSteps_then_step (eng : BackupEngine) (ms : Int) (pDb : Option Nat)
    (data : String) (group : List OpenDatabase) (k d : Nat) :
    ∃ tail, reportedSteps eng ms pDb data group k d ++ [BackupEvent.step (eng.stepRc (k + d))] =
      BackupEvent.step (eng.stepRc k) :: tail := by
  cases d with
  | zero => exact ⟨[], by simp [reportedSteps]⟩
  | succ d =>
    exact ⟨go_xProgress (eng.remaining (k + 1)) (eng.pagecount (k + 1)) pDb data group ++
      BackupEvent.sleep (cInt ms) ::
        (reportedSteps eng ms pDb data group (k + 1) d ++
          [BackupEvent.step (eng.stepRc (k + (d + 1)))]), by
      simp only [reportedSteps, List.append_assoc, List.singleton_append, List.cons_append,
        List.nil_append]⟩

/-- A loop that ends has ended at the first step call after which it does not go on. -/
theorem backupLoop_some (eng : BackupEngine) (b l : Bool) (ms : Int) (pDb : Option Nat)
    (data : String) (group : List OpenDatabase) :
    ∀ (fuel k : Nat) (ev : List BackupEvent) (n : Nat) (ev1 : List BackupEvent),
      backupLoop eng b l ms pDb data group fuel k ev = some (n, ev1) →
      ∃ m, m < fuel ∧ (∀ j, j < m → stepContinues b l (eng.stepRc (k + j)) = true) ∧
        stepContinues b l (eng.stepRc (k + m)) = false := by
  intro fuel
  induction fuel with
  | zero => intro k ev n ev1 h; simp [backupLoop] at h
  | succ f ih =>
    intro k ev n ev1 h
    cases hc : stepContinues b l (eng.stepRc k) with
    | false => exact ⟨0, by omega, fun j hj => by omega, by simpa using hc⟩
    | true =>
      rw [backupLoop_continue eng b l ms pDb data group f k ev hc] at h
      obtain ⟨m, hm, hcont, hstop⟩ := ih (k + 1) _ n ev1 h
      refine ⟨m + 1, by omega, ?_, ?_⟩
      · intro j hj
        cases j with
        | zero => simpa using hc
        | succ j =>
          have := hcont j (by omega)
          rw [show k + (j + 1) = k + 1 + j by omega]
          exact this
      · rw [show k + (m + 1) = k + 1 + m by omega]
        exact hstop

theorem BackupOnlineDB_some (eng : BackupEngine) (fuel : Nat) (onlineDB : OpenDatabase)
    (registeredAt : Option Nat) (group : List OpenDatabase) (ms : Int)
    (prgCallback : Option Nat) (extraData : String) (options : List String)
    (res : BackupResult) (hopen : eng.openRc = SQLITE_OK) (hinit : eng.initOk = true)
    (h : BackupOnlineDB eng fuel onlineDB registeredAt group true ms prgCallback extraData
      options = some res) :
    ∃ m, m < fuel ∧
      (∀ j, j < m → stepContinues (decide (backup_raise_err_on_busy ∈ options))
        (decide (backup_raise_err_on_dblocked ∈ options)) (eng.stepRc j) = true) ∧
      stepContinues (decide (backup_raise_err_on_busy ∈ options))
        (decide (backup_raise_err_on_dblocked ∈ options)) (eng.stepRc m) = false := by
  simp only [BackupOnlineDB, Bool.not_true, Bool.false_eq_true, if_false, hopen, hinit, if_true,
    parseBackupOptions_flags, Bool.false_or] at h
  split at h
  · exact absurd h (by simp)
  · rename_i k ev hl
    obtain ⟨m, hm, hcont, hstop⟩ := backupLoop_some eng _ _ _ _ _ _ fuel 0 [] k ev hl
    exact ⟨m, hm, fun j hj => by simpa using hcont j hj, by simpa using hstop⟩

/-! ## Lemmas: the operation counters -/

theorem isGoInt_iff (n : Int) : isGoInt n = true ↔ -(2 ^ 63) ≤ n ∧ n < 2 ^ 63 := by
  simp [isGoInt]

theorem intDec_intInc (n : Int) (h : isGoInt n = true) : intDec (intInc n) = n := by
  rw [isGoInt_iff] at h
  unfold intDec intInc wrapInt
  omega

theorem intInc_of_lt (n : Int) (h0 : -(2 ^ 63) ≤ n) (h1 : n < 2 ^ 63 - 1) :
    intInc n = n + 1 := by
  unfold intInc wrapInt
  omega

theorem Counters.InRange_iff (c : Counters) :
    c.InRange = true ↔
      isGoInt c.GetDataTableSeqNo = true ∧ isGoInt c.ExecSeqNo = true ∧
      isGoInt c.ExecuteSeqNo = true ∧ isGoInt c.ExececuteNonQuerySeqNo = true ∧
      isGoInt c.ExececuteScalreSeqNo = true ∧ isGoInt c.QuerySeqNo = true := by
  simp [Counters.InRange, and_assoc]

theorem IsIdle_false_iff (c : Counters) :
    IsIdle c = false ↔
      (0 < c.ExecSeqNo ∨ 0 < c.GetDataTableSeqNo ∨ 0 < c.ExecuteSeqNo ∨
        0 < c.ExececuteNonQuerySeqNo ∨ 0 < c.ExececuteScalreSeqNo ∨ 0 < c.QuerySeqNo) := by
  simp only [IsIdle, Bool.and_eq_false_iff, decide_eq_false_iff_not]
  omega

/-! ## Lemmas: the file stub -/

theorem appendAfterStub_eq (stubLen : Nat) (rest : List Nat) (i : Nat) (outB : List Nat) :
    appendAfterStub stubLen i rest outB = outB ++ rest.drop (stubLen - i) := by
  induction rest generalizing i outB with
  | nil => simp [appendAfterStub]
  | cons x rest ih =>
    by_cases h : i < stubLen
    · simp only [appendAfterStub, if_pos h, ih]
      rw [show stubLen - i = (stubLen - (i + 1)) + 1 by omega, List.drop_succ_cons]
    · simp only [appendAfterStub, if_neg h, ih]
      rw [show stubLen - i = 0 by omega, show stubLen - (i + 1) = 0 by omega]
      simp

theorem DecodeString_header :
    DecodeString sqlite3_dbfile_emtpy_header =
      [0x53, 0x51, 0x4c, 0x69, 0x74, 0x65, 0x20, 0x66, 0x6f, 0x72, 0x6d, 0x61, 0x74, 0x20, 0x33,
       0x00, 0x10, 0x00, 0x02, 0x02, 0x00, 0x40, 0x20, 0x20, 0x00, 0x01, 0x7e, 0x1e, 0x00, 0x00,
       0x00, 0x09] := by
  decide

theorem RepairSqlite3FileStub_eq (b : List Nat) :
    RepairSqlite3FileStub b = DecodeString sqlite3_dbfile_emtpy_header ++ b.drop 32 := by
  simp only [RepairSqlite3FileStub, appendAfterStub_eq, DecodeString_header]
  rfl

/-! ## Lemmas: `DB.Get` -/

theorem CmdParam_format :
    CmdParam.format =
      "\x7bcollation_list checkpoint_fullfsync data_version database_list page_count " ++
        "encoding module_list table_list page_size schema_version\x7d" := by
  decide

theorem DB.Get_accepted {σ : Type} (env : Env σ) (d : DB) (cmdParam : String) (s : State σ)
    (hacc : Contains CmdParam.format cmdParam = true)
    (hClosed : d.Closed = false) (hConn : d.getResultSetConnections = 0)
    (hq : s.mResultQueue = [])
    (hLocked : getSQLiteErr (env.exec s.engine d.DBHwnd "PRAGMA database_list;").1.rc
      (env.exec s.engine d.DBHwnd "PRAGMA database_list;").1.errmsg ≠ some "database is locked")
    (hFatal : getSQLiteErr (env.exec s.engine d.DBHwnd "PRAGMA database_list;").1.rc
      (env.exec s.engine d.DBHwnd "PRAGMA database_list;").1.errmsg ≠ some "out of memory") :
    ∃ r d1 s1, DB.Get env d cmdParam s = some (r, d1, s1) ∧
      s1.engineCalls = s.engineCalls ++ [(d.DBHwnd, "PRAGMA database_list;")] ∧
      r.2 = getSQLiteErr (env.exec s.engine d.DBHwnd "PRAGMA database_list;").1.rc
        (env.exec s.engine d.DBHwnd "PRAGMA database_list;").1.errmsg := by
  have e : "PRAGMA " ++ db_cmd_get_database_list ++ ";" = "PRAGMA database_list;" := by decide
  have h := GetResultSet_empty_done env d "PRAGMA database_list;" s hClosed hConn hq hLocked
    hFatal
  simp only [DB.Get, hacc, Bool.not_true, Bool.false_eq_true, if_false, e, h]
  exact ⟨_, _, _, rfl, rfl, rfl⟩

/-! ## Lemmas: the engine calls of `processRequestQueue` -/

theorem drop_after_position {α : Type} (pre : List α) (y z : α) (post : List α) (i : Nat)
    (h : pre.length ≤ i) :
    (pre ++ y :: post).drop (i + 1) = (pre ++ z :: post).drop (i + 1) := by
  obtain ⟨k, rfl⟩ : ∃ k, i = pre.length + k := ⟨i - pre.length, by omega⟩
  rw [show pre.length + k + 1 = pre.length + (k + 1) by omega, List.drop_append,
    List.drop_append]
  rfl

theorem first_query_position (q : String) (pre : List queryResult) (r : queryResult)
    (post : List queryResult) (hp : ∀ x ∈ pre, x.QueryID ≠ q) (i : Nat) (x : queryResult)
    (hi : (pre ++ r :: post)[i]? = some x) (hx : x.QueryID = q) : pre.length ≤ i := by
  by_contra hlt
  have hlt2 : i < pre.length := by omega
  rw [List.getElem?_append_left hlt2] at hi
  have hmem : x ∈ pre := List.getElem?_mem hi
  exact hp x hmem hx

/-- The engine call made for the record at index `i` changes no record behind
index `i`: the record marked and the record that receives the rows are the
first one with the `QueryID`, at an index not above `i`. -/
theorem execWithResults_drop {σ : Type} (env : Env σ) (d : DB) (q sql : String)
    (s s1 : State σ) (i : Nat) (x : queryResult) (hi : s.mResultQueue[i]? = some x)
    (hx : x.QueryID = q) (h : execWithResults env d q sql s = some s1) :
    s1.mResultQueue.drop (i + 1) = s.mResultQueue.drop (i + 1) ∧
    s1.mResultQueue.length = s.mResultQueue.length ∧
    s1.engineCalls = s.engineCalls ++ [(d.DBHwnd, sql)] := by
  have hlen := execWithResults_length env d q sql s s1 h
  rw [execWithResults_eq] at h
  split at h
  · exact absurd h (by simp)
  · have hs := Option.some.inj h
    subst hs
    refine ⟨?_, hlen, rfl⟩
    obtain ⟨pre, r, post, hq, hr, hp⟩ := exists_first_query q s.mResultQueue
      ⟨x, List.getElem?_mem hi, hx⟩
    have hpos : pre.length ≤ i := by
      rw [hq] at hi
      exact first_query_position q pre r post hp i x hi hx
    simp only [hq]
    rw [deliverRows_first _ q pre r post hr hp,
      markRecord_first q _ _ _ _ pre _ post (by simpa using hr) hp]
    exact drop_after_position pre _ _ post i hpos

theorem processLoop_calls {σ : Type} (env : Env σ) (d : DB)
    (hFatal : ∀ e h sql, getSQLiteErr (env.exec e h sql).1.rc (env.exec e h sql).1.errmsg ≠
      some "out of memory")
    (fuel i : Nat) (s : State σ) (hf : s.mResultQueue.length - i ≤ fuel) :
    ∃ s1, processLoop env d fuel i s = some s1 ∧
      s1.engineCalls = s.engineCalls ++
        ((s.mResultQueue.drop i).filter notStarted).map (fun r => (d.DBHwnd, r.SQLStmt)) ∧
      s1.mResultQueue.length = s.mResultQueue.length := by
  induction fuel generalizing i s with
  | zero =>
    have hd : s.mResultQueue.drop i = [] := List.drop_eq_nil_of_le (by omega)
    exact ⟨s, rfl, by simp [hd], rfl⟩
  | succ f ih =>
    rw [processLoop_succ]
    cases hi : s.mResultQueue[i]? with
    | none =>
      have hd : s.mResultQueue.drop i = [] :=
        List.drop_eq_nil_of_le (by
          by_contra hlt
          rw [List.getElem?_eq_getElem (by omega)] at hi
          exact absurd hi (by simp))
      exact ⟨s, rfl, by simp [hd], rfl⟩
    | some r =>
      have hlt : i < s.mResultQueue.length := by
        by_contra hge
        rw [List.getElem?_eq_none (by omega)] at hi
        exact absurd hi (by simp)
      have hdrop : s.mResultQueue.drop i = r :: s.mResultQueue.drop (i + 1) := by
        rw [List.drop_eq_getElem_cons hlt]
        congr 1
        rw [List.getElem?_eq_getElem hlt] at hi
        exact Option.some.inj hi
      simp only []
      by_cases he : notStarted r = true
      · have he2 : (!r.Processed && !r.Received && !r.Started) = true := he
        rw [if_pos he2]
        cases hex : execWithResults env d r.QueryID r.SQLStmt
          { s with
            mResultQueue := s.mResultQueue.set i { r with Started := true, TimeStarted := s.clock }
            clock := s.clock + 1 } with
        | none =>
          rw [execWithResults_eq, if_neg (hFatal _ _ _)] at hex
          exact absurd hex (by simp)
        | some s2 =>
          have hset : ({ s with
              mResultQueue :=
                s.mResultQueue.set i { r with Started := true, TimeStarted := s.clock }
              clock := s.clock + 1 } : State σ).mResultQueue[i]? =
              some { r with Started := true, TimeStarted := s.clock } := by
            simp [List.getElem?_set, hlt]
          obtain ⟨h1, h2, h3⟩ := execWithResults_drop env d r.QueryID r.SQLStmt _ s2 i _ hset rfl
            hex
          simp only [List.length_set] at h2
          simp only [List.drop_set, show ¬ (i + 1 ≤ i) by omega, if_false] at h1
          obtain ⟨s1, hs1, hc, hl⟩ := ih (i + 1) s2 (by omega)
          refine ⟨s1, hs1, ?_, by omega⟩
          rw [hc, h3, h1, hdrop, List.filter_cons_of_pos he]
          simp
      · have he2 : ¬ ((!r.Processed && !r.Received && !r.Started) = true) := he
        rw [if_neg he2]
        obtain ⟨s1, hs1, hc, hl⟩ := ih (i + 1) s (by omega)
        refine ⟨s1, hs1, ?_, hl⟩
        rw [hc, hdrop, List.filter_cons_of_neg he]

theorem getElem?_other_position {α : Type} (pre : List α) (y z : α) (post : List α) (k : Nat)
    (h : k ≠ pre.length) : (pre ++ y :: post)[k]? = (pre ++ z :: post)[k]? := by
  rcases Nat.lt_or_gt_of_ne h with h1 | h1
  · rw [List.getElem?_append_left h1, List.getElem?_append_left h1]
  · obtain ⟨j, rfl⟩ : ∃ j, k = pre.length + (j + 1) := ⟨k - pre.length - 1, by omega⟩
    rw [List.getElem?_append_right (by omega), List.getElem?_append_right (by omega)]
    simp

theorem first_query_unique (q : String) (pre : List queryResult) (r : queryResult)
    (post : List queryResult) (hr : r.QueryID = q) (hp : ∀ x ∈ pre, x.QueryID ≠ q)
    (hnd : (queueIDs (pre ++ r :: post)).Nodup) (i : Nat) (x : queryResult)
    (hi : (pre ++ r :: post)[i]? = some x) (hx : x.QueryID = q) : i = pre.length := by
  have hle := first_query_position q pre r post hp i x hi hx
  by_contra hne
  obtain ⟨j, rfl⟩ : ∃ j, i = pre.length + (j + 1) := ⟨i - pre.length - 1, by omega⟩
  rw [List.getElem?_append_right (by omega)] at hi
  have hi2 : post[j]? = some x := by simpa using hi
  have hmem : x ∈ post := List.getElem?_mem hi2
  simp only [queueIDs, List.map_append, List.map_cons] at hnd
  have h2 := (List.nodup_append.mp hnd).2.1
  have h3 := (List.nodup_cons.mp h2).1
  exact h3 (by rw [hr, ← hx]; exact List.mem_map_of_mem _ hmem)

/-- With pairwise distinct `QueryID`s the engine call made for the record at
index `i` changes that record only. -/
theorem execWithResults_only_index {σ : Type} (env : Env σ) (d : DB) (q sql : String)
    (s s1 : State σ) (i : Nat) (x : queryResult) (hnd : (queueIDs s.mResultQueue).Nodup)
    (hi : s.mResultQueue[i]? = some x) (hx : x.QueryID = q)
    (h : execWithResults env d q sql s = some s1) (k : Nat) (hk : k ≠ i) :
    s1.mResultQueue[k]? = s.mResultQueue[k]? := by
  rw [execWithResults_eq] at h
  split at h
  · exact absurd h (by simp)
  · have hs := Option.some.inj h
    subst hs
    obtain ⟨pre, r, post, hq, hr, hp⟩ := exists_first_query q s.mResultQueue
      ⟨x, List.getElem?_mem hi, hx⟩
    rw [hq] at hi hnd
    have hpos := first_query_unique q pre r post hr hp hnd i x hi hx
    simp only [hq]
    rw [deliverRows_first _ q pre r post hr hp,
      markRecord_first q _ _ _ _ pre _ post (by simpa using hr) hp]
    exact getElem?_other_position pre _ _ post k (by omega)

theorem processLoop_untouched {σ : Type} (env : Env σ) (d : DB) (fuel i : Nat) (s s1 : State σ)
    (hnd : (queueIDs s.mResultQueue).Nodup) (h : processLoop env d fuel i s = some s1)
    (k : Nat) (r : queryResult) (hk : s.mResultQueue[k]? = some r)
    (hr : k < i ∨ notStarted r = false) : s1.mResultQueue[k]? = some r := by
  induction fuel generalizing i s with
  | zero =>
    simp only [processLoop, Option.some.injEq] at h
    rw [← h]
    exact hk
  | succ f ih =>
    rw [processLoop_succ] at h
    cases hi : s.mResultQueue[i]? with
    | none =>
      rw [hi] at h
      simp only [Option.some.injEq] at h
      rw [← h]
      exact hk
    | some x =>
      rw [hi] at h
      simp only [] at h
      by_cases he : notStarted x = true
      · have he2 : (!x.Processed && !x.Received && !x.Started) = true := he
        rw [if_pos he2] at h
        have hlt : i < s.mResultQueue.length := by
          by_contra hge
          rw [List.getElem?_eq_none (by omega)] at hi
          exact absurd hi (by simp)
        cases hex : execWithResults env d x.QueryID x.SQLStmt
          { s with
            mResultQueue := s.mResultQueue.set i { x with Started := true, TimeStarted := s.clock }
            clock := s.clock + 1 } with
        | none =>
          rw [hex] at h
          exact absurd h (by simp)
        | some s2 =>
          rw [hex] at h
          simp only [] at h
          have hki : k ≠ i := by
            rcases hr with h1 | h1
            · omega
            · intro hki
              subst hki
              rw [hk] at hi
              have := Option.some.inj hi
              subst this
              rw [h1] at he
              exact absurd he (by simp)
          have hset : ({ s with
              mResultQueue :=
                s.mResultQueue.set i { x with Started := true, TimeStarted := s.clock }
              clock := s.clock + 1 } : State σ).mResultQueue[i]? =
              some { x with Started := true, TimeStarted := s.clock } := by
            simp [List.getElem?_set, hlt]
          have hids : queueIDs (s.mResultQueue.set i
              { x with Started := true, TimeStarted := s.clock }) = queueIDs s.mResultQueue :=
            map_set_same_key _ s.mResultQueue i x _ hi rfl
          have hnd1 : (queueIDs ({ s with
              mResultQueue :=
                s.mResultQueue.set i { x with Started := true, TimeStarted := s.clock }
              clock := s.clock + 1 } : State σ).mResultQueue).Nodup := by
            simp only [hids]
            exact hnd
          have h2 := execWithResults_only_index env d x.QueryID x.SQLStmt _ s2 i _ hnd1 hset rfl
            hex k hki
          simp only [List.getElem?_set_ne (Ne.symm hki)] at h2
          have hnd2 : (queueIDs s2.mResultQueue).Nodup := by
            rw [queueIDs_eq_of_keys _ _ (execWithResults_keys env d _ _ _ s2 hex).1]
            exact hnd1
          exact ih (i + 1) s2 hnd2 h (by rw [h2]; exact hk)
            (by rcases hr with h1 | h1
                · exact Or.inl (by omega)
                · exact Or.inr h1)
      · have he2 : ¬ ((!x.Processed && !x.Received && !x.Started) = true) := he
        rw [if_neg he2] at h
        exact ih (i + 1) s hnd h hk
          (by rcases hr with h1 | h1
              · exact Or.inl (by omega)
              · exact Or.inr h1)

/-! ## Lemmas: the statements of `Execute` and the queue -/

theorem executeStatements_cons {σ : Type} (env : Env σ) (info : ChangeInfo σ) (d : DB)
    (v : String) (rest : List String) (resw : Result) (s : State σ) :
    executeStatements env info d (v :: rest) resw s =
      if TrimSpace v = "" then executeStatements env info d rest resw s
      else if (sqlite3_exec env d.DBHwnd (TrimSpace v) s).1 ≠ SQLITE_OK then
        executeStatements env info d rest
          { resw with
            rowsAffected := -1
            err := getSQLiteErr (sqlite3_exec env d.DBHwnd (TrimSpace v) s).1
              (sqlite3_exec env d.DBHwnd (TrimSpace v) s).2.1 }
          (sqlite3_exec env d.DBHwnd (TrimSpace v) s).2.2
      else
        executeStatements env info d rest
          { rowsAffected :=
              info.sqlite3_changes (sqlite3_exec env d.DBHwnd (TrimSpace v) s).2.2.engine d.DBHwnd
            lastInsertId :=
              info.sqlite3_last_insert_rowid (sqlite3_exec env d.DBHwnd (TrimSpace v) s).2.2.engine
                d.DBHwnd
            err := none }
          (sqlite3_exec env d.DBHwnd (TrimSpace v) s).2.2 := rfl

theorem sqlite3_exec_state {σ : Type} (env : Env σ) (hwnd : Option Nat) (sql : String)
    (s : State σ) :
    (sqlite3_exec env hwnd sql s).2.2.queueID = s.queueID ∧
    (sqlite3_exec env hwnd sql s).2.2.mResultQueue =
      deliverRows (env.exec s.engine hwnd sql).1.rows s.queueID s.mResultQueue ∧
    (sqlite3_exec env hwnd sql s).2.2.GetResultSetSeqNo = s.GetResultSetSeqNo :=
  ⟨rfl, rfl, rfl⟩

theorem executeStatements_queueID {σ : Type} (env : Env σ) (info : ChangeInfo σ) (d : DB)
    (l : List String) (resw : Result) (s : State σ) :
    (executeStatements env info d l resw s).2.queueID = s.queueID := by
  induction l generalizing resw s with
  | nil => rfl
  | cons v rest ih =>
    rw [executeStatements_cons]
    split
    · exact ih resw s
    · split
      · rw [ih]
        exact (sqlite3_exec_state env d.DBHwnd _ s).1
      · rw [ih]
        exact (sqlite3_exec_state env d.DBHwnd _ s).1

theorem executeStatements_absent {σ : Type} (env : Env σ) (info : ChangeInfo σ) (d : DB)
    (l : List String) (resw : Result) (s : State σ)
    (h : ∀ x ∈ s.mResultQueue, x.QueryID ≠ s.queueID) :
    (executeStatements env info d l resw s).2.mResultQueue = s.mResultQueue := by
  induction l generalizing resw s with
  | nil => rfl
  | cons v rest ih =>
    have hq := (sqlite3_exec_state env d.DBHwnd (TrimSpace v) s).2.1
    rw [deliverRows_absent _ _ _ h] at hq
    have hid := (sqlite3_exec_state env d.DBHwnd (TrimSpace v) s).1
    have h2 : ∀ x ∈ (sqlite3_exec env d.DBHwnd (TrimSpace v) s).2.2.mResultQueue,
        x.QueryID ≠ (sqlite3_exec env d.DBHwnd (TrimSpace v) s).2.2.queueID := by
      rw [hq, hid]
      exact h
    rw [executeStatements_cons]
    split
    · exact ih resw s h
    · split
      · rw [ih _ _ h2, hq]
      · rw [ih _ _ h2, hq]

theorem executeStatements_first {σ : Type} (env : Env σ) (info : ChangeInfo σ) (d : DB)
    (l : List String) (resw : Result) (s : State σ) (pre : List queryResult) (r : queryResult)
    (post : List queryResult) (hq : s.mResultQueue = pre ++ r :: post)
    (hr : r.QueryID = s.queueID) (hp : ∀ x ∈ pre, x.QueryID ≠ s.queueID) :
    ∃ added, (executeStatements env info d l resw s).2.mResultQueue =
      pre ++ { r with Result := r.Result ++ added } :: post := by
  induction l generalizing resw s r with
  | nil => exact ⟨[], by simp [executeStatements, hq]⟩
  | cons v rest ih =>
    have hq2 := (sqlite3_exec_state env d.DBHwnd (TrimSpace v) s).2.1
    rw [hq, deliverRows_first _ _ pre r post hr hp] at hq2
    have hid := (sqlite3_exec_state env d.DBHwnd (TrimSpace v) s).1
    have step : ∀ resw2, ∃ added,
        (executeStatements env info d rest resw2
          (sqlite3_exec env d.DBHwnd (TrimSpace v) s).2.2).2.mResultQueue =
          pre ++ { r with Result := r.Result ++ added } :: post := by
      intro resw2
      obtain ⟨added, ha⟩ := ih resw2 (sqlite3_exec env d.DBHwnd (TrimSpace v) s).2.2 _ hq2
        (by rw [hid]; exact hr) (by rw [hid]; exact hp)
      exact ⟨(env.exec s.engine d.DBHwnd (TrimSpace v)).1.rows.map
        (fun cells => buildRow cells []) ++ added, by rw [ha]; simp only [List.append_assoc]⟩
    rw [executeStatements_cons]
    split
    · exact ih resw s r hq hr hp
    · split
      · exact step _
      · exact step _

/-! ## Lemmas: the records run by `processRequestQueue` -/

/-- With pairwise distinct `QueryID`s the engine call made for the record at
index `i` leaves at that index the record with the rows of the call appended
and then reset (locked) or completed. -/
theorem execWithResults_at_index {σ : Type} (env : Env σ) (d : DB) (q sql : String)
    (s s1 : State σ) (i : Nat) (x : queryResult) (hnd : (queueIDs s.mResultQueue).Nodup)
    (hi : s.mResultQueue[i]? = some x) (hx : x.QueryID = q)
    (h : execWithResults env d q sql s = some s1) :
    s1.mResultQueue[i]? = some
      (if (getSQLiteErr (env.exec s.engine d.DBHwnd sql).1.rc
            (env.exec s.engine d.DBHwnd sql).1.errmsg == some "database is locked") = true then
        resetRecord { x with
          Result := x.Result ++
            (env.exec s.engine d.DBHwnd sql).1.rows.map (fun cells => buildRow cells []) }
      else
        finishRecord
          (getSQLiteErr (env.exec s.engine d.DBHwnd sql).1.rc
            (env.exec s.engine d.DBHwnd sql).1.errmsg)
          (env.exec s.engine d.DBHwnd sql).1.rc s.clock
          { x with
            Result := x.Result ++
              (env.exec s.engine d.DBHwnd sql).1.rows.map (fun cells => buildRow cells []) }) := by
  rw [execWithResults_eq] at h
  split at h
  · exact absurd h (by simp)
  · have hs := Option.some.inj h
    subst hs
    obtain ⟨pre, r, post, hq, hr, hp⟩ := exists_first_query q s.mResultQueue
      ⟨x, List.getElem?_mem hi, hx⟩
    rw [hq] at hi hnd
    have hpos := first_query_unique q pre r post hr hp hnd i x hi hx
    subst hpos
    rw [getElem?_at_length] at hi
    have hrx := Option.some.inj hi
    subst hrx
    simp only [hq]
    rw [deliverRows_first _ q pre r post hr hp,
      markRecord_first q _ _ _ _ pre _ post (by simpa using hr) hp]
    exact getElem?_at_length pre _ post

theorem processLoop_processed {σ : Type} (env : Env σ) (d : DB) (fuel i : Nat) (s s1 : State σ)
    (hnd : (queueIDs s.mResultQueue).Nodup) (h : processLoop env d fuel i s = some s1)
    (hf : s.mResultQueue.length - i ≤ fuel)
    (k : Nat) (r : queryResult) (hk : s.mResultQueue[k]? = some r) (hik : i ≤ k)
    (hr : notStarted r = true) :
    ∃ (e : σ) (t : Nat), s1.mResultQueue[k]? = some
      (if (getSQLiteErr (env.exec e d.DBHwnd r.SQLStmt).1.rc
            (env.exec e d.DBHwnd r.SQLStmt).1.errmsg == some "database is locked") = true then
        resetRecord { r with
          Started := true, TimeStarted := t
          Result := r.Result ++
            (env.exec e d.DBHwnd r.SQLStmt).1.rows.map (fun cells => buildRow cells []) }
      else
        finishRecord
          (getSQLiteErr (env.exec e d.DBHwnd r.SQLStmt).1.rc
            (env.exec e d.DBHwnd r.SQLStmt).1.errmsg)
          (env.exec e d.DBHwnd r.SQLStmt).1.rc (t + 1)
          { r with
            Started := true, TimeStarted := t
            Result := r.Result ++
              (env.exec e d.DBHwnd r.SQLStmt).1.rows.map (fun cells => buildRow cells []) }) := by
  have hklt : k < s.mResultQueue.length := by
    by_contra hge
    rw [List.getElem?_eq_none (by omega)] at hk
    exact absurd hk (by simp)
  induction fuel generalizing i s with
  | zero => omega
  | succ f ih =>
    rw [processLoop_succ] at h
    have hlt : i < s.mResultQueue.length := by omega
    cases hi : s.mResultQueue[i]? with
    | none =>
      rw [List.getElem?_eq_none_iff] at hi
      omega
    | some x =>
      rw [hi] at h
      simp only [] at h
      by_cases he : notStarted x = true
      · have he2 : (!x.Processed && !x.Received && !x.Started) = true := he
        rw [if_pos he2] at h
        cases hex : execWithResults env d x.QueryID x.SQLStmt
          { s with
            mResultQueue := s.mResultQueue.set i { x with Started := true, TimeStarted := s.clock }
            clock := s.clock + 1 } with
        | none =>
          rw [hex] at h
          exact absurd h (by simp)
        | some s2 =>
          rw [hex] at h
          simp only [] at h
          have hset : ({ s with
              mResultQueue :=
                s.mResultQueue.set i { x with Started := true, TimeStarted := s.clock }
              clock := s.clock + 1 } : State σ).mResultQueue[i]? =
              some { x with Started := true, TimeStarted := s.clock } := by
            simp [List.getElem?_set, hlt]
          have hids : queueIDs (s.mResultQueue.set i
              { x with Started := true, TimeStarted := s.clock }) = queueIDs s.mResultQueue :=
            map_set_same_key _ s.mResultQueue i x _ hi rfl
          have hnd1 : (queueIDs ({ s with
              mResultQueue :=
                s.mResultQueue.set i { x with Started := true, TimeStarted := s.clock }
              clock := s.clock + 1 } : State σ).mResultQueue).Nodup := by
            simp only [hids]
            exact hnd
          have hnd2 : (queueIDs s2.mResultQueue).Nodup := by
            rw [queueIDs_eq_of_keys _ _ (execWithResults_keys env d _ _ _ s2 hex).1]
            exact hnd1
          have hl2 := execWithResults_length env d _ _ _ s2 hex
          simp only [List.length_set] at hl2
          by_cases hki : k = i
          · subst hki
            rw [hk] at hi
            have hxr := Option.some.inj hi
            subst hxr
            have hat := execWithResults_at_index env d r.QueryID r.SQLStmt _ s2 k _ hnd1 hset rfl
              hex
            have hkeep := processLoop_untouched env d f (k + 1) s2 s1 hnd2 h k _ hat
              (Or.inl (by omega))
            exact ⟨s.engine, s.clock, hkeep⟩
          · have h2 := execWithResults_only_index env d x.QueryID x.SQLStmt _ s2 i _ hnd1 hset
              rfl hex k hki
            simp only [List.getElem?_set_ne (Ne.symm hki)] at h2
            exact ih (i + 1) s2 hnd2 h (by omega) (by rw [h2]; exact hk) (by omega) (by omega)
      · have he2 : ¬ ((!x.Processed && !x.Received && !x.Started) = true) := he
        rw [if_neg he2] at h
        have hki : k ≠ i := by
          intro hki
          subst hki
          rw [hk] at hi
          have hxr := Option.some.inj hi
          subst hxr
          exact he hr
        exact ih (i + 1) s hnd h (by omega) hk (by omega) hklt

/-! ## Lemmas: the rows of the statements of `Execute` -/

theorem statementRows_cons {σ : Type} (env : Env σ) (d : DB) (v : String) (rest : List String)
    (e : σ) :
    statementRows env d (v :: rest) e =
      if TrimSpace v = "" then statementRows env d rest e
      else
        (env.exec e d.DBHwnd (TrimSpace v)).1.rows.map (fun cells => buildRow cells []) ++
          statementRows env d rest (env.exec e d.DBHwnd (TrimSpace v)).2 := rfl

/-- The queue after the statements of `Execute` when `r` is the first record
that carries the `QueryID` held in `queueID`: the rows of all the statements
are appended to its `Result`. -/
theorem executeStatements_first_rows {σ : Type} (env : Env σ) (info : ChangeInfo σ) (d : DB)
    (l : List String) (resw : Result) (s : State σ) (pre : List queryResult) (r : queryResult)
    (post : List queryResult) (hq : s.mResultQueue = pre ++ r :: post)
    (hr : r.QueryID = s.queueID) (hp : ∀ x ∈ pre, x.QueryID ≠ s.queueID) :
    (executeStatements env info d l resw s).2.mResultQueue =
      pre ++ { r with Result := r.Result ++ statementRows env d l s.engine } :: post := by
  induction l generalizing resw s r with
  | nil => simp [executeStatements, statementRows, hq]
  | cons v rest ih =>
    have hq2 := (sqlite3_exec_state env d.DBHwnd (TrimSpace v) s).2.1
    rw [hq, deliverRows_first _ _ pre r post hr hp] at hq2
    have hid := (sqlite3_exec_state env d.DBHwnd (TrimSpace v) s).1
    have heng : (sqlite3_exec env d.DBHwnd (TrimSpace v) s).2.2.engine =
        (env.exec s.engine d.DBHwnd (TrimSpace v)).2 := rfl
    have step : ∀ resw2,
        (executeStatements env info d rest resw2
          (sqlite3_exec env d.DBHwnd (TrimSpace v) s).2.2).2.mResultQueue =
          pre ++ { r with
            Result := r.Result ++
              ((env.exec s.engine d.DBHwnd (TrimSpace v)).1.rows.map
                  (fun cells => buildRow cells []) ++
                statementRows env d rest (env.exec s.engine d.DBHwnd (TrimSpace v)).2) } ::
            post := by
      intro resw2
      rw [ih resw2 (sqlite3_exec env d.DBHwnd (TrimSpace v) s).2.2 _ hq2
        (by rw [hid]; exact hr) (by rw [hid]; exact hp), heng]
      simp only [List.append_assoc]
    rw [executeStatements_cons, statementRows_cons]
    split
    · exact ih resw s r hq hr hp
    · split
      · exact step _
      · exact step _

/-! ## C1: the rows of a successful call -/

/-- C1: on an open connection with no other call in flight and an empty queue,
when the engine call hands `n` rows to the callback and returns OK,
`GetResultSet` returns `Err = nil` and a `ResultTable` of exactly those `n`
rows, converted, in callback order; one callback with column "1" and text "1"
gives the table `[{"1": 1}]`. -/
theorem GetResultSet_returns_rows {σ : Type} (env : Env σ) (d : DB) (sqlx : String)
    (s : State σ) (rows : List (List (String × String))) (msg : String) (e1 : σ)
    (hClosed : d.Closed = false) (hConn : d.getResultSetConnections = 0)
    (hq : s.mResultQueue = [])
    (hexec : env.exec s.engine d.DBHwnd sqlx = (⟨rows, 0, msg⟩, e1)) :
    ∃ q d1 s1, GetResultSet env d sqlx s = some (q, d1, s1) ∧ q.Err = none ∧
      q.ResultTable.length = rows.length ∧
      (∀ (i : Nat) cells, rows[i]? = some cells → q.ResultTable[i]? = some (buildRow cells [])) ∧
      (rows = [[("1", "1")]] → q.ResultTable = [[("1", Value.int 1)]]) := by
  have hL : getSQLiteErr (env.exec s.engine d.DBHwnd sqlx).1.rc
      (env.exec s.engine d.DBHwnd sqlx).1.errmsg ≠ some "database is locked" := by
    simp [hexec, getSQLiteErr]
  have hF : getSQLiteErr (env.exec s.engine d.DBHwnd sqlx).1.rc
      (env.exec s.engine d.DBHwnd sqlx).1.errmsg ≠ some "out of memory" := by
    simp [hexec, getSQLiteErr]
  refine ⟨_, _, _, GetResultSet_empty_done env d sqlx s hClosed hConn hq hL hF, ?_, ?_, ?_, ?_⟩
  · simp [hexec, getSQLiteErr]
  · simp [hexec]
  · intro i cells hi
    simp [hexec, hi]
  · intro hrows
    simp only [hexec, hrows]
    decide

/-- C1, witness: `SELECT 1` on a fresh process. -/
theorem GetResultSet_returns_rows_witness :
    conn1.Closed = false ∧ conn1.getResultSetConnections = 0 ∧ freshState.mResultQueue = [] ∧
    ∃ q d1 s1, GetResultSet selectOneEnv conn1 "SELECT 1" freshState = some (q, d1, s1) ∧
      q.Err = none ∧ q.ResultTable.length = [[("1", "1")]].length ∧
      (∀ (i : Nat) cells, [[("1", "1")]][i]? = some cells →
        q.ResultTable[i]? = some (buildRow cells [])) ∧
      ([[("1", "1")]] = [[("1", "1")]] → q.ResultTable = [[("1", Value.int 1)]]) :=
  ⟨rfl, rfl, rfl, GetResultSet_returns_rows selectOneEnv conn1 "SELECT 1" freshState
    [[("1", "1")]] "not an error" () rfl rfl rfl rfl⟩

/-! ## C2: frame of the row callback -/

/-- C2: a call of the row callback with correlation ID `q` appends exactly one
row, the converted row, to the `Result` of the first record whose `QueryID` is
`q` and changes no other record and no other field; when no record has that
`QueryID` the queue is left as it was. -/
theorem callback_frame (cells : List (String × String)) (q : String)
    (queue : List queryResult) :
    ((∃ x ∈ queue, x.QueryID = q) →
      ∃ pre r post, queue = pre ++ r :: post ∧ r.QueryID = q ∧
        (∀ x ∈ pre, x.QueryID ≠ q) ∧
        go_sqlite3_exec_callback cells q queue =
          pre ++ { r with Result := r.Result ++ [buildRow cells []] } :: post) ∧
    ((∀ x ∈ queue, x.QueryID ≠ q) → go_sqlite3_exec_callback cells q queue = queue) := by
  constructor
  · intro h
    obtain ⟨pre, r, post, he, hr, hp⟩ := exists_first_query q queue h
    refine ⟨pre, r, post, he, hr, hp, ?_⟩
    rw [he]
    exact appendRow_first q _ pre r post hr hp
  · intro h
    exact appendRow_absent q _ queue h

/-- C2, witness: a row for the second of two queued requests, and a row for a request that is not queued. -/
theorem callback_frame_witness :
    (∃ x ∈ twoPending.mResultQueue, x.QueryID = "2_conn1") ∧
    (∃ pre r post, twoPending.mResultQueue = pre ++ r :: post ∧ r.QueryID = "2_conn1" ∧
        (∀ x ∈ pre, x.QueryID ≠ "2_conn1") ∧
        go_sqlite3_exec_callback [("1", "1")] "2_conn1" twoPending.mResultQueue =
          pre ++ { r with Result := r.Result ++ [buildRow [("1", "1")] []] } :: post) ∧
    (∀ x ∈ twoPending.mResultQueue, x.QueryID ≠ "3_conn1") ∧
    go_sqlite3_exec_callback [("1", "1")] "3_conn1" twoPending.mResultQueue =
      twoPending.mResultQueue :=
  ⟨by decide,
   (callback_frame [("1", "1")] "2_conn1" twoPending.mResultQueue).1 (by decide),
   by decide,
   (callback_frame [("1", "1")] "3_conn1" twoPending.mResultQueue).2 (by decide)⟩

/-! ## C3: the counter and the `QueryID` -/

/-- C3: the locked section of `GetResultSet` increments `GetResultSetSeqNo` by
one (modulo `2^64`) and appends one record whose `SeqNo` is the new counter and
whose `QueryID` is `decimal(SeqNo)`, "_" and the connection's name; the counter
on return of the whole call is that value. Without wrap-around a later request
gets a larger `SeqNo` and a different `QueryID`, whatever the two names. -/
theorem GetResultSet_counter_and_queryID {σ : Type} (env : Env σ) (d : DB) (sqlx : String)
    (s : State σ) :
    (enqueue d sqlx s).GetResultSetSeqNo = (s.GetResultSetSeqNo + 1) % 2 ^ 64 ∧
    (s.GetResultSetSeqNo + 1 < 2 ^ 64 →
      (enqueue d sqlx s).GetResultSetSeqNo = s.GetResultSetSeqNo + 1) ∧
    (enqueue d sqlx s).mResultQueue = s.mResultQueue ++
      [newRecord (enqueue d sqlx s).GetResultSetSeqNo
        (decimal (enqueue d sqlx s).GetResultSetSeqNo ++ "_" ++ d.Name) sqlx] ∧
    (∀ q d1 s1, d.Closed = false → GetResultSet env d sqlx s = some (q, d1, s1) →
      s1.GetResultSetSeqNo = (s.GetResultSetSeqNo + 1) % 2 ^ 64) ∧
    (∀ (d2 : DB) (sqlx2 : String) (s2 : State σ),
      (enqueue d sqlx s).GetResultSetSeqNo ≤ s2.GetResultSetSeqNo →
      s2.GetResultSetSeqNo + 1 < 2 ^ 64 →
      (enqueue d sqlx s).GetResultSetSeqNo < (enqueue d2 sqlx2 s2).GetResultSetSeqNo ∧
      mkQueryID (enqueue d sqlx s).GetResultSetSeqNo d.Name ≠
        mkQueryID (enqueue d2 sqlx2 s2).GetResultSetSeqNo d2.Name) ∧
    (∀ (a b : Nat) (n1 n2 : String), a ≠ b → mkQueryID a n1 ≠ mkQueryID b n2) := by
  refine ⟨rfl, fun h => uintInc_of_lt _ h, rfl, ?_, ?_, ?_⟩
  · intro q d1 s1 hc h
    exact GetResultSet_counter env d sqlx s q d1 s1 hc h
  · intro d2 sqlx2 s2 hle hlt
    have h2 : (enqueue d2 sqlx2 s2).GetResultSetSeqNo = s2.GetResultSetSeqNo + 1 :=
      uintInc_of_lt _ hlt
    have hlt2 : (enqueue d sqlx s).GetResultSetSeqNo < (enqueue d2 sqlx2 s2).GetResultSetSeqNo := by
      omega
    refine ⟨hlt2, ?_⟩
    intro he
    have := (mkQueryID_injective _ _ _ _ he).1
    omega
  · intro a b n1 n2 hab he
    exact hab (mkQueryID_injective a b n1 n2 he).1

/-- C3, witness: the first request of a fresh process; the names "1_1" and "1" with counters 1 and 11. -/
theorem GetResultSet_counter_and_queryID_witness :
    (freshState.GetResultSetSeqNo + 1 < 2 ^ 64 ∧
      (enqueue conn1 "SELECT 1" freshState).GetResultSetSeqNo =
        freshState.GetResultSetSeqNo + 1) ∧
    ((1 : Nat) ≠ 11 ∧ mkQueryID 1 "1_1" ≠ mkQueryID 11 "1") :=
  ⟨⟨by decide, (GetResultSet_counter_and_queryID selectOneEnv conn1 "SELECT 1" freshState).2.1
      (by decide)⟩,
   ⟨by decide, (GetResultSet_counter_and_queryID selectOneEnv conn1 "SELECT 1"
      freshState).2.2.2.2.2 1 11 "1_1" "1" (by decide)⟩⟩

/-! ## C4: distinct `QueryID`s -/

/-- C4: from an empty queue and without wrap-around of the counter, every
reachable state has pairwise distinct `QueryID`s; distinctness is kept by the
enqueue of `GetResultSet`, the row callback, `execWithResults`,
`waiForQueryResult` and `removeFromResultQueue`; and a record leaves the queue
only through `waiForQueryResult` called with its own `QueryID`, which finds it
completed, sets `Received` on it and then removes it. -/
theorem queue_ids_distinct {σ : Type} (env : Env σ) :
    (∀ s, Reachable env s → (queueIDs s.mResultQueue).Nodup) ∧
    (∀ s d sqlx, Reachable env s → s.GetResultSetSeqNo + 1 < 2 ^ 64 →
      (queueIDs (enqueue d sqlx s).mResultQueue).Nodup) ∧
    (∀ (queue : List queryResult) cells q, (queueIDs queue).Nodup →
      (queueIDs (go_sqlite3_exec_callback cells q queue)).Nodup) ∧
    (∀ (s s1 : State σ) d q sqlx, (queueIDs s.mResultQueue).Nodup →
      execWithResults env d q sqlx s = some s1 → (queueIDs s1.mResultQueue).Nodup) ∧
    (∀ (s : State σ) q t, (queueIDs s.mResultQueue).Nodup →
      (queueIDs (waiForQueryResult env q t s).2.mResultQueue).Nodup) ∧
    (∀ (queue : List queryResult) q, (queueIDs queue).Nodup →
      (queueIDs (removeFromResultQueue q queue)).Nodup) ∧
    (∀ s op s1 r, Reachable env s → applyOp env op s = some s1 → r ∈ s.mResultQueue →
      r.QueryID ∉ queueIDs s1.mResultQueue →
      ∃ t i, op = Op.wait r.QueryID t ∧ s.mResultQueue[i]? = some r ∧
        (r.Finished = true ∨ r.Err ≠ none) ∧
        (markReceived i s.mResultQueue)[i]? = some { r with Received := true } ∧
        s1.mResultQueue = removeFromResultQueue r.QueryID (markReceived i s.mResultQueue)) := by
  refine ⟨?_, ?_, ?_, ?_, ?_, ?_, ?_⟩
  · intro s hs
    exact (QueueInv_of_reachable env s hs).1
  · intro s d sqlx hs hw
    exact (QueueInv_enqueue d sqlx s (QueueInv_of_reachable env s hs) hw).1
  · intro queue cells q h
    have hk : queueIDs (go_sqlite3_exec_callback cells q queue) = queueIDs queue :=
      queueIDs_eq_of_keys _ _ (appendRow_map_key q _ queue)
    rw [hk]
    exact h
  · intro s s1 d q sqlx h he
    rw [queueIDs_eq_of_keys _ _ (execWithResults_keys env d q sqlx s s1 he).1]
    exact h
  · intro s q t h
    exact nodup_ids_waiForQueryResult env q t s h
  · intro queue q h
    exact nodup_ids_removeFromResultQueue q queue h
  · intro s op s1 r hs ha hr hgone
    have hnd := (QueueInv_of_reachable env s hs).1
    by_cases hop : ∃ q t, op = Op.wait q t
    · obtain ⟨q, t, rfl⟩ := hop
      have h1 := Option.some.inj ha
      subst h1
      obtain ⟨hq, i, h2, h3, h4, h5⟩ := removed_by_waiter env q t s r hnd hr hgone
      subst hq
      exact ⟨t, i, rfl, h2, h3, h4, h5⟩
    · have hop1 : ∀ q t, op ≠ Op.wait q t := fun q t h => hop ⟨q, t, h⟩
      exact absurd (ids_kept_unless_wait env op s s1 hop1 ha r hr) hgone

/-- C4, witness: an enqueue on a fresh process and a wait on a queue of three. -/
theorem queue_ids_distinct_witness :
    Reachable selectOneEnv freshState ∧ freshState.GetResultSetSeqNo + 1 < 2 ^ 64 ∧
    (queueIDs (enqueue conn1 "SELECT 1" freshState).mResultQueue).Nodup ∧
    (queueIDs threeQueued.mResultQueue).Nodup ∧
    (queueIDs (waiForQueryResult selectOneEnv "2_conn1" 0 threeQueued).2.mResultQueue).Nodup :=
  ⟨Reachable.init _ rfl, by decide,
   (queue_ids_distinct selectOneEnv).2.1 freshState conn1 "SELECT 1" (Reachable.init _ rfl)
     (by decide),
   by decide,
   (queue_ids_distinct selectOneEnv).2.2.2.2.1 threeQueued "2_conn1" 0 (by decide)⟩

/-! ## C5: the waiter on a completed record -/

/-- C5: called with the `QueryID` of the one queue record that carries it, a
record that is `Finished` or has an error, `waiForQueryResult` (with a bound
that is not negative) returns that record's `SeqNo`, `Result`, `QueryID`,
`Err`, `TimeStarted` and `TimeEnded`; afterwards no record of the queue has
that `QueryID`, the queue is one shorter and holds exactly the other records. -/
theorem waiForQueryResult_returns_completed {σ : Type} (env : Env σ) (q : String)
    (timeoutSec : Int) (s : State σ) (pre : List queryResult) (r : queryResult)
    (post : List queryResult) (ht : 0 ≤ timeoutSec)
    (hq : s.mResultQueue = pre ++ r :: post) (hr : r.QueryID = q)
    (hc : r.Finished = true ∨ r.Err ≠ none)
    (hpre : ∀ x ∈ pre, x.QueryID ≠ q) (hpost : ∀ x ∈ post, x.QueryID ≠ q) :
    (waiForQueryResult env q timeoutSec s).1.SeqNo = r.SeqNo ∧
    (waiForQueryResult env q timeoutSec s).1.ResultTable = r.Result ∧
    (waiForQueryResult env q timeoutSec s).1.QueryID = r.QueryID ∧
    (waiForQueryResult env q timeoutSec s).1.Err = r.Err ∧
    (waiForQueryResult env q timeoutSec s).1.TimeStarted = r.TimeStarted ∧
    (waiForQueryResult env q timeoutSec s).1.TimeEnded = r.TimeEnded ∧
    (∀ x ∈ (waiForQueryResult env q timeoutSec s).2.mResultQueue, x.QueryID ≠ q) ∧
    (waiForQueryResult env q timeoutSec s).2.mResultQueue.length + 1 =
      s.mResultQueue.length ∧
    (waiForQueryResult env q timeoutSec s).2.mResultQueue.Perm (pre ++ post) := by
  rw [waiForQueryResult_found env q timeoutSec s _ ht
    (pollQueue_unique env q s pre r post hq hr hc hpre)]
  have hperm := removeFromResultQueue_perm q pre { r with Received := true } post hr hpre
  refine ⟨rfl, rfl, rfl, rfl, rfl, rfl, ?_, ?_, hperm⟩
  · intro x hx
    have hx1 : x ∈ pre ++ post := hperm.subset hx
    rcases List.mem_append.1 hx1 with h | h
    · exact hpre x h
    · exact hpost x h
  · have := hperm.length_eq
    simp only [hq] at this ⊢
    simp only [List.length_append, List.length_cons] at this ⊢
    omega

/-- C5, witness: the completed record between two pending ones. -/
theorem waiForQueryResult_returns_completed_witness :
    (0 : Int) ≤ 0 ∧
    threeQueued.mResultQueue =
      [newRecord 1 "1_conn1" "SELECT 1"] ++ finishedSecond :: [newRecord 3 "3_conn1" "SELECT 3"] ∧
    finishedSecond.QueryID = "2_conn1" ∧
    (finishedSecond.Finished = true ∨ finishedSecond.Err ≠ none) ∧
    (waiForQueryResult selectOneEnv "2_conn1" 0 threeQueued).1.SeqNo = finishedSecond.SeqNo ∧
    (waiForQueryResult selectOneEnv "2_conn1" 0 threeQueued).1.ResultTable =
      finishedSecond.Result ∧
    (waiForQueryResult selectOneEnv "2_conn1" 0 threeQueued).2.mResultQueue.length + 1 =
      threeQueued.mResultQueue.length :=
  have h := waiForQueryResult_returns_completed selectOneEnv "2_conn1" 0 threeQueued
    [newRecord 1 "1_conn1" "SELECT 1"] finishedSecond [newRecord 3 "3_conn1" "SELECT 3"]
    (le_refl 0) rfl rfl (Or.inl rfl) (by decide) (by decide)
  ⟨le_refl 0, rfl, rfl, Or.inl rfl, h.1, h.2.1, h.2.2.2.2.2.2.2.1⟩

/-! ## C6: calls made one after another -/

/-- C6: calls of `GetResultSet` made one after another on one open connection,
from an empty queue, with an engine that never reports "database is locked"
(nor ends the process with "out of memory"): every call returns; the k-th
result carries the `SeqNo` and `QueryID` assigned to the k-th call, the
converted rows and the error of the engine's answer to the k-th SQL text; the
queue is empty after every call; and while the counter does not wrap around the
`SeqNo`s are `c+1, c+2, ...`, strictly increasing. -/
theorem runCalls_fifo {σ : Type} (env : Env σ) (d : DB) (sqls : List String) (s : State σ)
    (hClosed : d.Closed = false) (hConn : d.getResultSetConnections = 0)
    (hq : s.mResultQueue = [])
    (hLocked : ∀ e h sql, getSQLiteErr (env.exec e h sql).1.rc (env.exec e h sql).1.errmsg ≠
      some "database is locked")
    (hFatal : ∀ e h sql, getSQLiteErr (env.exec e h sql).1.rc (env.exec e h sql).1.errmsg ≠
      some "out of memory") :
    ∃ out d1 s1, runCalls env d sqls s = some (out, d1, s1) ∧
      out.length = sqls.length ∧
      out.map (fun p => (p.1.SeqNo, p.1.QueryID, p.1.ResultTable, p.1.Err)) =
        callOutcomes env d.DBHwnd d.Name sqls s.GetResultSetSeqNo s.engine ∧
      (∀ p ∈ out, p.2.mResultQueue = []) ∧
      s1.mResultQueue = [] ∧
      (s.GetResultSetSeqNo + sqls.length < 2 ^ 64 →
        out.map (fun p => p.1.SeqNo) =
          (List.range sqls.length).map (fun k => s.GetResultSetSeqNo + k + 1) ∧
        (out.map (fun p => p.1.SeqNo)).Pairwise (· < ·)) := by
  obtain ⟨out, s1, hrun, hs1, hmap, hall⟩ :=
    runCalls_outcomes env d sqls s hClosed hConn hq hLocked hFatal
  have hlen : out.length = sqls.length := by
    have h1 := congrArg List.length hmap
    have h2 : ∀ (l : List String) (c : Nat) (e : σ),
        (callOutcomes env d.DBHwnd d.Name l c e).length = l.length := by
      intro l
      induction l with
      | nil => intro c e; rfl
      | cons a rest ih => intro c e; simp [callOutcomes, ih]
    rw [List.length_map, h2] at h1
    exact h1
  refine ⟨out, d, s1, hrun, hlen, hmap, hall, hs1, ?_⟩
  intro hw
  have hseq : out.map (fun p => p.1.SeqNo) =
      (List.range sqls.length).map (fun k => s.GetResultSetSeqNo + k + 1) := by
    rw [← callOutcomes_seqNos env d.DBHwnd d.Name sqls s.GetResultSetSeqNo s.engine hw,
      ← hmap, List.map_map]
    rfl
  exact ⟨hseq, hseq ▸ pairwise_lt_offsets _ _⟩

/-- C6, witness: two calls with `SELECT 1` on a fresh process. -/
theorem runCalls_fifo_witness :
    conn1.Closed = false ∧ conn1.getResultSetConnections = 0 ∧ freshState.mResultQueue = [] ∧
    (∀ e h sql, getSQLiteErr (selectOneEnv.exec e h sql).1.rc
      (selectOneEnv.exec e h sql).1.errmsg ≠ some "database is locked") ∧
    (∀ e h sql, getSQLiteErr (selectOneEnv.exec e h sql).1.rc
      (selectOneEnv.exec e h sql).1.errmsg ≠ some "out of memory") ∧
    ∃ out d1 s1, runCalls selectOneEnv conn1 ["SELECT 1", "SELECT 1"] freshState =
        some (out, d1, s1) ∧
      out.length = ["SELECT 1", "SELECT 1"].length ∧
      out.map (fun p => (p.1.SeqNo, p.1.QueryID, p.1.ResultTable, p.1.Err)) =
        callOutcomes selectOneEnv conn1.DBHwnd conn1.Name ["SELECT 1", "SELECT 1"]
          freshState.GetResultSetSeqNo freshState.engine ∧
      (∀ p ∈ out, p.2.mResultQueue = []) ∧
      s1.mResultQueue = [] ∧
      (freshState.GetResultSetSeqNo + ["SELECT 1", "SELECT 1"].length < 2 ^ 64 →
        out.map (fun p => p.1.SeqNo) =
          (List.range ["SELECT 1", "SELECT 1"].length).map
            (fun k => freshState.GetResultSetSeqNo + k + 1) ∧
        (out.map (fun p => p.1.SeqNo)).Pairwise (· < ·)) :=
  ⟨rfl, rfl, rfl, by simp [selectOneEnv, getSQLiteErr], by simp [selectOneEnv, getSQLiteErr],
   runCalls_fifo selectOneEnv conn1 ["SELECT 1", "SELECT 1"] freshState rfl rfl rfl
     (by simp [selectOneEnv, getSQLiteErr]) (by simp [selectOneEnv, getSQLiteErr])⟩

/-! ## C7: a call that enters while another is in flight -/

/-- C7: evaluation for two calls on one connection, the smallest case of the
concurrent callers. The first call `GetResultSet("SELECT 1")` has ended its
`processRequestQueue` loop (state `firstDone`) and has not returned, so that
`getResultSetConnections` is 1. The call `GetResultSet("SELECT 2")` that enters
now enqueues its request, skips `processRequestQueue`, makes no engine call and
returns "query timed out" with no rows, although the engine has a row for it;
its request is left in the queue, never started. -/
theorem GetResultSet_second_caller_starves :
    processRequestQueue selectOneEnv conn1InFlight
      (enqueue conn1InFlight "SELECT 1" freshState) = some firstDone ∧
    conn1InFlight.Closed = false ∧ conn1InFlight.getResultSetConnections = 1 ∧
    (selectOneEnv.exec () conn1InFlight.DBHwnd "SELECT 2").1.rows = [[("1", "1")]] ∧
    ∃ q d1 s1, GetResultSet selectOneEnv conn1InFlight "SELECT 2" firstDone = some (q, d1, s1) ∧
      q.Err = some "query timed out" ∧ q.ResultTable = [] ∧
      q = { QueryResult.zero with Err := some "query timed out" } ∧
      s1.engineCalls = [(some 1, "SELECT 1")] ∧
      s1.mResultQueue = firstDone.mResultQueue ++ [newRecord 2 "2_conn1" "SELECT 2"] ∧
      d1.getResultSetConnections = 1 := by
  have hp : pollQueue selectOneEnv "2_conn1"
      (enqueue { conn1InFlight with getResultSetConnections := 2 } "SELECT 2" firstDone) =
      none := pollQueue_none _ _ _ (by decide)
  have hw := waiForQueryResult_none selectOneEnv "2_conn1" 0 _ hp
  have hg : GetResultSet selectOneEnv conn1InFlight "SELECT 2" firstDone =
      some ({ QueryResult.zero with Err := some "query timed out" }, conn1InFlight,
        enqueue { conn1InFlight with getResultSetConnections := 2 } "SELECT 2" firstDone) := by
    have e1 : uintInc conn1InFlight.getResultSetConnections = 2 := by decide
    have e2 : mkQueryID
        (enqueue { conn1InFlight with getResultSetConnections := 2 } "SELECT 2"
          firstDone).GetResultSetSeqNo "conn1" = "2_conn1" := by decide
    have e3 : uintDec 2 = 1 := by decide
    simp only [GetResultSet, e1]
    rw [if_neg (by decide), if_neg (by decide)]
    simp only [conn1InFlight, conn1] at e2 hw ⊢
    rw [e2, hw]
    simp only [e3]
  exact ⟨rfl, rfl, rfl, rfl, _, _, _, hg, rfl, rfl, rfl, rfl, rfl, rfl⟩

/-! ## C8: conversion of column values -/

/-- C8: the value the callback stores under a column's name is the integer `n`
when `strconv.Atoi` reads the value text as `n`, and the text itself otherwise:
this holds for the assignment `mRow[col] = v` and, for every column whose name
no later column of the row repeats, for the finished row. In particular the
decimal text of an integer within the 64-bit range is stored as that integer. -/
theorem callback_value_conversion (col s : String) :
    (∀ n, Atoi s = some n → convertValue s = Value.int n) ∧
    (Atoi s = none → convertValue s = Value.str s) ∧
    (∀ mRow : Row, (mRow.set col (convertValue s)).get col = some (convertValue s)) ∧
    (∀ pre post : List (String × String), (∀ c ∈ post, c.1 ≠ col) →
      (buildRow (pre ++ (col, s) :: post) []).get col = some (convertValue s)) ∧
    (∀ n : Nat, (n < 2 ^ 63 → convertValue (decimal n) = Value.int n) ∧
      (n ≤ 2 ^ 63 → convertValue ("-" ++ decimal n) = Value.int (-(n : Int)))) := by
  refine ⟨?_, ?_, ?_, ?_, ?_⟩
  rotate_right
  · intro n
    constructor
    · intro h
      simp [convertValue, Atoi_decimal n h]
    · intro h
      simp [convertValue, Atoi_minus_decimal n h]
  · intro n h
    simp [convertValue, h]
  · intro h
    simp [convertValue, h]
  · intro mRow
    exact Row.get_set_same mRow col _
  · intro pre post h
    have key : ∀ (pre : List (String × String)) (m : Row),
        (buildRow (pre ++ (col, s) :: post) m).get col = some (convertValue s) := by
      intro pre
      induction pre with
      | nil =>
        intro m
        simp only [List.nil_append, buildRow]
        rw [buildRow_get_absent post _ col h, Row.get_set_same]
      | cons c rest ih =>
        intro m
        obtain ⟨c1, c2⟩ := c
        simp only [List.cons_append, buildRow]
        exact ih _
    exact key pre []

/-- C8, witness: the texts "42" and "4x2". -/
theorem callback_value_conversion_witness :
    (Atoi "42" = some 42 ∧ convertValue "42" = Value.int 42) ∧
    (Atoi "4x2" = none ∧ convertValue "4x2" = Value.str "4x2") ∧
    ((∀ c ∈ [("b", "4x2")], c.1 ≠ "a") ∧
      (buildRow ([("id", "7")] ++ ("a", "42") :: [("b", "4x2")]) []).get "a" =
        some (convertValue "42")) :=
  ⟨⟨by decide, (callback_value_conversion "a" "42").1 42 (by decide)⟩,
   ⟨by decide, (callback_value_conversion "a" "4x2").2.1 (by decide)⟩,
   ⟨by decide, (callback_value_conversion "a" "42").2.2.2.1 [("id", "7")] [("b", "4x2")]
      (by decide)⟩⟩

/-! ## C9: completion in `execWithResults` -/

/-- C9, counterexample: the engine call for "1_conn1" fails with "database is
locked"; the record ends with `Err = nil`, `Processed = false`, `Finished =
false` (and `Started` reset), not with the engine's error and both flags set. -/
theorem execWithResults_locked_counterexample :
    getSQLiteErr (lockedEnv.exec firstStarted.engine conn1.DBHwnd "SELECT 1").1.rc
      (lockedEnv.exec firstStarted.engine conn1.DBHwnd "SELECT 1").1.errmsg =
        some "database is locked" ∧
    (execWithResults lockedEnv conn1 "1_conn1" "SELECT 1" firstStarted).map
        (fun s1 => s1.mResultQueue) =
      some [{ newRecord 1 "1_conn1" "SELECT 1" with ExecResult := -1, TimeStarted := 7 },
            newRecord 2 "2_conn1" "SELECT 2"] ∧
    ¬ (∀ s1, execWithResults lockedEnv conn1 "1_conn1" "SELECT 1" firstStarted = some s1 →
        ∀ r ∈ s1.mResultQueue, r.QueryID = "1_conn1" →
          r.Err = some "database is locked" ∧ r.Processed = true ∧ r.Finished = true) := by
  refine ⟨by decide, by decide, ?_⟩
  intro h
  have h1 := h _ rfl { newRecord 1 "1_conn1" "SELECT 1" with ExecResult := -1, TimeStarted := 7 }
    (by decide) rfl
  exact absurd h1.2.1 (by decide)

/-- C9, amended: when the engine call made by `execWithResults` for `q`
completes with success or with an error other than "database is locked" and
"out of memory", the first record with `QueryID` `q` ends with the rows of the
call appended, `Err` the engine's error (`nil` on success), `ExecResult` the
return code, `TimeEnded` set, `Processed` and `Finished` true, and nothing
else in the queue changes; on "database is locked" that record is reset instead
(`Started`, `Finished` false, `ExecResult` -1, `Err` nil); on "out of memory"
the process ends; without such a record the queue is unchanged. -/
theorem execWithResults_completion {σ : Type} (env : Env σ) (d : DB) (q sqlx : String)
    (s : State σ) (resp : ExecResponse) (e1 : σ)
    (hexec : env.exec s.engine d.DBHwnd sqlx = (resp, e1)) :
    (getSQLiteErr resp.rc resp.errmsg = some "out of memory" →
      execWithResults env d q sqlx s = none) ∧
    (getSQLiteErr resp.rc resp.errmsg ≠ some "out of memory" →
      ∃ s1, execWithResults env d q sqlx s = some s1 ∧
        ((∀ x ∈ s.mResultQueue, x.QueryID ≠ q) → s1.mResultQueue = s.mResultQueue) ∧
        (∀ pre r post, s.mResultQueue = pre ++ r :: post → r.QueryID = q →
          (∀ x ∈ pre, x.QueryID ≠ q) →
          (getSQLiteErr resp.rc resp.errmsg ≠ some "database is locked" →
            s1.mResultQueue = pre ++
              { r with
                Result := r.Result ++ resp.rows.map (fun cells => buildRow cells [])
                Err := getSQLiteErr resp.rc resp.errmsg
                ExecResult := resp.rc
                TimeEnded := s.clock
                Processed := true
                Finished := true } :: post) ∧
          (getSQLiteErr resp.rc resp.errmsg = some "database is locked" →
            s1.mResultQueue = pre ++
              { r with
                Result := r.Result ++ resp.rows.map (fun cells => buildRow cells [])
                Started := false
                Finished := false
                ExecResult := -1
                Err := none } :: post))) := by
  constructor
  · intro hF
    rw [execWithResults_eq]
    simp only [hexec, if_pos hF]
  · intro hF
    have hs : execWithResults env d q sqlx s = some
        { mResultQueue :=
            markRecord q (getSQLiteErr resp.rc resp.errmsg == some "database is locked")
              (getSQLiteErr resp.rc resp.errmsg) resp.rc s.clock
              (deliverRows resp.rows q s.mResultQueue)
          GetResultSetSeqNo := s.GetResultSetSeqNo
          queueID := q
          engine := e1
          clock :=
            if (!(getSQLiteErr resp.rc resp.errmsg == some "database is locked") &&
                hasQuery q (deliverRows resp.rows q s.mResultQueue)) then s.clock + 1
            else s.clock
          engineCalls := s.engineCalls ++ [(d.DBHwnd, sqlx)] } := by
      rw [execWithResults_eq]
      simp only [hexec, if_neg hF]
    refine ⟨_, hs, ?_, ?_⟩
    · intro habs
      simp only [deliverRows_absent _ q _ habs, markRecord_absent _ _ _ _ _ _ habs]
    · intro pre r post hq hr hp
      simp only [hq, deliverRows_first _ q pre r post hr hp]
      rw [markRecord_first q _ _ _ _ pre
        { r with Result := r.Result ++ resp.rows.map (fun cells => buildRow cells []) }
        post hr hp]
      constructor
      · intro hL
        have hb : (getSQLiteErr resp.rc resp.errmsg == some "database is locked") = false := by
          simpa using hL
        simp only [hb, Bool.false_eq_true, if_false, finishRecord]
      · intro hL
        have hb : (getSQLiteErr resp.rc resp.errmsg == some "database is locked") = true := by
          simp [hL]
        simp only [hb, if_true, resetRecord]

/-- C9, witness: a statement that fails with "no such table". -/
theorem execWithResults_completion_witness :
    failingEnv.exec firstStarted.engine conn1.DBHwnd "SELECT 1" =
      (⟨[], 1, "no such table: t"⟩, ()) ∧
    getSQLiteErr 1 "no such table: t" ≠ some "out of memory" ∧
    ∃ s1, execWithResults failingEnv conn1 "1_conn1" "SELECT 1" firstStarted = some s1 ∧
      ((∀ x ∈ firstStarted.mResultQueue, x.QueryID ≠ "1_conn1") →
        s1.mResultQueue = firstStarted.mResultQueue) ∧
      (∀ pre r post, firstStarted.mResultQueue = pre ++ r :: post → r.QueryID = "1_conn1" →
        (∀ x ∈ pre, x.QueryID ≠ "1_conn1") →
        (getSQLiteErr 1 "no such table: t" ≠ some "database is locked" →
          s1.mResultQueue = pre ++
            { r with
              Result := r.Result ++ ([] : List (List (String × String))).map
                (fun cells => buildRow cells [])
              Err := getSQLiteErr 1 "no such table: t"
              ExecResult := 1
              TimeEnded := firstStarted.clock
              Processed := true
              Finished := true } :: post) ∧
        (getSQLiteErr 1 "no such table: t" = some "database is locked" →
          s1.mResultQueue = pre ++
            { r with
              Result := r.Result ++ ([] : List (List (String × String))).map
                (fun cells => buildRow cells [])
              Started := false
              Finished := false
              ExecResult := -1
              Err := none } :: post)) :=
  ⟨rfl, by decide,
   (execWithResults_completion failingEnv conn1 "1_conn1" "SELECT 1" firstStarted
      ⟨[], 1, "no such table: t"⟩ () rfl).2 (by decide)⟩

/-! ## C10: engine errors in `GetResultSet` -/

/-- C10: evaluation at an engine that answers "database is locked". The engine
call made for the `GetResultSet` request fails with that error; one engine
call is made and the `QueryResult` returned carries the error "query timed
out", not the locked error. `Execute`, on the same engine, returns the locked
error of its statement with -1 after one engine call. -/
theorem GetResultSet_locked_not_surfaced :
    getSQLiteErr (lockedEnv.exec freshState.engine conn1.DBHwnd "SELECT 1").1.rc
      (lockedEnv.exec freshState.engine conn1.DBHwnd "SELECT 1").1.errmsg =
        some "database is locked" ∧
    (GetResultSet lockedEnv conn1 "SELECT 1" freshState).map (fun r => r.1.Err) =
      some (some "query timed out") ∧
    (GetResultSet lockedEnv conn1 "SELECT 1" freshState).map (fun r => r.1.Err) ≠
      some (some "database is locked") ∧
    (GetResultSet lockedEnv conn1 "SELECT 1" freshState).map (fun r => r.2.2.engineCalls) =
      some [(some 1, "SELECT 1")] ∧
    (ExecuteSQL lockedEnv oneChange conn1 "SELECT 1" Counters.zero freshState).ret =
      (-1, some "database is locked") ∧
    (ExecuteSQL lockedEnv oneChange conn1 "SELECT 1" Counters.zero freshState).state.engineCalls =
      [(some 1, "SELECT 1")] := by
  have h := GetResultSet_empty_locked lockedEnv conn1 "SELECT 1" freshState rfl rfl rfl
    (by decide)
  refine ⟨by decide, ?_, ?_, ?_, by decide, by decide⟩
  · rw [h]
    rfl
  · rw [h]
    decide
  · rw [h]
    rfl

/-- One engine call in `GetResultSet` on an open connection (no other call in
flight, empty queue). An engine error whose text is not "database is locked"
(nor "out of memory") is returned as `QueryResult.Err` and the request leaves
the queue. On "database is locked" the error is not stored: the record stays
queued, reset (`Started`, `Finished`, `Processed`, `Received` false, `Err` nil,
`ExecResult` -1). -/
theorem GetResultSet_engine_error {σ : Type} (env : Env σ) (d : DB) (sqlx : String)
    (s : State σ) (resp : ExecResponse) (e1 : σ)
    (hClosed : d.Closed = false) (hConn : d.getResultSetConnections = 0)
    (hq : s.mResultQueue = [])
    (hexec : env.exec s.engine d.DBHwnd sqlx = (resp, e1))
    (hFatal : getSQLiteErr resp.rc resp.errmsg ≠ some "out of memory") :
    ∃ q d1 s1, GetResultSet env d sqlx s = some (q, d1, s1) ∧
      s1.engineCalls = s.engineCalls ++ [(d.DBHwnd, sqlx)] ∧
      (getSQLiteErr resp.rc resp.errmsg ≠ some "database is locked" →
        q.Err = getSQLiteErr resp.rc resp.errmsg ∧ s1.mResultQueue = []) ∧
      (getSQLiteErr resp.rc resp.errmsg = some "database is locked" →
        ∃ r, s1.mResultQueue = [r] ∧
          r.QueryID = mkQueryID (uintInc s.GetResultSetSeqNo) d.Name ∧ r.SQLStmt = sqlx ∧
          r.Err = none ∧ r.Started = false ∧ r.Finished = false ∧ r.Processed = false ∧
          r.Received = false ∧ r.ExecResult = -1) := by
  have hresp : (env.exec s.engine d.DBHwnd sqlx).1 = resp := by rw [hexec]
  by_cases hL : getSQLiteErr resp.rc resp.errmsg = some "database is locked"
  · have h := GetResultSet_empty_locked env d sqlx s hClosed hConn hq (by rw [hresp]; exact hL)
    refine ⟨_, _, _, h, rfl, fun hn => absurd hL hn, fun _ => ⟨_, rfl, rfl, rfl, rfl, rfl, rfl,
      rfl, rfl, rfl⟩⟩
  · have h := GetResultSet_empty_done env d sqlx s hClosed hConn hq (by rw [hresp]; exact hL)
      (by rw [hresp]; exact hFatal)
    refine ⟨_, _, _, h, rfl, fun _ => ⟨by rw [hresp], rfl⟩, fun hy => absurd hy hL⟩

/-- An instance of `GetResultSet_engine_error`: a statement that fails with
"no such table". -/
theorem GetResultSet_engine_error_witness :
    conn1.Closed = false ∧ conn1.getResultSetConnections = 0 ∧ freshState.mResultQueue = [] ∧
    failingEnv.exec freshState.engine conn1.DBHwnd "SELECT * FROM t" =
      (⟨[], 1, "no such table: t"⟩, ()) ∧
    getSQLiteErr 1 "no such table: t" ≠ some "out of memory" ∧
    ∃ q d1 s1, GetResultSet failingEnv conn1 "SELECT * FROM t" freshState = some (q, d1, s1) ∧
      s1.engineCalls = freshState.engineCalls ++ [(conn1.DBHwnd, "SELECT * FROM t")] ∧
      (getSQLiteErr 1 "no such table: t" ≠ some "database is locked" →
        q.Err = getSQLiteErr 1 "no such table: t" ∧ s1.mResultQueue = []) ∧
      (getSQLiteErr 1 "no such table: t" = some "database is locked" →
        ∃ r, s1.mResultQueue = [r] ∧
          r.QueryID = mkQueryID (uintInc freshState.GetResultSetSeqNo) conn1.Name ∧
          r.SQLStmt = "SELECT * FROM t" ∧
          r.Err = none ∧ r.Started = false ∧ r.Finished = false ∧ r.Processed = false ∧
          r.Received = false ∧ r.ExecResult = -1) :=
  ⟨rfl, rfl, rfl, rfl, by decide,
   GetResultSet_engine_error failingEnv conn1 "SELECT * FROM t" freshState
     ⟨[], 1, "no such table: t"⟩ () rfl rfl rfl rfl (by decide)⟩

/-! ## C11: retries after "database is locked" -/

/-- C11: evaluation at an engine that always answers "database is locked".
The request is attempted once (one engine call), `AttemptsAfterDBLocked` stays
0, the record is left in the queue not started and not finished, and the
caller receives "query timed out", not a database-locked error. -/
theorem GetResultSet_locked_single_attempt :
    getSQLiteErr (lockedEnv.exec freshState.engine conn1.DBHwnd "SELECT 1").1.rc
      (lockedEnv.exec freshState.engine conn1.DBHwnd "SELECT 1").1.errmsg =
        some "database is locked" ∧
    ∃ q d1 s1, GetResultSet lockedEnv conn1 "SELECT 1" freshState = some (q, d1, s1) ∧
      s1.engineCalls = [(conn1.DBHwnd, "SELECT 1")] ∧
      q.Err = some "query timed out" ∧ q.Err ≠ some "database is locked" ∧
      ∃ r, s1.mResultQueue = [r] ∧ r.SQLStmt = "SELECT 1" ∧ r.AttemptsAfterDBLocked = 0 ∧
        r.Started = false ∧ r.Processed = false ∧ r.Finished = false ∧ r.Err = none := by
  refine ⟨by decide, _, _, _,
    GetResultSet_empty_locked lockedEnv conn1 "SELECT 1" freshState rfl rfl rfl (by decide),
    rfl, rfl, by decide, _, rfl, rfl, rfl, rfl, rfl, rfl, rfl⟩

/-! ## C12: the timeout of the waiter -/

/-- C12: for a positive bound `N` and a queue without a record of the given
`QueryID` that is `Finished` or has an error, `waiForQueryResult` makes `N + 1`
scans of the queue and returns "query timed out" with no rows, the state (the
queue with the unfinished record included) unchanged. -/
theorem waiForQueryResult_timeout {σ : Type} (env : Env σ) (q : String) (N : Int)
    (s : State σ) (hN : 0 < N)
    (h : ∀ x ∈ s.mResultQueue, ¬ (x.QueryID = q ∧ (x.Finished = true ∨ x.Err ≠ none))) :
    waiForQueryResultScans env q N s = N.toNat + 1 ∧
    (waiForQueryResult env q N s).1.Err = some "query timed out" ∧
    (waiForQueryResult env q N s).1.ResultTable = [] ∧
    (waiForQueryResult env q N s).1 = { QueryResult.zero with Err := some "query timed out" } ∧
    (waiForQueryResult env q N s).2 = s := by
  have hp := pollQueue_none env q s h
  have hne : N ≠ 0 := by omega
  refine ⟨?_, ?_, ?_, ?_, ?_⟩
  · simp only [waiForQueryResultScans, if_neg hne, waitLoopScans_none env q _ s hp]
    omega
  all_goals rw [waiForQueryResult_none env q N s hp]
  · rfl

/-- C12, witness: a bound of 3 on a request that is still pending. -/
theorem waiForQueryResult_timeout_witness :
    (0 : Int) < 3 ∧
    (∀ x ∈ twoPending.mResultQueue,
      ¬ (x.QueryID = "1_conn1" ∧ (x.Finished = true ∨ x.Err ≠ none))) ∧
    waiForQueryResultScans selectOneEnv "1_conn1" 3 twoPending = (3 : Int).toNat + 1 ∧
    (waiForQueryResult selectOneEnv "1_conn1" 3 twoPending).1.Err = some "query timed out" ∧
    (waiForQueryResult selectOneEnv "1_conn1" 3 twoPending).1.ResultTable = [] ∧
    (waiForQueryResult selectOneEnv "1_conn1" 3 twoPending).1 =
      { QueryResult.zero with Err := some "query timed out" } ∧
    (waiForQueryResult selectOneEnv "1_conn1" 3 twoPending).2 = twoPending :=
  ⟨by decide, by decide,
   waiForQueryResult_timeout selectOneEnv "1_conn1" 3 twoPending (by decide) (by decide)⟩

/-! ## C13: waiting again for a request already received -/

/-- C13, counterexample: after the completed request "2_conn1" has been
received and removed, a second wait for it returns the error "query timed out",
the very result of a wait that times out on the pending request "1_conn1"; no
"not found" error exists. -/
theorem waiForQueryResult_repeat_counterexample :
    (waiForQueryResult selectOneEnv "2_conn1" 0 threeQueued).1.SeqNo = 2 ∧
    (waiForQueryResult selectOneEnv "2_conn1" 0
      (waiForQueryResult selectOneEnv "2_conn1" 0 threeQueued).2).1.Err =
        some "query timed out" ∧
    (waiForQueryResult selectOneEnv "2_conn1" 0
      (waiForQueryResult selectOneEnv "2_conn1" 0 threeQueued).2).1 =
      (waiForQueryResult selectOneEnv "1_conn1" 0 threeQueued).1 := by
  have h1 : ∀ x ∈ (waiForQueryResult selectOneEnv "2_conn1" 0 threeQueued).2.mResultQueue,
      x.QueryID ≠ "2_conn1" :=
    waiForQueryResult_removed selectOneEnv "2_conn1" 0 threeQueued
      [newRecord 1 "1_conn1" "SELECT 1"] finishedSecond [newRecord 3 "3_conn1" "SELECT 3"]
      (le_refl 0) rfl rfl (Or.inl rfl) (by decide) (by decide)
  have h2 : ∀ x ∈ threeQueued.mResultQueue,
      ¬ (x.QueryID = "1_conn1" ∧ (x.Finished = true ∨ x.Err ≠ none)) := by decide
  refine ⟨by decide, ?_, ?_⟩
  · rw [waiForQueryResult_absent selectOneEnv "2_conn1" 0 _ h1]
  · rw [waiForQueryResult_absent selectOneEnv "2_conn1" 0 _ h1,
      waiForQueryResult_none selectOneEnv "1_conn1" 0 threeQueued
        (pollQueue_none selectOneEnv "1_conn1" threeQueued h2)]

/-- C13, amended: a wait for a `QueryID` whose record has been finished,
received and removed returns (the function is total, nothing panics) the zero
`QueryResult` with the error "query timed out": no rows, no columns, `SeqNo` 0
and an empty `QueryID`, so no field of the earlier result or of another record;
the queue is left as it is. The same holds whenever no record of the queue
carries the `QueryID`. -/
theorem waiForQueryResult_after_removal {σ : Type} (env : Env σ) (q : String) (t t2 : Int)
    (s : State σ) :
    (∀ pre r post, 0 ≤ t → s.mResultQueue = pre ++ r :: post → r.QueryID = q →
      (r.Finished = true ∨ r.Err ≠ none) →
      (∀ x ∈ pre, x.QueryID ≠ q) → (∀ x ∈ post, x.QueryID ≠ q) →
      waiForQueryResult env q t2 (waiForQueryResult env q t s).2 =
        ({ SeqNo := 0, ResultTable := [], Columns := [], QueryID := "",
           Err := some "query timed out", TimeStarted := 0, TimeEnded := 0 },
         (waiForQueryResult env q t s).2)) ∧
    ((∀ x ∈ s.mResultQueue, x.QueryID ≠ q) →
      waiForQueryResult env q t2 s =
        ({ SeqNo := 0, ResultTable := [], Columns := [], QueryID := "",
           Err := some "query timed out", TimeStarted := 0, TimeEnded := 0 }, s)) := by
  constructor
  · intro pre r post ht hq hr hc hpre hpost
    exact waiForQueryResult_absent env q t2 _
      (waiForQueryResult_removed env q t s pre r post ht hq hr hc hpre hpost)
  · intro h
    exact waiForQueryResult_absent env q t2 s h

/-- C13, witness: the second wait for "2_conn1" on the queue of three. -/
theorem waiForQueryResult_after_removal_witness :
    (0 : Int) ≤ 0 ∧
    threeQueued.mResultQueue =
      [newRecord 1 "1_conn1" "SELECT 1"] ++ finishedSecond :: [newRecord 3 "3_conn1" "SELECT 3"] ∧
    waiForQueryResult selectOneEnv "2_conn1" 0
        (waiForQueryResult selectOneEnv "2_conn1" 0 threeQueued).2 =
      ({ SeqNo := 0, ResultTable := [], Columns := [], QueryID := "",
         Err := some "query timed out", TimeStarted := 0, TimeEnded := 0 },
       (waiForQueryResult selectOneEnv "2_conn1" 0 threeQueued).2) :=
  ⟨le_refl 0, rfl,
   (waiForQueryResult_after_removal selectOneEnv "2_conn1" 0 0 threeQueued).1
     [newRecord 1 "1_conn1" "SELECT 1"] finishedSecond [newRecord 3 "3_conn1" "SELECT 3"]
     (le_refl 0) rfl rfl (Or.inl rfl) (by decide) (by decide)⟩

/-! ## C14: the columns sampled from the first row -/

/-- C14: when the completed record has a first row, the `Columns` returned by
`waiForQueryResult` have one entry per entry of that row (`range` visits every
entry once): the `Ordinal`s are `0 .. k-1` in order, the (Name, DataType) pairs
are, up to order, the keys of the row with `GetSQLiteDataType` of their values,
so the names are the keys; when the record has no rows `Columns` is empty. -/
theorem waiForQueryResult_columns {σ : Type} (env : Env σ) (q : String) (timeoutSec : Int)
    (s : State σ) (pre : List queryResult) (r : queryResult) (post : List queryResult)
    (ht : 0 ≤ timeoutSec) (hq : s.mResultQueue = pre ++ r :: post) (hr : r.QueryID = q)
    (hc : r.Finished = true ∨ r.Err ≠ none) (hpre : ∀ x ∈ pre, x.QueryID ≠ q)
    (hrange : ∀ row, (env.rangeOrder row).Perm row) :
    (∀ row rest, r.Result = row :: rest →
      (waiForQueryResult env q timeoutSec s).1.Columns.length = row.length ∧
      (waiForQueryResult env q timeoutSec s).1.Columns.map (fun c => c.Ordinal) =
        (List.range row.length).map (fun (i : Nat) => (i : Int)) ∧
      ((waiForQueryResult env q timeoutSec s).1.Columns.map
          (fun c => (c.Name, c.DataType))).Perm
        (row.map (fun kv => (kv.1, GetSQLiteDataType kv.2))) ∧
      ((waiForQueryResult env q timeoutSec s).1.Columns.map (fun c => c.Name)).Perm
        (row.map (fun kv => kv.1)) ∧
      (∀ c ∈ (waiForQueryResult env q timeoutSec s).1.Columns,
        ∃ v, (c.Name, v) ∈ row ∧ c.DataType = GetSQLiteDataType v)) ∧
    (r.Result = [] → (waiForQueryResult env q timeoutSec s).1.Columns = []) := by
  rw [waiForQueryResult_found env q timeoutSec s _ ht
    (pollQueue_unique env q s pre r post hq hr hc hpre)]
  constructor
  · intro row rest hres
    simp only [hres, buildColumns_cons env row rest (hrange row)]
    have hlen : (env.rangeOrder row).length = row.length := (hrange row).length_eq
    have hpairs : ((columnsFrom (env.rangeOrder row) 0).map
        (fun c => (c.Name, c.DataType))).Perm
        (row.map (fun kv => (kv.1, GetSQLiteDataType kv.2))) := by
      rw [columnsFrom_names_types]
      exact (hrange row).map _
    refine ⟨by rw [columnsFrom_length, hlen], ?_, hpairs, ?_, ?_⟩
    · rw [columnsFrom_ordinals, hlen]
      apply List.map_congr_left
      intro i _
      simp
    · have := hpairs.map Prod.fst
      simpa [List.map_map, Function.comp] using this
    · intro c hcm
      have hm : (c.Name, c.DataType) ∈ row.map (fun kv => (kv.1, GetSQLiteDataType kv.2)) :=
        hpairs.subset (List.mem_map_of_mem (fun c => (c.Name, c.DataType)) hcm)
      obtain ⟨kv, hkv, he⟩ := List.mem_map.1 hm
      obtain ⟨k, v⟩ := kv
      simp only [Prod.mk.injEq] at he
      exact ⟨v, by rw [← he.1]; exact hkv, he.2.symm⟩
  · intro hres
    simp only [hres, buildColumns]

/-- C14, witness: the completed record of the queue of three, whose first row
is `{"2": 2}`. -/
theorem waiForQueryResult_columns_witness :
    (0 : Int) ≤ 0 ∧
    threeQueued.mResultQueue =
      [newRecord 1 "1_conn1" "SELECT 1"] ++ finishedSecond :: [newRecord 3 "3_conn1" "SELECT 3"] ∧
    (∀ row, (selectOneEnv.rangeOrder row).Perm row) ∧
    finishedSecond.Result = [("2", Value.int 2)] :: [] ∧
    (waiForQueryResult selectOneEnv "2_conn1" 0 threeQueued).1.Columns.length =
      [("2", Value.int 2)].length ∧
    (waiForQueryResult selectOneEnv "2_conn1" 0 threeQueued).1.Columns.map (fun c => c.Ordinal) =
      (List.range [("2", Value.int 2)].length).map (fun (i : Nat) => (i : Int)) ∧
    ((waiForQueryResult selectOneEnv "2_conn1" 0 threeQueued).1.Columns.map
        (fun c => (c.Name, c.DataType))).Perm
      ([("2", Value.int 2)].map (fun kv => (kv.1, GetSQLiteDataType kv.2))) :=
  have h := (waiForQueryResult_columns selectOneEnv "2_conn1" 0 threeQueued
    [newRecord 1 "1_conn1" "SELECT 1"] finishedSecond [newRecord 3 "3_conn1" "SELECT 3"]
    (le_refl 0) rfl rfl (Or.inl rfl) (by decide) (fun row => List.Perm.refl row)).1
      [("2", Value.int 2)] [] rfl
  ⟨le_refl 0, rfl, fun row => List.Perm.refl row, rfl, h.1, h.2.1, h.2.2.1⟩

/-! ## C15: locked for the first `N` step calls, then done -/

/-- C15, counterexample: the step returns locked once (`N = 1`) and then done;
the backup returns nil after 2 step calls but has called the progress function
once, not twice: the step that reports done is not followed by a progress call. -/
theorem BackupOnlineDB_locked_then_done_counterexample :
    (BackupOnlineDB (lockedThenDone 1) 2 onlineConn (some 0) [onlineConn] true 250 (some 7)
        "ctx" []).map
      (fun r => (r.err, (stepEvents r.events).length, (progressEvents r.events).length)) =
      some (none, 2, 1) := by
  decide

/-- C15, amended: with an engine whose step returns locked for the first `N`
calls and then done (the destination reporting no error afterwards), a
connection registered in the group and no abort-on-locked option,
`BackupOnlineDB` returns nil after exactly `N + 1` step calls, `N` sleeps and
`N` calls of the progress function, one after each locked response, with the
page counts after that step and the caller's `extraData`. -/
theorem BackupOnlineDB_locked_then_done (eng : BackupEngine) (N fuel : Nat)
    (onlineDB : OpenDatabase) (pre post : List OpenDatabase) (ms : Int) (f : Nat)
    (extraData : String) (options : List String)
    (hopen : eng.openRc = SQLITE_OK) (hinit : eng.initOk = true)
    (hlocked : ∀ k, k < N → eng.stepRc k = SQLITE_LOCKED) (hdone : eng.stepRc N = SQLITE_DONE)
    (herr : eng.errcode (N + 1) = 0)
    (hopt : backup_raise_err_on_dblocked ∉ options)
    (hpre : ∀ e ∈ pre, e.DBHwnd ≠ onlineDB.DBHwnd) (hfuel : N < fuel) :
    ∃ res, BackupOnlineDB eng fuel onlineDB (some pre.length) (pre ++ onlineDB :: post) true ms
        (some f) extraData options = some res ∧
      res.err = none ∧
      (stepEvents res.events).length = N + 1 ∧
      (sleepEvents res.events).length = N ∧
      (progressEvents res.events).length = N ∧
      progressEvents res.events = (List.range N).map (fun k =>
        BackupEvent.progress f (eng.remaining (k + 1)) (eng.pagecount (k + 1)) extraData) := by
  have hl : decide (backup_raise_err_on_dblocked ∈ options) = false := by simpa using hopt
  have h := BackupOnlineDB_ends eng fuel onlineDB (some pre.length) (pre ++ onlineDB :: post) ms
    (some f) extraData options N hopen hinit
    (fun j hj => by rw [hlocked j hj, hl]; exact stepContinues_locked _)
    (by rw [hdone]; exact stepContinues_done _ _) hfuel
  simp only [set_at_length] at h
  have hprog := progressEvents_reportedSteps eng (if ms < 0 then 0 else ms) extraData pre
    { onlineDB with BackupProgress := some f } post f rfl hpre 0 N
  simp only [Nat.zero_add] at hprog
  refine ⟨_, h, ?_, ?_, ?_, ?_, ?_⟩
  · simp [herr]
  · simp only [stepEvents_append, stepEvents_reportedSteps, List.length_append, List.length_map,
      List.length_range]
    simp [stepEvents, List.filter]
  · simp only [sleepEvents_append, sleepEvents_reportedSteps, List.length_append,
      List.length_replicate]
    simp [sleepEvents, List.filter]
  · simp only [progressEvents_append, hprog, List.length_append, List.length_map,
      List.length_range]
    simp [progressEvents, List.filter]
  · simp only [progressEvents_append, hprog]
    simp [progressEvents, List.filter]

/-- C15, witness: locked twice, then done. -/
theorem BackupOnlineDB_locked_then_done_witness :
    (lockedThenDone 2).openRc = SQLITE_OK ∧ (lockedThenDone 2).initOk = true ∧
    (∀ k, k < 2 → (lockedThenDone 2).stepRc k = SQLITE_LOCKED) ∧
    (lockedThenDone 2).stepRc 2 = SQLITE_DONE ∧ (lockedThenDone 2).errcode (2 + 1) = 0 ∧
    backup_raise_err_on_dblocked ∉ ([] : List String) ∧
    ∃ res, BackupOnlineDB (lockedThenDone 2) 3 onlineConn (some ([] : List OpenDatabase).length)
        ([] ++ onlineConn :: []) true 250 (some 7) "ctx" [] = some res ∧
      res.err = none ∧
      (stepEvents res.events).length = 2 + 1 ∧
      (sleepEvents res.events).length = 2 ∧
      (progressEvents res.events).length = 2 ∧
      progressEvents res.events = (List.range 2).map (fun k =>
        BackupEvent.progress 7 ((lockedThenDone 2).remaining (k + 1))
          ((lockedThenDone 2).pagecount (k + 1)) "ctx") :=
  ⟨rfl, rfl, by decide, rfl, rfl, by decide,
   BackupOnlineDB_locked_then_done (lockedThenDone 2) 2 3 onlineConn [] [] 250 7 "ctx" []
     rfl rfl (by decide) rfl rfl (by decide) (by decide) (by decide)⟩

/-! ## C16: the abort options of the backup -/

/-- C16: let the step loop reach the step call `m`. With the option
"backup-raise-err-on-dblocked" (resp. "backup-raise-err-on-busy") a result
LOCKED (resp. BUSY) of that call ends the loop: it is the last event, no step
call, sleep or progress call follows, and the error returned is the text of the
destination's error code, "database table is locked" (resp. "database file is
locked") when that code is the step's result. Without the option the same
result is followed by the progress report, a sleep of the configured interval
and the step call `m + 1`. -/
theorem BackupOnlineDB_abort_options (eng : BackupEngine) (fuel : Nat)
    (onlineDB : OpenDatabase) (registeredAt : Option Nat) (group : List OpenDatabase)
    (ms : Int) (prgCallback : Option Nat) (extraData : String) (options : List String)
    (m : Nat) (hopen : eng.openRc = SQLITE_OK) (hinit : eng.initOk = true)
    (hcont : ∀ j, j < m →
      stepContinues (decide (backup_raise_err_on_busy ∈ options))
        (decide (backup_raise_err_on_dblocked ∈ options)) (eng.stepRc j) = true) :
    (backup_raise_err_on_dblocked ∈ options → eng.stepRc m = SQLITE_LOCKED → m < fuel →
      ∃ res, BackupOnlineDB eng fuel onlineDB registeredAt group true ms prgCallback extraData
          options = some res ∧
        res.events.getLast? = some (BackupEvent.step SQLITE_LOCKED) ∧
        (stepEvents res.events).length = m + 1 ∧
        (sleepEvents res.events).length = m ∧
        (eng.errcode (m + 1) = SQLITE_LOCKED → res.err = some "database table is locked")) ∧
    (backup_raise_err_on_busy ∈ options → eng.stepRc m = SQLITE_BUSY → m < fuel →
      ∃ res, BackupOnlineDB eng fuel onlineDB registeredAt group true ms prgCallback extraData
          options = some res ∧
        res.events.getLast? = some (BackupEvent.step SQLITE_BUSY) ∧
        (stepEvents res.events).length = m + 1 ∧
        (sleepEvents res.events).length = m ∧
        (eng.errcode (m + 1) = SQLITE_BUSY → res.err = some "database file is locked")) ∧
    (∀ res, (backup_raise_err_on_dblocked ∉ options ∧ eng.stepRc m = SQLITE_LOCKED ∨
        backup_raise_err_on_busy ∉ options ∧ eng.stepRc m = SQLITE_BUSY) →
      BackupOnlineDB eng fuel onlineDB registeredAt group true ms prgCallback extraData
        options = some res →
      ∃ before tail, (stepEvents before).length = m ∧
        res.events = before ++ [BackupEvent.step (eng.stepRc m)] ++
          go_xProgress (eng.remaining (m + 1)) (eng.pagecount (m + 1)) onlineDB.DBHwnd extraData
            res.OpenDatabases ++
          [BackupEvent.sleep (cInt (if ms < 0 then 0 else ms))] ++
          [BackupEvent.step (eng.stepRc (m + 1))] ++ tail) ∧
    (0 ≤ ms → ms < 2 ^ 31 → cInt (if ms < 0 then 0 else ms) = ms) := by
  refine ⟨?_, ?_, ?_, ?_⟩
  · intro hopt hrc hfuel
    have hl : decide (backup_raise_err_on_dblocked ∈ options) = true := by simpa using hopt
    have h := BackupOnlineDB_ends eng fuel onlineDB registeredAt group ms prgCallback extraData
      options m hopen hinit hcont (by rw [hrc, hl]; exact stepContinues_locked_abort _) hfuel
    refine ⟨_, h, ?_, ?_, ?_, ?_⟩
    · simp [hrc]
    · simp only [stepEvents_append, stepEvents_reportedSteps, List.length_append,
        List.length_map, List.length_range]
      simp [stepEvents, List.filter]
    · simp only [sleepEvents_append, sleepEvents_reportedSteps, List.length_append,
        List.length_replicate]
      simp [sleepEvents, List.filter]
    · intro he
      simp only [he]
      decide
  · intro hopt hrc hfuel
    have hb : decide (backup_raise_err_on_busy ∈ options) = true := by simpa using hopt
    have h := BackupOnlineDB_ends eng fuel onlineDB registeredAt group ms prgCallback extraData
      options m hopen hinit hcont (by rw [hrc, hb]; exact stepContinues_busy_abort _) hfuel
    refine ⟨_, h, ?_, ?_, ?_, ?_⟩
    · simp [hrc]
    · simp only [stepEvents_append, stepEvents_reportedSteps, List.length_append,
        List.length_map, List.length_range]
      simp [stepEvents, List.filter]
    · simp only [sleepEvents_append, sleepEvents_reportedSteps, List.length_append,
        List.length_replicate]
      simp [sleepEvents, List.filter]
    · intro he
      simp only [he]
      decide
  · intro res hcase hres
    have hm : stepContinues (decide (backup_raise_err_on_busy ∈ options))
        (decide (backup_raise_err_on_dblocked ∈ options)) (eng.stepRc m) = true := by
      rcases hcase with ⟨hopt, hrc⟩ | ⟨hopt, hrc⟩
      · have hl : decide (backup_raise_err_on_dblocked ∈ options) = false := by simpa using hopt
        rw [hrc, hl]
        exact stepContinues_locked _
      · have hb : decide (backup_raise_err_on_busy ∈ options) = false := by simpa using hopt
        rw [hrc, hb]
        exact stepContinues_busy _
    obtain ⟨M, hM, hMcont, hMstop⟩ := BackupOnlineDB_some eng fuel onlineDB registeredAt group ms
      prgCallback extraData options res hopen hinit hres
    have hlt : m < M := by
      by_contra hge
      have hle : M ≤ m := by omega
      rcases Nat.lt_or_eq_of_le hle with h1 | h1
      · rw [hcont M h1] at hMstop
        exact absurd hMstop (by simp)
      · rw [h1, hm] at hMstop
        exact absurd hMstop (by simp)
    obtain ⟨d, rfl⟩ : ∃ d, M = m + (1 + d) := ⟨M - m - 1, by omega⟩
    have h := BackupOnlineDB_ends eng fuel onlineDB registeredAt group ms prgCallback extraData
      options (m + (1 + d)) hopen hinit hMcont hMstop hM
    rw [hres] at h
    have hres2 := Option.some.inj h
    have key : ∀ (ms1 : Int) (grp : List OpenDatabase), ∃ before tail,
        (stepEvents before).length = m ∧
        reportedSteps eng ms1 onlineDB.DBHwnd extraData grp 0 (m + (1 + d)) ++
            [BackupEvent.step (eng.stepRc (m + (1 + d)))] =
          before ++ [BackupEvent.step (eng.stepRc m)] ++
            go_xProgress (eng.remaining (m + 1)) (eng.pagecount (m + 1)) onlineDB.DBHwnd
              extraData grp ++
            [BackupEvent.sleep (cInt ms1)] ++
            [BackupEvent.step (eng.stepRc (m + 1))] ++ tail := by
      intro ms1 grp
      obtain ⟨tail, htail⟩ := reportedSteps_then_step eng ms1 onlineDB.DBHwnd extraData grp
        (m + 1) d
      refine ⟨reportedSteps eng ms1 onlineDB.DBHwnd extraData grp 0 m, tail, ?_, ?_⟩
      · simp [stepEvents_reportedSteps]
      · rw [reportedSteps_add eng ms1 onlineDB.DBHwnd extraData grp 0 m (1 + d),
          reportedSteps_add eng ms1 onlineDB.DBHwnd extraData grp (0 + m) 1 d, Nat.zero_add,
          ← Nat.add_assoc m 1 d]
        simp only [List.append_assoc]
        rw [htail]
        simp [reportedSteps]
    subst hres2
    exact key _ _
  · intro h0 h1
    rw [if_neg (by omega)]
    exact cInt_of_range ms h0 h1

/-- C16, witness: one step that copies pages, then a locked step, with the
abort-on-locked option (the loop ends there with the locked error) and without
any option (progress report, sleep of 250 ms and a third step call follow). -/
theorem BackupOnlineDB_abort_options_witness :
    stepThenLocked.openRc = SQLITE_OK ∧ stepThenLocked.initOk = true ∧
    (∀ j, j < 1 →
      stepContinues (decide (backup_raise_err_on_busy ∈ [backup_raise_err_on_dblocked]))
        (decide (backup_raise_err_on_dblocked ∈ [backup_raise_err_on_dblocked]))
        (stepThenLocked.stepRc j) = true) ∧
    (∃ res, BackupOnlineDB stepThenLocked 2 onlineConn (some 0) [onlineConn] true 250 (some 7)
        "ctx" [backup_raise_err_on_dblocked] = some res ∧
      res.events.getLast? = some (BackupEvent.step SQLITE_LOCKED) ∧
      (stepEvents res.events).length = 1 + 1 ∧
      (sleepEvents res.events).length = 1 ∧
      res.err = some "database table is locked") ∧
    (∃ before tail, (stepEvents before).length = 1 ∧
      [BackupEvent.step SQLITE_OK, BackupEvent.progress 7 4 9 "ctx", BackupEvent.sleep 250,
        BackupEvent.step SQLITE_LOCKED, BackupEvent.progress 7 4 9 "ctx", BackupEvent.sleep 250,
        BackupEvent.step SQLITE_DONE] =
        before ++ [BackupEvent.step SQLITE_LOCKED] ++
          [BackupEvent.progress 7 4 9 "ctx"] ++ [BackupEvent.sleep 250] ++
          [BackupEvent.step SQLITE_DONE] ++ tail) := by
  refine ⟨rfl, rfl, by decide, ?_, ?_⟩
  · obtain ⟨res, h1, h2, h3, h4, h5⟩ :=
      (BackupOnlineDB_abort_options stepThenLocked 2 onlineConn (some 0) [onlineConn] 250
        (some 7) "ctx" [backup_raise_err_on_dblocked] 1 rfl rfl (by decide)).1
        (by decide) rfl (by decide)
    exact ⟨res, h1, h2, h3, h4, h5 rfl⟩
  · exact
      (BackupOnlineDB_abort_options stepThenLocked 3 onlineConn (some 0) [onlineConn] 250
        (some 7) "ctx" [] 1 rfl rfl (by decide)).2.2.1
        { err := none
          events := [BackupEvent.step SQLITE_OK, BackupEvent.progress 7 4 9 "ctx",
            BackupEvent.sleep 250, BackupEvent.step SQLITE_LOCKED,
            BackupEvent.progress 7 4 9 "ctx", BackupEvent.sleep 250,
            BackupEvent.step SQLITE_DONE]
          onlineDB := { DBHwnd := some 1, BackupProgress := some 7 }
          OpenDatabases := [{ DBHwnd := some 1, BackupProgress := some 7 }] }
        (Or.inl ⟨by decide, rfl⟩) (by decide)

/-! ## C17: one progress call per step call that does not end the loop -/

/-- C17, counterexample: the first step call reports done. The backup returns
nil after one completed step call and the progress function, although set on
the registered connection, has not been called. -/
theorem BackupOnlineDB_progress_counterexample :
    (BackupOnlineDB doneAtOnce 1 onlineConn (some 0) [onlineConn] true 250 (some 7)
        "ctx" []).map
      (fun r => (r.err, (stepEvents r.events).length, progressEvents r.events)) =
      some (none, 1, []) := by
  decide

/-- C17, amended: for every sequence of step responses under which the loop
ends at the step call `m` (done, a fatal code, or busy or locked with the abort
option), and a connection registered in the group, `BackupOnlineDB` makes
`m + 1` step calls and calls the progress function `m` times: once after each
step call but the one that ends the loop, with the engine's pages-remaining and
total-page counts after that step and the caller's `extraData`. -/
theorem BackupOnlineDB_progress_per_step (eng : BackupEngine) (m fuel : Nat)
    (onlineDB : OpenDatabase) (pre post : List OpenDatabase) (ms : Int) (f : Nat)
    (extraData : String) (options : List String)
    (hopen : eng.openRc = SQLITE_OK) (hinit : eng.initOk = true)
    (hcont : ∀ j, j < m →
      stepContinues (decide (backup_raise_err_on_busy ∈ options))
        (decide (backup_raise_err_on_dblocked ∈ options)) (eng.stepRc j) = true)
    (hstop : stepContinues (decide (backup_raise_err_on_busy ∈ options))
        (decide (backup_raise_err_on_dblocked ∈ options)) (eng.stepRc m) = false)
    (hpre : ∀ e ∈ pre, e.DBHwnd ≠ onlineDB.DBHwnd) (hfuel : m < fuel) :
    ∃ res, BackupOnlineDB eng fuel onlineDB (some pre.length) (pre ++ onlineDB :: post) true ms
        (some f) extraData options = some res ∧
      stepEvents res.events = (List.range (m + 1)).map (fun k => BackupEvent.step (eng.stepRc k)) ∧
      progressEvents res.events = (List.range m).map (fun k =>
        BackupEvent.progress f (eng.remaining (k + 1)) (eng.pagecount (k + 1)) extraData) ∧
      res.events.getLast? = some (BackupEvent.step (eng.stepRc m)) ∧
      (progressEvents res.events).length + 1 = (stepEvents res.events).length := by
  have h := BackupOnlineDB_ends eng fuel onlineDB (some pre.length) (pre ++ onlineDB :: post) ms
    (some f) extraData options m hopen hinit hcont hstop hfuel
  simp only [set_at_length] at h
  have hprog := progressEvents_reportedSteps eng (if ms < 0 then 0 else ms) extraData pre
    { onlineDB with BackupProgress := some f } post f rfl hpre 0 m
  simp only [Nat.zero_add] at hprog
  have hsteps : stepEvents
      (reportedSteps eng (if ms < 0 then 0 else ms) onlineDB.DBHwnd extraData
        (pre ++ { onlineDB with BackupProgress := some f } :: post) 0 m ++
        [BackupEvent.step (eng.stepRc m)]) =
      (List.range (m + 1)).map (fun k => BackupEvent.step (eng.stepRc k)) := by
    simp only [stepEvents_append, stepEvents_reportedSteps, Nat.zero_add, List.range_succ,
      List.map_append, List.map_cons, List.map_nil]
    simp [stepEvents, List.filter]
  have hprog2 : progressEvents
      (reportedSteps eng (if ms < 0 then 0 else ms) onlineDB.DBHwnd extraData
        (pre ++ { onlineDB with BackupProgress := some f } :: post) 0 m ++
        [BackupEvent.step (eng.stepRc m)]) =
      (List.range m).map (fun k =>
        BackupEvent.progress f (eng.remaining (k + 1)) (eng.pagecount (k + 1)) extraData) := by
    simp only [progressEvents_append, hprog]
    simp [progressEvents, List.filter]
  refine ⟨_, h, hsteps, hprog2, ?_, ?_⟩
  · simp
  · simp only [hsteps, hprog2, List.length_map, List.length_range]

/-- C17, witness: a step that copies pages, a locked step, then done: three
step calls, two progress calls. -/
theorem BackupOnlineDB_progress_per_step_witness :
    stepThenLocked.openRc = SQLITE_OK ∧ stepThenLocked.initOk = true ∧
    (∀ j, j < 2 →
      stepContinues (decide (backup_raise_err_on_busy ∈ ([] : List String)))
        (decide (backup_raise_err_on_dblocked ∈ ([] : List String)))
        (stepThenLocked.stepRc j) = true) ∧
    stepContinues (decide (backup_raise_err_on_busy ∈ ([] : List String)))
        (decide (backup_raise_err_on_dblocked ∈ ([] : List String)))
        (stepThenLocked.stepRc 2) = false ∧
    (∀ e ∈ ([] : List OpenDatabase), e.DBHwnd ≠ onlineConn.DBHwnd) ∧
    ∃ res, BackupOnlineDB stepThenLocked 3 onlineConn (some ([] : List OpenDatabase).length)
        ([] ++ onlineConn :: []) true 250 (some 7) "ctx" [] = some res ∧
      stepEvents res.events =
        (List.range (2 + 1)).map (fun k => BackupEvent.step (stepThenLocked.stepRc k)) ∧
      progressEvents res.events = (List.range 2).map (fun k =>
        BackupEvent.progress 7 (stepThenLocked.remaining (k + 1))
          (stepThenLocked.pagecount (k + 1)) "ctx") ∧
      res.events.getLast? = some (BackupEvent.step (stepThenLocked.stepRc 2)) ∧
      (progressEvents res.events).length + 1 = (stepEvents res.events).length :=
  ⟨rfl, rfl, by decide, by decide, by simp,
   BackupOnlineDB_progress_per_step stepThenLocked 2 3 onlineConn [] [] 250 7 "ctx" []
     rfl rfl (by decide) (by decide) (by simp) (by decide)⟩

/-! ## C18: the counters are restored -/

/-- C18: each operation that increments an operation counter leaves it, on
return, at the value it had when the call started, whatever the body of the
operation did (success or engine error) and on the early returns of the
validation, which come before the increment. The counters hold Go `int` values;
for `ExecuteNonQuery`, whose decrement in the direct branch is guarded by
`ExececuteNonQuerySeqNo > 0`, the counter is not negative and below the largest
`int` at the start. `GetResultSet`, when it returns, leaves the connection's
`getResultSetConnections` as it was, and it returns on a closed connection. -/
theorem counters_restored {σ : Type} (c : Counters) (s : State σ) (hrange : c.InRange = true) :
    (∀ work d isInMemory fileExists, (Exec work d isInMemory fileExists c s).counters = c) ∧
    (∀ work d, (Execute work d c s).counters = c) ∧
    (∀ work, 0 ≤ c.ExececuteNonQuerySeqNo → c.ExececuteNonQuerySeqNo < 2 ^ 63 - 1 →
      (ExecuteNonQuery work c s).counters = c) ∧
    (∀ (ρ : Type) (work : State σ → (ρ × Option String) × State σ),
      (Query work c s).counters = c) ∧
    (∀ fetch d isInMemory fileExists query,
      (GetDataTable fetch d isInMemory fileExists query c s).counters = c) ∧
    (∀ fetch callback d query, (GetDataTableAsync fetch callback d query c s).counters = c) ∧
    (∀ (env : Env σ) d sqlx q d1 s1, d.getResultSetConnections < 2 ^ 64 →
      GetResultSet env d sqlx s = some (q, d1, s1) →
      d1.getResultSetConnections = d.getResultSetConnections) ∧
    (∀ (env : Env σ) d sqlx, d.Closed = true →
      ∃ q, GetResultSet env d sqlx s = some (q, d, s)) := by
  rw [Counters.InRange_iff] at hrange
  obtain ⟨h1, h2, h3, h4, h5, h6⟩ := hrange
  obtain ⟨gdt, ex, exe, enq, esc, qry⟩ := c
  simp only at h1 h2 h3 h4 h5 h6
  refine ⟨?_, ?_, ?_, ?_, ?_, ?_, ?_, ?_⟩
  · intro work d isInMemory fileExists
    unfold Exec
    split
    · rfl
    · split
      · rfl
      · simp only [intDec_intInc ex h2]
  · intro work d
    unfold Execute
    split
    · rfl
    · simp only [intDec_intInc exe h3]
  · intro work h0 hmax
    have hinc : intInc enq = enq + 1 := intInc_of_lt enq (by simp only at h0; omega)
      (by simpa using hmax)
    have hdec : intDec (intInc enq) = enq := intDec_intInc enq h4
    unfold ExecuteNonQuery
    simp only at h0
    simp only [hdec]
    split
    · rw [if_pos (by rw [hinc]; omega)]
    · rfl
  · intro ρ work
    unfold Query
    simp only [intDec_intInc qry h6]
  · intro fetch d isInMemory fileExists query
    unfold GetDataTable
    simp only
    split
    · rfl
    · split
      · rfl
      · split
        · rfl
        · split
          · rfl
          · simp only [intDec_intInc gdt h1]
  · intro fetch callback d query
    unfold GetDataTableAsync
    split
    · rfl
    · simp only [intDec_intInc gdt h1]
  · intro env d sqlx q d1 s1 hd h
    unfold GetResultSet at h
    split at h
    · simp only [Option.some.injEq, Prod.mk.injEq] at h
      rw [← h.2.1]
    · simp only at h
      split at h
      · exact absurd h (by simp)
      · simp only [Option.some.injEq, Prod.mk.injEq] at h
        rw [← h.2.1]
        simp only
        unfold uintDec uintInc
        omega
  · intro env d sqlx hc
    exact ⟨{ QueryResult.zero with Err := some "database is not open" },
      by simp [GetResultSet, hc]⟩

/-- C18, witness: on a fresh process each operation leaves the counters at
zero, for a body that succeeds, a body that fails in the engine and for the
early returns; `GetResultSet` leaves `getResultSetConnections` at 0. -/
theorem counters_restored_witness :
    Counters.zero.InRange = true ∧
    (Exec insertedOne (some conn1) true true Counters.zero freshState).counters = Counters.zero ∧
    (Exec engineFails (some conn1) false true Counters.zero freshState).counters =
      Counters.zero ∧
    (Exec insertedOne none false false Counters.zero freshState).counters = Counters.zero ∧
    (Execute engineFails conn1 Counters.zero freshState).counters = Counters.zero ∧
    (Execute insertedOne closedConn Counters.zero freshState).counters = Counters.zero ∧
    (ExecuteNonQuery insertedOne Counters.zero freshState).counters = Counters.zero ∧
    (Query queryOk Counters.zero freshState).counters = Counters.zero ∧
    (GetDataTable fetchOne (some conn1) true true "SELECT a FROM t" Counters.zero
      freshState).counters = Counters.zero ∧
    (GetDataTable fetchOne (some conn1) true true "x" Counters.zero freshState).counters =
      Counters.zero ∧
    (GetDataTableAsync fetchOne none conn1 "SELECT a FROM t" Counters.zero
      freshState).counters = Counters.zero ∧
    (∃ q d1 s1, GetResultSet selectOneEnv conn1 "SELECT 1" freshState = some (q, d1, s1) ∧
      d1.getResultSetConnections = conn1.getResultSetConnections) ∧
    (∃ q, GetResultSet selectOneEnv closedConn "SELECT 1" freshState =
      some (q, closedConn, freshState)) := by
  have h := counters_restored Counters.zero freshState (by decide)
  have hres := GetResultSet_empty_done selectOneEnv conn1 "SELECT 1" freshState rfl rfl rfl
    (by decide) (by decide)
  exact ⟨by decide, h.1 _ _ _ _, h.1 _ _ _ _, h.1 _ _ _ _, h.2.1 _ _, h.2.1 _ _,
    h.2.2.1 _ (by decide) (by decide), h.2.2.2.1 _ _, h.2.2.2.2.1 _ _ _ _ _,
    h.2.2.2.2.1 _ _ _ _ _, h.2.2.2.2.2.1 _ _ _ _,
    ⟨_, _, _, hres, h.2.2.2.2.2.2.1 selectOneEnv conn1 "SELECT 1" _ _ _ (by decide) hres⟩,
    h.2.2.2.2.2.2.2 selectOneEnv closedConn "SELECT 1" rfl⟩

/-! ## C19: `Busy` and the counters -/

/-- C19, counterexample: with `ExecSeqNo = 1` (an `Exec` call is running) a
connection whose engine handle is nil, and the nil connection, are reported not
busy, although the database is not idle. -/
theorem Busy_nil_handle_counterexample :
    Busy (some noHandle) { Counters.zero with ExecSeqNo := 1 } = false ∧
    Busy none { Counters.zero with ExecSeqNo := 1 } = false ∧
    IsIdle { Counters.zero with ExecSeqNo := 1 } = false ∧
    (0 : Int) < ({ Counters.zero with ExecSeqNo := 1 } : Counters).ExecSeqNo := by
  decide

/-- C19, amended: for a connection that is not nil and whose engine handle is
not nil, `Busy` returns true exactly when at least one of the six counters is
greater than 0, that is `Busy() = !IsIdle()`. For the nil connection and for a
connection whose handle is nil it returns false whatever the counters. -/
theorem Busy_iff_counter_positive (d : DB) (c : Counters) (h : d.DBHwnd ≠ none) :
    (Busy (some d) c = true ↔
      (0 < c.ExecSeqNo ∨ 0 < c.GetDataTableSeqNo ∨ 0 < c.ExecuteSeqNo ∨
        0 < c.ExececuteNonQuerySeqNo ∨ 0 < c.ExececuteScalreSeqNo ∨ 0 < c.QuerySeqNo)) ∧
    Busy (some d) c = !IsIdle c ∧
    Busy none c = false ∧
    Busy (some { d with DBHwnd := none }) c = false := by
  have hb : Busy (some d) c = !IsIdle c := by
    simp only [Busy, if_neg h]
    cases IsIdle c <;> rfl
  refine ⟨?_, hb, rfl, ?_⟩
  · rw [hb, ← IsIdle_false_iff]
    cases IsIdle c <;> simp
  · simp [Busy]

/-- C19, witness: an open connection while a `GetDataTable` call is counted. -/
theorem Busy_iff_counter_positive_witness :
    conn1.DBHwnd ≠ none ∧
    (Busy (some conn1) { Counters.zero with GetDataTableSeqNo := 1 } = true ↔
      ((0 : Int) < 0 ∨ (0 : Int) < 1 ∨ (0 : Int) < 0 ∨ (0 : Int) < 0 ∨ (0 : Int) < 0 ∨
        (0 : Int) < 0)) ∧
    Busy (some conn1) { Counters.zero with GetDataTableSeqNo := 1 } =
      !IsIdle { Counters.zero with GetDataTableSeqNo := 1 } ∧
    Busy none { Counters.zero with GetDataTableSeqNo := 1 } = false ∧
    Busy (some { conn1 with DBHwnd := none }) { Counters.zero with GetDataTableSeqNo := 1 } =
      false :=
  ⟨by decide,
   Busy_iff_counter_positive conn1 { Counters.zero with GetDataTableSeqNo := 1 } (by decide)⟩

/-! ## C20: `ExecuteScalare` and its counter -/

/-- C20: `ExecuteScalare` never writes `ExececuteScalreSeqNo`. While its body
talks to the engine the counters are those of the start of the call, so the
counter is not one greater, `IsIdle` and `Busy` answer as before the call, and
on a fresh process the database is reported idle and not busy during the call.
`Exec`, by contrast, runs its body with `ExecSeqNo` incremented. -/
theorem ExecuteScalare_counter_unmoved {σ : Type} (work : State σ → goChanWork × State σ)
    (c : Counters) (s : State σ) :
    (ExecuteScalare work c s).during = some c ∧
    (ExecuteScalare work c s).counters = c ∧
    (∀ d, (ExecuteScalare work c s).during.map (Busy d) = some (Busy d c)) ∧
    (ExecuteScalare work c s).during.map IsIdle = some (IsIdle c) ∧
    (ExecuteScalare scalarOne Counters.zero freshState).during.map
      (fun k => (k.ExececuteScalreSeqNo, IsIdle k, Busy (some conn1) k)) =
      some (0, true, false) ∧
    (Exec insertedOne (some conn1) true true Counters.zero freshState).during.map
      (fun k => (k.ExecSeqNo, IsIdle k, Busy (some conn1) k)) = some (1, false, true) := by
  have hd : (ExecuteScalare work c s).during = some c := by
    unfold ExecuteScalare
    simp only
    split <;> rfl
  have hc : (ExecuteScalare work c s).counters = c := by
    unfold ExecuteScalare
    simp only
    split <;> rfl
  refine ⟨hd, hc, ?_, ?_, by decide, by decide⟩
  · intro d
    rw [hd]
    rfl
  · rw [hd]
    rfl

/-! ## C21: `GetResultSet` on a closed connection -/

/-- C21: on a connection whose `Closed` flag is set `GetResultSet` returns at
once with `Err` "database is not open" and no rows (every other field of the
result is zero); no record is enqueued, `GetResultSetSeqNo` and
`getResultSetConnections` keep their values and the engine is not called: the
connection and the package state are returned as they were. -/
theorem GetResultSet_closed {σ : Type} (env : Env σ) (d : DB) (sqlx : String) (s : State σ)
    (hClosed : d.Closed = true) :
    ∃ q d1 s1, GetResultSet env d sqlx s = some (q, d1, s1) ∧
      q.Err = some "database is not open" ∧ q.ResultTable = [] ∧
      q = { QueryResult.zero with Err := some "database is not open" } ∧
      s1.mResultQueue = s.mResultQueue ∧
      s1.GetResultSetSeqNo = s.GetResultSetSeqNo ∧
      d1.getResultSetConnections = d.getResultSetConnections ∧
      s1.engineCalls = s.engineCalls ∧ s1.engine = s.engine ∧
      d1 = d ∧ s1 = s := by
  refine ⟨{ QueryResult.zero with Err := some "database is not open" }, d, s, ?_,
    rfl, rfl, rfl, rfl, rfl, rfl, rfl, rfl, rfl, rfl⟩
  simp [GetResultSet, hClosed]

/-- C21, witness: a closed connection on a state with two pending requests. -/
theorem GetResultSet_closed_witness :
    closedConn.Closed = true ∧
    ∃ q d1 s1, GetResultSet selectOneEnv closedConn "SELECT 1" twoPending = some (q, d1, s1) ∧
      q.Err = some "database is not open" ∧ q.ResultTable = [] ∧
      q = { QueryResult.zero with Err := some "database is not open" } ∧
      s1.mResultQueue = twoPending.mResultQueue ∧
      s1.GetResultSetSeqNo = twoPending.GetResultSetSeqNo ∧
      d1.getResultSetConnections = closedConn.getResultSetConnections ∧
      s1.engineCalls = twoPending.engineCalls ∧ s1.engine = twoPending.engine ∧
      d1 = closedConn ∧ s1 = twoPending :=
  ⟨rfl, GetResultSet_closed selectOneEnv closedConn "SELECT 1" twoPending rfl⟩

/-! ## C22: the error of a statement that is not the last -/

/-- C22: evaluation of `Execute` on a text of two statements of which the
engine fails on the first (the table `missing` does not exist) and succeeds on
the second: both statements reach the engine, and `Execute` returns a nil
error and the row count of the second statement, not -1; the error of the
first statement is overwritten. With the statements in the other order the
error of the failing one, now the last, is returned with -1. -/
theorem Execute_error_overwritten :
    statementsOf "INSERT INTO missing VALUES (1); SELECT 1" =
      ["INSERT INTO missing VALUES (1)", " SELECT 1"] ∧
    getSQLiteErr (missingTableEnv.exec () conn1.DBHwnd "INSERT INTO missing VALUES (1)").1.rc
      (missingTableEnv.exec () conn1.DBHwnd "INSERT INTO missing VALUES (1)").1.errmsg =
      some "no such table: missing" ∧
    (ExecuteSQL missingTableEnv oneChange conn1 "INSERT INTO missing VALUES (1); SELECT 1"
      Counters.zero freshState).ret = (1, none) ∧
    (ExecuteSQL missingTableEnv oneChange conn1 "INSERT INTO missing VALUES (1); SELECT 1"
      Counters.zero freshState).state.engineCalls =
      [(some 1, "INSERT INTO missing VALUES (1)"), (some 1, "SELECT 1")] ∧
    (ExecuteSQL missingTableEnv oneChange conn1 "SELECT 1; INSERT INTO missing VALUES (1)"
      Counters.zero freshState).ret = (-1, some "no such table: missing") := by
  decide

/-! ## C23: the `SeqNo` of consecutive `GetDataTable` calls -/

/-- C23: evaluation of two `GetDataTable` calls made one after another on an
open connection of a fresh process. Both return a `DataTable` with `SeqNo` 1:
the second is not greater than the first. -/
theorem GetDataTable_SeqNo_repeats :
    (GetDataTable fetchOne (some conn1) true true "SELECT a FROM t" Counters.zero
      freshState).ret.1.SeqNo = 1 ∧
    (GetDataTable fetchOne (some conn1) true true "SELECT a FROM t"
      (GetDataTable fetchOne (some conn1) true true "SELECT a FROM t" Counters.zero
        freshState).counters
      (GetDataTable fetchOne (some conn1) true true "SELECT a FROM t" Counters.zero
        freshState).state).ret.1.SeqNo = 1 ∧
    ¬ ((GetDataTable fetchOne (some conn1) true true "SELECT a FROM t" Counters.zero
        freshState).ret.1.SeqNo <
      (GetDataTable fetchOne (some conn1) true true "SELECT a FROM t"
        (GetDataTable fetchOne (some conn1) true true "SELECT a FROM t" Counters.zero
          freshState).counters
        (GetDataTable fetchOne (some conn1) true true "SELECT a FROM t" Counters.zero
          freshState).state).ret.1.SeqNo) := by
  decide

/-- Two `GetDataTable` calls made one after another that both reach the engine
(neither returns on the validation of the query or of the connection) carry
the same `SeqNo`: the value of `GetDataTableSeqNo` while the call runs, which
is its value before the call plus one, the counter being decremented again
when the call returns. -/
theorem GetDataTable_SeqNo_consecutive {σ : Type}
    (fetch : String → State σ → Fetched × State σ) (d : Option DB)
    (isInMemory fileExists isInMemory2 fileExists2 : Bool) (query query2 : String)
    (c : Counters) (s : State σ) (hrange : isGoInt c.GetDataTableSeqNo = true)
    (h1 : (GetDataTable fetch d isInMemory fileExists query c s).during ≠ none)
    (h2 : (GetDataTable fetch d isInMemory2 fileExists2 query2
      (GetDataTable fetch d isInMemory fileExists query c s).counters
      (GetDataTable fetch d isInMemory fileExists query c s).state).during ≠ none) :
    (GetDataTable fetch d isInMemory fileExists query c s).ret.1.SeqNo =
      intInc c.GetDataTableSeqNo ∧
    (GetDataTable fetch d isInMemory fileExists query c s).counters = c ∧
    (GetDataTable fetch d isInMemory2 fileExists2 query2
      (GetDataTable fetch d isInMemory fileExists query c s).counters
      (GetDataTable fetch d isInMemory fileExists query c s).state).ret.1.SeqNo =
      (GetDataTable fetch d isInMemory fileExists query c s).ret.1.SeqNo := by
  have key : ∀ (mem fex : Bool) (q : String) (c0 : Counters) (s0 : State σ),
      isGoInt c0.GetDataTableSeqNo = true →
      (GetDataTable fetch d mem fex q c0 s0).during ≠ none →
      (GetDataTable fetch d mem fex q c0 s0).ret.1.SeqNo = intInc c0.GetDataTableSeqNo ∧
      (GetDataTable fetch d mem fex q c0 s0).counters = c0 := by
    intro mem fex q c0 s0 hr hd
    unfold GetDataTable at hd ⊢
    simp only at hd ⊢
    split
    · rw [if_pos (by assumption)] at hd
      exact absurd rfl hd
    · rw [if_neg (by assumption)] at hd
      split
      · rw [if_pos (by assumption)] at hd
        exact absurd rfl hd
      · rw [if_neg (by assumption)] at hd
        split
        · rw [if_pos (by assumption)] at hd
          exact absurd rfl hd
        · rw [if_neg (by assumption)] at hd
          split
          · rw [if_pos (by assumption)] at hd
            exact absurd rfl hd
          · refine ⟨rfl, ?_⟩
            simp only [intDec_intInc _ hr]
  obtain ⟨ha, hb⟩ := key isInMemory fileExists query c s hrange h1
  rw [hb] at h2 ⊢
  obtain ⟨hc, _⟩ := key isInMemory2 fileExists2 query2 c _ hrange h2
  exact ⟨ha, rfl, by rw [hc, ha]⟩

/-- An instance of `GetDataTable_SeqNo_consecutive`: two calls on a fresh
process. -/
theorem GetDataTable_SeqNo_consecutive_witness :
    isGoInt Counters.zero.GetDataTableSeqNo = true ∧
    (GetDataTable fetchOne (some conn1) true true "SELECT a FROM t" Counters.zero
      freshState).during ≠ none ∧
    (GetDataTable fetchOne (some conn1) false true "PRAGMA page_count"
      (GetDataTable fetchOne (some conn1) true true "SELECT a FROM t" Counters.zero
        freshState).counters
      (GetDataTable fetchOne (some conn1) true true "SELECT a FROM t" Counters.zero
        freshState).state).during ≠ none ∧
    (GetDataTable fetchOne (some conn1) true true "SELECT a FROM t" Counters.zero
      freshState).ret.1.SeqNo = intInc Counters.zero.GetDataTableSeqNo ∧
    (GetDataTable fetchOne (some conn1) true true "SELECT a FROM t" Counters.zero
      freshState).counters = Counters.zero ∧
    (GetDataTable fetchOne (some conn1) false true "PRAGMA page_count"
      (GetDataTable fetchOne (some conn1) true true "SELECT a FROM t" Counters.zero
        freshState).counters
      (GetDataTable fetchOne (some conn1) true true "SELECT a FROM t" Counters.zero
        freshState).state).ret.1.SeqNo =
      (GetDataTable fetchOne (some conn1) true true "SELECT a FROM t" Counters.zero
        freshState).ret.1.SeqNo :=
  ⟨by decide, by decide, by decide,
   GetDataTable_SeqNo_consecutive fetchOne (some conn1) true true false true "SELECT a FROM t"
     "PRAGMA page_count" Counters.zero freshState (by decide) (by decide) (by decide)⟩

/-! ## C24: `DB.Get` and the command parameters -/

/-- C24: evaluation of `DB.Get`. For the listed parameter "collation_list" the
SQL text submitted is "PRAGMA database_list;", not "PRAGMA collation_list;":
the text never names the parameter asked for. The test of the parameter is a
substring test on the formatted list, so "list", which is not one of the ten
parameters, is accepted and queries the database as well; a text that is not
a substring, such as "journal_mode", gets "invalid command" with no engine
call. -/
theorem DB_Get_submits_database_list :
    CmdParam.CollationList = "collation_list" ∧
    (∃ r d1 s1, DB.Get selectOneEnv conn1 "collation_list" freshState = some (r, d1, s1) ∧
      s1.engineCalls = [(some 1, "PRAGMA database_list;")] ∧
      (some 1, "PRAGMA collation_list;") ∉ s1.engineCalls ∧ r.2 = none) ∧
    "list" ∉ CmdParam.values ∧
    (∃ r d1 s1, DB.Get selectOneEnv conn1 "list" freshState = some (r, d1, s1) ∧
      s1.engineCalls = [(some 1, "PRAGMA database_list;")] ∧ r.2 = none) ∧
    "journal_mode" ∉ CmdParam.values ∧
    (∃ d1 s1, DB.Get selectOneEnv conn1 "journal_mode" freshState =
        some (([], some "invalid command"), d1, s1) ∧
      s1.engineCalls = []) := by
  refine ⟨rfl, ?_, by decide, ?_, by decide, ?_⟩
  · obtain ⟨r, d1, s1, h, hc, he⟩ := DB.Get_accepted selectOneEnv conn1 "collation_list"
      freshState (by rw [CmdParam_format]; decide) rfl rfl rfl (by decide) (by decide)
    refine ⟨r, d1, s1, h, hc, ?_, he⟩
    rw [hc]
    decide
  · obtain ⟨r, d1, s1, h, hc, he⟩ := DB.Get_accepted selectOneEnv conn1 "list"
      freshState (by rw [CmdParam_format]; decide) rfl rfl rfl (by decide) (by decide)
    exact ⟨r, d1, s1, h, hc, he⟩
  · refine ⟨conn1, freshState, ?_, rfl⟩
    have hrej : Contains CmdParam.format "journal_mode" = false := by
      rw [CmdParam_format]
      decide
    simp [DB.Get, hrej]

/-! ## C25: a partial path that matches several open databases -/

/-- C25: evaluation of `DBGroup.Get`. The partial path "/data/app" matches both
open databases of the group and `Get` returns the two of them with a nil
error; whenever at least one open database matches, whatever the number, the
matching databases are returned with a nil error; and a nil error is also
returned when none matches and the file named by the text exists. -/
theorem DBGroup_Get_partial_path :
    DBGroup.Get asciiLower twoOpen false none "/data/app" = (twoOpen, none, twoOpen) ∧
    twoOpen.length = 2 ∧
    (∀ db ∈ twoOpen, db.UniqueName ≠ "/data/app" ∧ db.filePath ≠ "/data/app" ∧
      Contains (asciiLower db.filePath) (asciiLower "/data/app") = true) ∧
    (∀ (ToLower : String → String) (group : List GroupDB) (fileExists : Bool)
      (opened : Option GroupDB) (srchTxt : String),
      group.filter (groupMatch ToLower srchTxt) ≠ [] →
      DBGroup.Get ToLower group fileExists opened srchTxt =
        (group.filter (groupMatch ToLower srchTxt), none, group)) ∧
    (DBGroup.Get asciiLower twoOpen true none "/data/other").2.1 = none := by
  refine ⟨by decide, rfl, by decide, ?_, by decide⟩
  intro ToLower group fileExists opened srchTxt h
  have hl : (group.filter (groupMatch ToLower srchTxt)).length ≠ 0 := by
    simpa using h
  simp only [DBGroup.Get, if_neg hl]

/-! ## C26: `RepairSqlite3FileStub` -/

/-- C26: for a content `b` of at least 32 bytes the result of
`RepairSqlite3FileStub` has the length of `b`, its first 32 bytes are the
decoded header constant and its bytes from index 32 on are those of `b`; for
every `b` the result has the SQLite format mark and repairing it again changes
nothing. -/
theorem RepairSqlite3FileStub_spec (b : List Nat) :
    (32 ≤ b.length →
      (RepairSqlite3FileStub b).length = b.length ∧
      (RepairSqlite3FileStub b).take 32 = DecodeString sqlite3_dbfile_emtpy_header ∧
      (RepairSqlite3FileStub b).drop 32 = b.drop 32 ∧
      (∀ i, 32 ≤ i → (RepairSqlite3FileStub b)[i]? = b[i]?)) ∧
    (DecodeString sqlite3_dbfile_emtpy_header).length = 32 ∧
    IsFileSQLiteFormat (RepairSqlite3FileStub b) = true ∧
    RepairSqlite3FileStub (RepairSqlite3FileStub b) = RepairSqlite3FileStub b := by
  have hlen : (DecodeString sqlite3_dbfile_emtpy_header).length = 32 := by
    rw [DecodeString_header]
    rfl
  have hdrop : (RepairSqlite3FileStub b).drop 32 = b.drop 32 := by
    rw [RepairSqlite3FileStub_eq, ← hlen, List.drop_left]
  have htake : (RepairSqlite3FileStub b).take 32 = DecodeString sqlite3_dbfile_emtpy_header := by
    rw [RepairSqlite3FileStub_eq, ← hlen, List.take_left]
  refine ⟨?_, hlen, ?_, ?_⟩
  · intro h
    refine ⟨?_, htake, hdrop, ?_⟩
    · rw [RepairSqlite3FileStub_eq, List.length_append, hlen, List.length_drop]
      omega
    · intro i hi
      obtain ⟨k, rfl⟩ : ∃ k, i = 32 + k := ⟨i - 32, by omega⟩
      rw [← List.getElem?_drop, ← List.getElem?_drop, hdrop]
  · have h15 : (RepairSqlite3FileStub b).take 15 = asciiBytes "SQLite format 3" := by
      have : (RepairSqlite3FileStub b).take 15 = ((RepairSqlite3FileStub b).take 32).take 15 := by
        rw [List.take_take]
        rfl
      rw [this, htake, DecodeString_header]
      decide
    have hl : ¬ (RepairSqlite3FileStub b).length < 15 := by
      rw [RepairSqlite3FileStub_eq, List.length_append, hlen]
      omega
    have hc : (asciiBytes "SQLite format 3").length = 15 := by decide
    simp only [IsFileSQLiteFormat, hc, if_neg hl, h15, if_true]
  · rw [RepairSqlite3FileStub_eq (RepairSqlite3FileStub b), hdrop, ← RepairSqlite3FileStub_eq]

/-- C26, witness: a content of 34 bytes keeps its two last bytes; a content of
3 bytes becomes the 32 bytes of the header. -/
theorem RepairSqlite3FileStub_spec_witness :
    (RepairSqlite3FileStub (List.replicate 32 7 ++ [1, 2])).length = 34 ∧
    (RepairSqlite3FileStub (List.replicate 32 7 ++ [1, 2])).drop 32 = [1, 2] ∧
    IsFileSQLiteFormat (List.replicate 32 7 ++ [1, 2]) = false ∧
    IsFileSQLiteFormat (RepairSqlite3FileStub (List.replicate 32 7 ++ [1, 2])) = true ∧
    (RepairSqlite3FileStub [1, 2, 3]).length = 32 ∧
    IsFileSQLiteFormat (RepairSqlite3FileStub [1, 2, 3]) = true := by
  have h := RepairSqlite3FileStub_spec (List.replicate 32 7 ++ [1, 2])
  have h3 := RepairSqlite3FileStub_spec [1, 2, 3]
  have hb : 32 ≤ (List.replicate 32 7 ++ [1, 2]).length := by decide
  refine ⟨(h.1 hb).1, ?_, by decide, h.2.2.1, ?_, h3.2.2.1⟩
  · rw [(h.1 hb).2.2.1]
    decide
  · rw [RepairSqlite3FileStub_eq]
    decide

/-! ## C27: `processRequestQueue` and the requests of other connections -/

/-- C27, counterexample: the queue holds the request "1_conn2", enqueued by a
`GetResultSet` call on `conn2` whose engine call found the database locked and
left it not started. `processRequestQueue` called on `conn1` passes its SQL
text to the engine on the handle of `conn1` and completes the record. -/
theorem processRequestQueue_other_connection_counterexample :
    (∃ q d1, GetResultSet lockedEnv conn2 "SELECT 2" freshState = some (q, d1, otherPending)) ∧
    otherPending.mResultQueue.map (fun r => (r.QueryID, r.SQLStmt, notStarted r)) =
      [("1_conn2", "SELECT 2", true)] ∧
    conn1.DBHwnd = some 1 ∧ conn2.DBHwnd = some 2 ∧
    (processRequestQueue selectOneEnv conn1 otherPending).map (fun s1 => s1.engineCalls) =
      some [(some 2, "SELECT 2"), (some 1, "SELECT 2")] ∧
    (processRequestQueue selectOneEnv conn1 otherPending).map
      (fun s1 => s1.mResultQueue.map (fun r => (r.QueryID, r.Started, r.Finished))) =
      some [("1_conn2", true, true)] ∧
    (processRequestQueue selectOneEnv conn1 otherPending).map
      (fun s1 => s1.mResultQueue.map (fun r => r.Result)) = some [[[("1", Value.int 1)]]] ∧
    (processRequestQueue selectOneEnv conn1 otherPending).map (fun s1 => s1.mResultQueue) ≠
      some otherPending.mResultQueue := by
  refine ⟨⟨_, _, GetResultSet_empty_locked lockedEnv conn2 "SELECT 2" freshState rfl rfl rfl
    (by decide)⟩, by decide, rfl, rfl, by decide, by decide, by decide, by decide⟩

/-- C27, amended: `processRequestQueue` called on connection `d` returns (the
engine never reporting "out of memory") after passing to the engine, on the
handle of `d` and in queue order, the SQL text of every record of the queue
that is not `Processed`, not `Received` and not `Started`, whichever connection
enqueued it, and nothing else. With pairwise distinct `QueryID`s the records
that are `Processed`, `Received` or `Started` are left untouched, and each
record that is run is marked `Started` with its start time, receives the rows
of its engine call and is then reset (the engine answered "database is
locked") or completed with the error and return code of the call. -/
theorem processRequestQueue_runs_unstarted {σ : Type} (env : Env σ) (d : DB) (s : State σ)
    (hFatal : ∀ e h sql, getSQLiteErr (env.exec e h sql).1.rc (env.exec e h sql).1.errmsg ≠
      some "out of memory") :
    ∃ s1, processRequestQueue env d s = some s1 ∧
      s1.engineCalls = s.engineCalls ++
        (s.mResultQueue.filter notStarted).map (fun r => (d.DBHwnd, r.SQLStmt)) ∧
      s1.mResultQueue.length = s.mResultQueue.length ∧
      ((queueIDs s.mResultQueue).Nodup →
        ∀ (k : Nat) (r : queryResult), s.mResultQueue[k]? = some r → notStarted r = false →
          s1.mResultQueue[k]? = some r) ∧
      ((queueIDs s.mResultQueue).Nodup →
        ∀ (k : Nat) (r : queryResult), s.mResultQueue[k]? = some r → notStarted r = true →
          ∃ (e : σ) (t : Nat), s1.mResultQueue[k]? = some
            (if getSQLiteErr (env.exec e d.DBHwnd r.SQLStmt).1.rc
                (env.exec e d.DBHwnd r.SQLStmt).1.errmsg = some "database is locked" then
              resetRecord { r with
                Started := true, TimeStarted := t
                Result := r.Result ++
                  (env.exec e d.DBHwnd r.SQLStmt).1.rows.map (fun cells => buildRow cells []) }
            else
              finishRecord
                (getSQLiteErr (env.exec e d.DBHwnd r.SQLStmt).1.rc
                  (env.exec e d.DBHwnd r.SQLStmt).1.errmsg)
                (env.exec e d.DBHwnd r.SQLStmt).1.rc (t + 1)
                { r with
                  Started := true, TimeStarted := t
                  Result := r.Result ++
                    (env.exec e d.DBHwnd r.SQLStmt).1.rows.map
                      (fun cells => buildRow cells []) })) := by
  obtain ⟨s1, h1, h2, h3⟩ := processLoop_calls env d hFatal s.mResultQueue.length 0 s (by omega)
  refine ⟨s1, h1, by simpa using h2, h3, ?_, ?_⟩
  · intro hnd k r hk hr
    exact processLoop_untouched env d _ 0 s s1 hnd h1 k r hk (Or.inr hr)
  · intro hnd k r hk hr
    obtain ⟨e, t, ht⟩ := processLoop_processed env d _ 0 s s1 hnd h1 (by omega) k r hk
      (by omega) hr
    refine ⟨e, t, ?_⟩
    rw [ht]
    simp only [beq_iff_eq]

/-- C27, witness: on a queue with a completed request between two pending
ones, the two pending requests are passed to the engine, started and
completed, and the completed record is left as it is. -/
theorem processRequestQueue_runs_unstarted_witness :
    (∀ (e : Unit) h sql, getSQLiteErr (selectOneEnv.exec e h sql).1.rc
      (selectOneEnv.exec e h sql).1.errmsg ≠ some "out of memory") ∧
    ∃ s1, processRequestQueue selectOneEnv conn1 threeQueued = some s1 ∧
      s1.engineCalls = threeQueued.engineCalls ++
        (threeQueued.mResultQueue.filter notStarted).map
          (fun r => (conn1.DBHwnd, r.SQLStmt)) ∧
      s1.mResultQueue.length = threeQueued.mResultQueue.length ∧
      ((queueIDs threeQueued.mResultQueue).Nodup →
        ∀ (k : Nat) (r : queryResult), threeQueued.mResultQueue[k]? = some r →
          notStarted r = false →
          s1.mResultQueue[k]? = some r) ∧
      ((queueIDs threeQueued.mResultQueue).Nodup →
        ∀ (k : Nat) (r : queryResult), threeQueued.mResultQueue[k]? = some r →
          notStarted r = true →
          ∃ (e : Unit) (t : Nat), s1.mResultQueue[k]? = some
            (if getSQLiteErr (selectOneEnv.exec e conn1.DBHwnd r.SQLStmt).1.rc
                (selectOneEnv.exec e conn1.DBHwnd r.SQLStmt).1.errmsg =
                  some "database is locked" then
              resetRecord { r with
                Started := true, TimeStarted := t
                Result := r.Result ++
                  (selectOneEnv.exec e conn1.DBHwnd r.SQLStmt).1.rows.map
                    (fun cells => buildRow cells []) }
            else
              finishRecord
                (getSQLiteErr (selectOneEnv.exec e conn1.DBHwnd r.SQLStmt).1.rc
                  (selectOneEnv.exec e conn1.DBHwnd r.SQLStmt).1.errmsg)
                (selectOneEnv.exec e conn1.DBHwnd r.SQLStmt).1.rc (t + 1)
                { r with
                  Started := true, TimeStarted := t
                  Result := r.Result ++
                    (selectOneEnv.exec e conn1.DBHwnd r.SQLStmt).1.rows.map
                      (fun cells => buildRow cells []) })) :=
  ⟨by simp [selectOneEnv, getSQLiteErr],
   processRequestQueue_runs_unstarted selectOneEnv conn1 threeQueued
     (by simp [selectOneEnv, getSQLiteErr])⟩

/-! ## C28: `Execute` and the request queue -/

/-- C28, counterexample: the request "1_conn1" is still queued after a
`GetResultSet` call that found the database locked, and the C variable
`queueID` still holds its `QueryID`. `Execute("SELECT 1")` then makes the row
callback append the row of its statement to that record: the queue after
`Execute` differs from the queue before it. -/
theorem Execute_queue_counterexample :
    (∃ q d1, GetResultSet lockedEnv conn1 "SELECT 1" freshState = some (q, d1, lockedPending)) ∧
    lockedPending.mResultQueue.map (fun r => (r.QueryID, r.Result)) = [("1_conn1", [])] ∧
    (ExecuteSQL selectOneEnv oneChange conn1 "SELECT 1" Counters.zero
      lockedPending).state.mResultQueue.map (fun r => (r.QueryID, r.Result)) =
      [("1_conn1", [[("1", Value.int 1)]])] ∧
    (ExecuteSQL selectOneEnv oneChange conn1 "SELECT 1" Counters.zero
      lockedPending).state.mResultQueue ≠ lockedPending.mResultQueue := by
  refine ⟨⟨_, _, GetResultSet_empty_locked lockedEnv conn1 "SELECT 1" freshState rfl rfl rfl
    (by decide)⟩, by decide, by decide, by decide⟩

/-- C28, amended: `Execute` changes the request queue only through the row
callback. It never sets the C variable `queueID`; when no record of the queue
carries the `QueryID` held there, and when the connection is closed or has no
handle, `mResultQueue` after `Execute` equals `mResultQueue` before it;
otherwise the rows the engine produces for the statements of the text, in
statement order, are appended to the `Result` of the first record with that
`QueryID`, every other record and field kept. -/
theorem Execute_queue_frame {σ : Type} (env : Env σ) (info : ChangeInfo σ) (d : DB)
    (sqlx : String) (c : Counters) (s : State σ) :
    (ExecuteSQL env info d sqlx c s).state.queueID = s.queueID ∧
    ((∀ x ∈ s.mResultQueue, x.QueryID ≠ s.queueID) →
      (ExecuteSQL env info d sqlx c s).state.mResultQueue = s.mResultQueue) ∧
    (d.Closed = true ∨ d.DBHwnd = none →
      (ExecuteSQL env info d sqlx c s).state.mResultQueue = s.mResultQueue) ∧
    (d.Closed = false → d.DBHwnd ≠ none →
      ∀ pre r post, s.mResultQueue = pre ++ r :: post → r.QueryID = s.queueID →
        (∀ x ∈ pre, x.QueryID ≠ s.queueID) →
        (ExecuteSQL env info d sqlx c s).state.mResultQueue =
          pre ++ { r with
            Result := r.Result ++ statementRows env d (statementsOf sqlx) s.engine } :: post) := by
  refine ⟨?_, ?_, ?_, ?_⟩
  · unfold ExecuteSQL Execute
    split
    · rfl
    · split
      · rfl
      · exact executeStatements_queueID env info d _ _ s
  · intro h
    unfold ExecuteSQL Execute
    split
    · rfl
    · split
      · rfl
      · exact executeStatements_absent env info d _ _ s h
  · intro h
    unfold ExecuteSQL Execute
    split
    · rfl
    · split
      · rfl
      · rcases h with h | h
        · exact absurd h (by assumption)
        · exact absurd h (by assumption)
  · intro hc hh pre r post hq hr hp
    unfold ExecuteSQL Execute
    rw [if_neg (by simp [hc]), if_neg hh]
    exact executeStatements_first_rows env info d _ _ s pre r post hq hr hp

/-- C28, witness: on a queue with two pending requests none of which carries
the `QueryID` held in `queueID`, `Execute` leaves the queue as it is; on the
queue left by a locked `GetResultSet` call, whose record still carries that
`QueryID`, the rows of the two statements are appended to the record. -/
theorem Execute_queue_frame_witness :
    (∀ x ∈ twoPending.mResultQueue, x.QueryID ≠ twoPending.queueID) ∧
    (ExecuteSQL selectOneEnv oneChange conn1 "SELECT 1; SELECT 2" Counters.zero
      twoPending).state.mResultQueue = twoPending.mResultQueue ∧
    conn1.Closed = false ∧ conn1.DBHwnd ≠ none ∧
    statementRows selectOneEnv conn1 (statementsOf "SELECT 1; SELECT 2") lockedPending.engine =
      [[("1", Value.int 1)], [("1", Value.int 1)]] ∧
    (ExecuteSQL selectOneEnv oneChange conn1 "SELECT 1; SELECT 2" Counters.zero
      lockedPending).state.mResultQueue =
      [] ++ { ({ newRecord 1 "1_conn1" "SELECT 1" with ExecResult := -1, TimeStarted := 0 } :
                queryResult) with
          Result :=
            ({ newRecord 1 "1_conn1" "SELECT 1" with ExecResult := -1, TimeStarted := 0 } :
              queryResult).Result ++
            statementRows selectOneEnv conn1 (statementsOf "SELECT 1; SELECT 2")
              lockedPending.engine } :: [] :=
  ⟨by decide,
   (Execute_queue_frame selectOneEnv oneChange conn1 "SELECT 1; SELECT 2" Counters.zero
     twoPending).2.1 (by decide),
   rfl, by decide, by decide,
   (Execute_queue_frame selectOneEnv oneChange conn1 "SELECT 1; SELECT 2" Counters.zero
     lockedPending).2.2.2 rfl (by decide) [] _ [] rfl rfl (by simp)⟩

/-! ## C29: the frame of `removeFromResultQueue` -/

/-- C29: when the queue holds a record with `QueryID` `q`, the first such
record `r` is the one removed: the queue left is one shorter, is a permutation
of the other records (each unchanged), and it is the old queue with the last
record moved to the position of `r`, the order of the rest kept. When no
record has `QueryID` `q`, and on the empty queue, the queue is unchanged. -/
theorem removeFromResultQueue_frame (q : String) (queue : List queryResult) :
    ((∃ x ∈ queue, x.QueryID = q) →
      ∃ pre r post, queue = pre ++ r :: post ∧ r.QueryID = q ∧
        (∀ x ∈ pre, x.QueryID ≠ q) ∧
        (removeFromResultQueue q queue).length + 1 = queue.length ∧
        (removeFromResultQueue q queue).Perm (pre ++ post) ∧
        removeFromResultQueue q queue =
          (match post.getLast? with
           | none => pre
           | some z => pre ++ z :: post.dropLast)) ∧
    ((∀ x ∈ queue, x.QueryID ≠ q) → removeFromResultQueue q queue = queue) ∧
    removeFromResultQueue q [] = [] := by
  refine ⟨?_, removeFromResultQueue_absent q queue, rfl⟩
  intro h
  obtain ⟨pre, r, post, hq, hr, hp⟩ := exists_first_query q queue h
  subst hq
  have hperm := removeFromResultQueue_perm q pre r post hr hp
  refine ⟨pre, r, post, rfl, hr, hp, ?_, hperm, removeFromResultQueue_first q pre r post hr hp⟩
  rw [hperm.length_eq]
  simp
  omega

/-- C29, witness: the completed request "2_conn1" is removed from a queue of
three, and the last record takes its place; a `QueryID` that is not queued
leaves the queue as it is. -/
theorem removeFromResultQueue_frame_witness :
    removeFromResultQueue "2_conn1" threeQueued.mResultQueue =
      [newRecord 1 "1_conn1" "SELECT 1", newRecord 3 "3_conn1" "SELECT 3"] ∧
    removeFromResultQueue "1_conn1" threeQueued.mResultQueue =
      [newRecord 3 "3_conn1" "SELECT 3", finishedSecond] ∧
    removeFromResultQueue "9_conn1" threeQueued.mResultQueue = threeQueued.mResultQueue ∧
    removeFromResultQueue "9_conn1" [] = [] := by
  have h := removeFromResultQueue_frame "9_conn1" threeQueued.mResultQueue
  exact ⟨by decide, by decide, h.2.1 (by decide), rfl⟩

end GoSqlite
